import Mathlib

/-!
# pdfcpu `validate` package: file specifications and the page tree

A shallow embedding of `validate/fileSpec.go` and `validate/pages.go` together
with the parts of the object model, the object resolver and the generic entry
validators they call. Go's `(value, error)` results become `Except Err value`;
a Go `nil` object is `PDFObject.null`; a Go pointer that may be `nil` is an
`Option`. The page counter of the cross reference table is the one piece of
state that is written: a function that writes it returns the table as well.
-/

namespace Pdfcpu

/-! ## Object model -/

/-- The document version, `types.PDFVersion`: an ordered enumeration `V10 .. V17`,
coded by its position. -/
abbrev PDFVersion := Nat

def V10 : PDFVersion := 0
def V11 : PDFVersion := 1
def V12 : PDFVersion := 2
def V13 : PDFVersion := 3
def V14 : PDFVersion := 4
def V15 : PDFVersion := 5
def V16 : PDFVersion := 6
def V17 : PDFVersion := 7

/-- The validation mode of a run. -/
inductive ValidationMode where
  | ValidationStrict
  | ValidationRelaxed
  deriving DecidableEq, Repr

/-- The object graph value. `null` is Go's `nil` object. A stream is its
dictionary; the payload is never read by the validators and is left out. -/
inductive PDFObject where
  | null
  | PDFBoolean (b : Bool)
  | PDFInteger (i : Int)
  | PDFFloat (f : Rat)
  | PDFName (s : String)
  | PDFStringLiteral (s : String)
  | PDFHexLiteral (s : String)
  | PDFArray (a : List PDFObject)
  | PDFDict (d : List (String × PDFObject))
  | PDFStreamDict (d : List (String × PDFObject))
  | PDFIndirectRef (objectNumber generationNumber : Nat)

/-- The entries of a `types.PDFDict`, in the order a `range` loop visits them. -/
abbrev Dict := List (String × PDFObject)

/-- The test `obj == nil`. -/
def PDFObject.isNil : PDFObject → Bool
  | .null => true
  | _ => false

/-- The method `dict.Find(key)`: the value stored under `key`, when there is one. -/
def Dict.Find (d : Dict) (key : String) : Option PDFObject :=
  List.lookup key d

/-- The method `dict.Type()`: the `Type` entry when it is stored as a name. It
has no access to the resolver, so a reference is not followed. -/
def Dict.Type (d : Dict) : Option String :=
  match d.Find "Type" with
  | some (.PDFName s) => some s
  | _ => none

/-! ## Errors -/

/-- The failures of a validation run. `errorf` is `errors.New` / `errors.Errorf`
of the source files, kept as format string and arguments. The other kinds are
those of the generic framework and the resolver. `nilDereference` is the
run-time failure of reading through a `nil` pointer, which ends the run as a
failure. -/
inductive Err where
  | errorf (format : String) (args : List String)
  | MissingRequiredField (dictRoleName fieldName : String)
  | TypeMismatch (dictRoleName fieldName expectedKind : String)
  | ResolveTypeMismatch (expectedKind : String)
  | MalformedValue (dictRoleName fieldName : String)
  | ConstraintViolated (fieldName : String) (value : PDFObject)
  | VersionTooLow (fieldName : String) (minVersion actual : PDFVersion)
  | ResolutionFailure (fault : String)
  | nilDereference

/-- The field an entry-validation failure is attributed to. -/
def Err.fieldName? : Err → Option String
  | .MissingRequiredField _ f => some f
  | .TypeMismatch _ f _ => some f
  | .MalformedValue _ f => some f
  | .ConstraintViolated f _ => some f
  | .VersionTooLow f _ _ => some f
  | _ => none

/-! ## Object resolver -/

/-- The cross reference table as the validators see it: the document version,
the validation mode, the page counter, and the object table, which answers a
reference with the object it stands for or with a fault. -/
structure XRefTable where
  Version : PDFVersion
  ValidationMode : ValidationMode
  PageCount : Int
  Table : Nat → Nat → Except String PDFObject

/-- Modelled from the spec: `xRefTable.Dereference` (types package), the
resolver's `resolve`. A reference is answered by the object table, a fault
is propagated as a resolution failure, and a value the caller already holds
concretely is returned as it is. -/
def XRefTable.Dereference (x : XRefTable) : PDFObject → Except Err PDFObject
  | .PDFIndirectRef n g =>
    match x.Table n g with
    | .ok o => .ok o
    | .error fault => .error (.ResolutionFailure fault)
  | o => .ok o

/-- Modelled from the spec: `xRefTable.DereferenceDict` (types package),
resolve then type-assert; Null resolves to no dictionary. -/
def XRefTable.DereferenceDict (x : XRefTable) (obj : PDFObject) : Except Err (Option Dict) :=
  match x.Dereference obj with
  | .error e => .error e
  | .ok .null => .ok none
  | .ok (.PDFDict d) => .ok (some d)
  | .ok _ => .error (.ResolveTypeMismatch "dictionary")

/-- Modelled from the spec: `xRefTable.DereferenceArray` (types package),
resolve then type-assert; Null resolves to no array. -/
def XRefTable.DereferenceArray (x : XRefTable) (obj : PDFObject) :
    Except Err (Option (List PDFObject)) :=
  match x.Dereference obj with
  | .error e => .error e
  | .ok .null => .ok none
  | .ok (.PDFArray a) => .ok (some a)
  | .ok _ => .error (.ResolveTypeMismatch "array")

/-- Modelled from the spec: `xRefTable.DereferenceStreamDict` (types package),
resolve then type-assert; Null resolves to no stream. -/
def XRefTable.DereferenceStreamDict (x : XRefTable) (obj : PDFObject) :
    Except Err (Option Dict) :=
  match x.Dereference obj with
  | .error e => .error e
  | .ok .null => .ok none
  | .ok (.PDFStreamDict d) => .ok (some d)
  | .ok _ => .error (.ResolveTypeMismatch "stream")

/-- Modelled from the spec: `validateStreamDict` (validate package, not among
the two source files): the value must resolve to a stream. -/
def validateStreamDict (x : XRefTable) (obj : PDFObject) : Except Err (Option Dict) :=
  x.DereferenceStreamDict obj

/-! ## Generic entry validation -/

def REQUIRED : Bool := true
def OPTIONAL : Bool := false

/-- The outcome of checking a resolved value against a kind: the typed value, a
value of another kind, a value of the right kind and the wrong shape, or a
fault met while resolving a part of the value. -/
inductive TypeCheck (α : Type) where
  | value (v : α)
  | mismatch
  | malformed
  | fault (e : Err)

/-- Modelled from the spec: the operation `validate<K>Entry` of the generic
entry-validation framework (validate package, not among the two source
files), steps 1 to 7 of its contract. `asK` is the type check against the
kind `K`, `kind` its name in diagnostics. -/
def validateEntry {α : Type} (asK : PDFObject → TypeCheck α) (kind : String)
    (x : XRefTable) (dict : Dict) (dictName entryName : String)
    (required : Bool) (sinceVersion : PDFVersion) (validate : Option (α → Bool)) :
    Except Err (Option α) :=
  -- 1. look the field up
  match dict.Find entryName with
  | none => if required then .error (.MissingRequiredField dictName entryName) else .ok none
  | some obj =>
    -- 2. and 3. resolve; a fault is propagated, Null is treated as absent
    match x.Dereference obj with
    | .error e => .error e
    | .ok .null =>
      if required then .error (.MissingRequiredField dictName entryName) else .ok none
    | .ok o =>
      -- 4. type check
      match asK o with
      | .fault e => .error e
      | .mismatch => .error (.TypeMismatch dictName entryName kind)
      | .malformed => .error (.MalformedValue dictName entryName)
      | .value v =>
        -- 5. version check
        if x.Version < sinceVersion then
          .error (.VersionTooLow entryName sinceVersion x.Version)
        else
          -- 6. predicate, 7. the typed value
          match validate with
          | none => .ok (some v)
          | some p => if p v then .ok (some v) else .error (.ConstraintViolated entryName o)

def asBoolean : PDFObject → TypeCheck Bool
  | .PDFBoolean b => .value b
  | _ => .mismatch

def asInteger : PDFObject → TypeCheck Int
  | .PDFInteger i => .value i
  | _ => .mismatch

def asName : PDFObject → TypeCheck String
  | .PDFName s => .value s
  | _ => .mismatch

/-- A string is a literal or a hex string. -/
def asString : PDFObject → TypeCheck String
  | .PDFStringLiteral s => .value s
  | .PDFHexLiteral s => .value s
  | _ => .mismatch

def asDict : PDFObject → TypeCheck Dict
  | .PDFDict d => .value d
  | _ => .mismatch

def asStreamDict : PDFObject → TypeCheck Dict
  | .PDFStreamDict d => .value d
  | _ => .mismatch

/-- A date is a string in the format-defined pattern, which is the parameter
`validDate`. -/
def asDate (validDate : String → Bool) : PDFObject → TypeCheck String
  | .PDFStringLiteral s => if validDate s then .value s else .malformed
  | .PDFHexLiteral s => if validDate s then .value s else .malformed
  | _ => .mismatch

/-- The elements of a homogeneous string array: each is resolved and must be a
string. -/
def stringElements (x : XRefTable) : List PDFObject → TypeCheck Unit
  | [] => .value ()
  | e :: rest =>
    match x.Dereference e with
    | .error err => .fault err
    | .ok (.PDFStringLiteral _) => stringElements x rest
    | .ok (.PDFHexLiteral _) => stringElements x rest
    | .ok _ => .mismatch

def asStringArray (x : XRefTable) : PDFObject → TypeCheck (List PDFObject)
  | .PDFArray a =>
    match stringElements x a with
    | .value _ => .value a
    | .mismatch => .mismatch
    | .malformed => .malformed
    | .fault e => .fault e
  | _ => .mismatch

def validateBooleanEntry := validateEntry asBoolean "boolean"
def validateIntegerEntry := validateEntry asInteger "integer"
def validateNameEntry := validateEntry asName "name"
def validateStringEntry := validateEntry asString "string"
def validateDictEntry := validateEntry asDict "dictionary"
def validateStreamDictEntry := validateEntry asStreamDict "stream"

def validateStringArrayEntry (x : XRefTable) :=
  validateEntry (asStringArray x) "string array" x

def validateDateEntry (validDate : String → Bool) (x : XRefTable) (dict : Dict)
    (dictName entryName : String) (required : Bool) (sinceVersion : PDFVersion) :
    Except Err (Option String) :=
  validateEntry (asDate validDate) "date" x dict dictName entryName required sinceVersion none

/-- The predicates of the validate package that the file specification
validators call and that are defined outside the two source files. They are
parameters of the development. -/
structure Predicates where
  validateFileSpecString : String → Bool
  validateURLString : String → Bool
  validDate : String → Bool

/-! ## `fileSpec.go` -/

section FileSpec

variable (P : Predicates)

def validateEmbeddedFileStreamMacParameterDict (xRefTable : XRefTable) (dict : Dict) :
    Except Err Unit := do
  let dictName := "embeddedFileStreamMacParameterDict"
  -- Subtype, optional integer
  let _ ← validateIntegerEntry xRefTable dict dictName "Subtype" OPTIONAL V10 none
  -- Creator, optional integer
  let _ ← validateIntegerEntry xRefTable dict dictName "Creator" OPTIONAL V10 none
  -- ResFork, optional stream dict
  let _ ← validateStreamDictEntry xRefTable dict dictName "ResFork" OPTIONAL V10 none
  return ()

/-- The parameter `obj` is the unresolved `Params` value. The test after the
resolution is on `obj`, not on `dict`; the entry validators that follow read
through the pointer `dict`. -/
def validateEmbeddedFileStreamParameterDict (xRefTable : XRefTable) (obj : PDFObject) :
    Except Err Unit := do
  let dict ← xRefTable.DereferenceDict obj
  if obj.isNil then
    return ()
  match dict with
  | none => throw Err.nilDereference
  | some dict =>
    let dictName := "embeddedFileStreamParmDict"
    -- Size, optional integer
    let _ ← validateIntegerEntry xRefTable dict dictName "Size" OPTIONAL V10 none
    -- CreationDate, optional date
    let _ ← validateDateEntry P.validDate xRefTable dict dictName "CreationDate" OPTIONAL V10
    -- ModDate, optional date
    let _ ← validateDateEntry P.validDate xRefTable dict dictName "ModDate" OPTIONAL V10
    -- Mac, optional dict
    let macDict ← validateDictEntry xRefTable dict dictName "Mac" OPTIONAL V10 none
    match macDict with
    | some macDict => validateEmbeddedFileStreamMacParameterDict xRefTable macDict
    | none => pure ()
    -- CheckSum, optional string
    let _ ← validateStringEntry xRefTable dict dictName "CheckSum" OPTIONAL V10 none
    return ()

/-- The parameter `sd` is a pointer; `&sd.PDFDict` reads through it. -/
def validateEmbeddedFileStreamDict (xRefTable : XRefTable) (sd : Option Dict) :
    Except Err Unit :=
  match sd with
  | none => throw Err.nilDereference
  | some sd => do
    let dictName := "embeddedFileStreamDict"
    -- Type, optional, name
    let _ ← validateNameEntry xRefTable sd dictName "Type" OPTIONAL V10
      (some (fun s => s == "EmbeddedFile"))
    -- Subtype, optional, name
    let _ ← validateNameEntry xRefTable sd dictName "Subtype" OPTIONAL V10 none
    -- Params, optional, dict
    match sd.Find "Params" with
    | some obj =>
      if !obj.isNil then
        validateEmbeddedFileStreamParameterDict P xRefTable obj
      else
        pure ()
    | none => pure ()
    return ()

def validateFileSpecDictEntriesEFAndRFKeys (k : String) : Bool :=
  k == "F" || k == "UF" || k == "DOS" || k == "Mac" || k == "Unix"

/-- The loop `for k, obj := range (*dict).Dict`. -/
def validateFileSpecDictEntryEFDict (xRefTable : XRefTable) : Dict → Except Err Unit
  | [] => pure ()
  | (k, obj) :: rest => do
    if !validateFileSpecDictEntriesEFAndRFKeys k then
      throw (Err.errorf "validateFileSpecEntriesEFAndRF: invalid key: %s" [k])
    -- value must be embedded file stream dict
    let sd ← validateStreamDict xRefTable obj
    validateEmbeddedFileStreamDict P xRefTable sd
    validateFileSpecDictEntryEFDict xRefTable rest

/-- The loop `for k, v := range *arr` of `validateEFDictFilesArray`, from
index `k` on. -/
def validateEFDictFilesArrayLoop (xRefTable : XRefTable) (k : Nat) :
    List PDFObject → Except Err Unit
  | [] => pure ()
  | v :: rest => do
    if v.isNil then
      throw (Err.errorf "validateEFDictFilesArray: rfDict, array entry nil" [])
    let obj ← xRefTable.Dereference v
    if obj.isNil then
      throw (Err.errorf "validateEFDictFilesArray: rfDict, array entry nil" [])
    if k % 2 > 0 then
      match obj with
      | .PDFStringLiteral _ => pure ()
      | _ => throw (Err.errorf "validateEFDictFilesArray: rfDict, array entry corrupt" [])
    else
      -- value must be embedded file stream dict
      let sd ← validateStreamDict xRefTable obj
      validateEmbeddedFileStreamDict P xRefTable sd
    validateEFDictFilesArrayLoop xRefTable (k + 1) rest

def validateEFDictFilesArray (xRefTable : XRefTable) (arr : List PDFObject) :
    Except Err Unit :=
  if arr.length % 2 > 0 then
    throw (Err.errorf "validateEFDictFilesArray: rfDict array corrupt" [])
  else
    validateEFDictFilesArrayLoop P xRefTable 0 arr

/-- The loop `for k, val := range (*rfDict).Dict` of
`validateFileSpecDictEntriesEFAndRF`. -/
def validateFileSpecDictEntriesEFAndRFLoop (xRefTable : XRefTable) (efDict : Dict) :
    Dict → Except Err Unit
  | [] => pure ()
  | (k, val) :: rest => do
    if (efDict.Find k).isNone then
      throw (Err.errorf
        "validateFileSpecEntriesEFAndRF: rfDict entry=%s missing corresponding efDict entry\n"
        [k])
    -- value must be related files array.
    let arr ← xRefTable.DereferenceArray val
    match arr with
    | none => pure ()
    | some arr => validateEFDictFilesArray P xRefTable arr
    validateFileSpecDictEntriesEFAndRFLoop xRefTable efDict rest

def validateFileSpecDictEntriesEFAndRF (xRefTable : XRefTable) (efDict rfDict : Option Dict) :
    Except Err Unit :=
  -- EF only or EF and RF
  match efDict with
  | none => throw (Err.errorf "validateFileSpecEntriesEFAndRF: missing required efDict." [])
  | some efDict => do
    validateFileSpecDictEntryEFDict P xRefTable efDict
    match rfDict with
    | some rfDict => validateFileSpecDictEntriesEFAndRFLoop P xRefTable efDict rfDict
    | none => pure ()

def validateFileSpecDictType (xRefTable : XRefTable) (dict : Dict) : Except Err Unit :=
  match dict.Type with
  | none => throw (Err.errorf "validateFileSpecDictType: missing type: FileSpec" [])
  | some t =>
    if t != "Filespec" &&
        (xRefTable.ValidationMode == ValidationMode.ValidationRelaxed && t != "F") then
      throw (Err.errorf "validateFileSpecDictType: missing type: FileSpec" [])
    else
      pure ()

def requiredF (dosFound macFound unixFound : Bool) : Bool :=
  !dosFound && !macFound && !unixFound

def validateFileSpecDictEFAndEF (xRefTable : XRefTable) (dict : Dict) (dictName : String) :
    Except Err Unit := do
  -- RF, optional, dict of related files arrays, since V1.3
  let rfDict ← validateDictEntry xRefTable dict dictName "RF" OPTIONAL V13 none
  -- EF, required if RF present, dict of embedded file streams, since 1.3
  let efDict ← validateDictEntry xRefTable dict dictName "EF" rfDict.isSome V13 none
  -- Type, required if EF present, name
  let validate := fun (s : String) =>
    s == "Filespec" ||
      (xRefTable.ValidationMode == ValidationMode.ValidationRelaxed && s == "F")
  let _ ← validateNameEntry xRefTable dict dictName "Type" efDict.isSome V10 (some validate)
  -- if EF present, Type "FileSpec" is required
  if efDict.isSome then
    validateFileSpecDictType xRefTable dict
    validateFileSpecDictEntriesEFAndRF P xRefTable efDict rfDict
  return ()

def validateFileSpecDict (xRefTable : XRefTable) (dict : Dict) : Except Err Unit := do
  let dictName := "fileSpecDict"
  -- FS, optional, name
  let fsName ← validateNameEntry xRefTable dict dictName "FS" OPTIONAL V10 none
  -- DOS, byte string, optional, obsolescent.
  let dosFound := (dict.Find "DOS").isSome
  -- Mac, byte string, optional, obsolescent.
  let macFound := (dict.Find "Mac").isSome
  -- Unix, byte string, optional, obsolescent.
  let unixFound := (dict.Find "Unix").isSome
  -- F, file spec string
  let validate :=
    if fsName == some "URL" then P.validateURLString else P.validateFileSpecString
  let _ ← validateStringEntry xRefTable dict dictName "F"
    (requiredF dosFound macFound unixFound) V10 (some validate)
  -- UF, optional, text string
  let sinceVersion :=
    if xRefTable.ValidationMode == ValidationMode.ValidationRelaxed then V14 else V17
  let _ ← validateStringEntry xRefTable dict dictName "UF" OPTIONAL sinceVersion
    (some P.validateFileSpecString)
  -- ID, optional, array of strings
  let _ ← validateStringArrayEntry xRefTable dict dictName "ID" OPTIONAL V11
    (some (fun arr => arr.length == 2))
  -- V, optional, boolean, since V1.2
  let _ ← validateBooleanEntry xRefTable dict dictName "V" OPTIONAL V12 none
  validateFileSpecDictEFAndEF P xRefTable dict dictName
  -- Desc, optional, text string, since V1.6
  let sinceVersion :=
    if xRefTable.ValidationMode == ValidationMode.ValidationRelaxed then V10 else V16
  let _ ← validateStringEntry xRefTable dict dictName "Desc" OPTIONAL sinceVersion none
  -- CI, optional, collection item dict, since V1.7
  let _ ← validateDictEntry xRefTable dict dictName "CI" OPTIONAL V17 none
  return ()

def validateFileSpecification (xRefTable : XRefTable) (obj : PDFObject) :
    Except Err PDFObject := do
  let obj ← xRefTable.Dereference obj
  match obj with
  | .PDFStringLiteral s =>
    if !P.validateFileSpecString s then
      throw (Err.errorf "validateFileSpecification: invalid file spec string: %s" [s])
  | .PDFHexLiteral s =>
    if !P.validateFileSpecString s then
      throw (Err.errorf "validateFileSpecification: invalid file spec string: %s" [s])
  | .PDFDict d => validateFileSpecDict P xRefTable d
  | _ => throw (Err.errorf "validateFileSpecification: invalid type" [])
  return obj

/-- The result `.ok .null` is Go's `(nil, nil)`. The parameter `sinceVersion`
is not read by the body. -/
def validateFileSpecEntry (xRefTable : XRefTable) (dict : Dict) (dictName entryName : String)
    (required : Bool) (_sinceVersion : PDFVersion) : Except Err PDFObject :=
  match dict.Find entryName with
  | none =>
    if required then
      throw (Err.errorf "validateFileSpecEntry: dict=%s required entry=%s missing"
        [dictName, entryName])
    else
      pure .null
  | some obj =>
    if obj.isNil then
      if required then
        throw (Err.errorf "validateFileSpecEntry: dict=%s required entry=%s missing"
          [dictName, entryName])
      else
        pure .null
    else do
      let obj ← xRefTable.Dereference obj
      if obj.isNil then
        if required then
          throw (Err.errorf "validateFileSpecEntry: dict=%s required entry=%s missing"
            [dictName, entryName])
        else
          return .null
      let fs ← validateFileSpecification P xRefTable obj
      return fs

end FileSpec

/-! ## Further kinds of the generic entry validation -/

/-- A number is an integer or a real. -/
def asNumber : PDFObject → TypeCheck Rat
  | .PDFInteger i => .value i
  | .PDFFloat f => .value f
  | _ => .mismatch

def asArray : PDFObject → TypeCheck (List PDFObject)
  | .PDFArray a => .value a
  | _ => .mismatch

/-- A name or a string. -/
def asNameOrString : PDFObject → TypeCheck Unit
  | .PDFName _ => .value ()
  | .PDFStringLiteral _ => .value ()
  | .PDFHexLiteral _ => .value ()
  | _ => .mismatch

/-- The elements of a homogeneous number array: each is resolved and must be a
number. -/
def numberElements (x : XRefTable) : List PDFObject → TypeCheck Unit
  | [] => .value ()
  | e :: rest =>
    match x.Dereference e with
    | .error err => .fault err
    | .ok (.PDFInteger _) => numberElements x rest
    | .ok (.PDFFloat _) => numberElements x rest
    | .ok _ => .mismatch

/-- The elements of a homogeneous integer array: each is resolved and must be
an integer. -/
def integerElements (x : XRefTable) : List PDFObject → TypeCheck Unit
  | [] => .value ()
  | e :: rest =>
    match x.Dereference e with
    | .error err => .fault err
    | .ok (.PDFInteger _) => integerElements x rest
    | .ok _ => .mismatch

/-- The elements of an array of indirect references: none is resolved. -/
def indRefElements : List PDFObject → TypeCheck Unit
  | [] => .value ()
  | .PDFIndirectRef _ _ :: rest => indRefElements rest
  | _ :: _ => .mismatch

def asNumberArray (x : XRefTable) : PDFObject → TypeCheck (List PDFObject)
  | .PDFArray a =>
    match numberElements x a with
    | .value _ => .value a
    | .mismatch => .mismatch
    | .malformed => .malformed
    | .fault e => .fault e
  | _ => .mismatch

def asIntegerArray (x : XRefTable) : PDFObject → TypeCheck (List PDFObject)
  | .PDFArray a =>
    match integerElements x a with
    | .value _ => .value a
    | .mismatch => .mismatch
    | .malformed => .malformed
    | .fault e => .fault e
  | _ => .mismatch

def asIndRefArray : PDFObject → TypeCheck (List PDFObject)
  | .PDFArray a =>
    match indRefElements a with
    | .value _ => .value a
    | _ => .mismatch
  | _ => .mismatch

/-- A rectangle is an array of four numbers; an array of another shape is
malformed. -/
def asRectangle (x : XRefTable) : PDFObject → TypeCheck (List PDFObject)
  | .PDFArray a =>
    if a.length = 4 then
      match numberElements x a with
      | .value _ => .value a
      | .fault e => .fault e
      | _ => .malformed
    else .malformed
  | _ => .mismatch

def validateNumberEntry := validateEntry asNumber "number"
def validateArrayEntry := validateEntry asArray "array"
def validateIndRefArrayEntry := validateEntry asIndRefArray "indirect reference array"

def validateNumberArrayEntry (x : XRefTable) :=
  validateEntry (asNumberArray x) "number array" x

def validateIntegerArrayEntry (x : XRefTable) :=
  validateEntry (asIntegerArray x) "integer array" x

def validateRectangleEntry (x : XRefTable) :=
  validateEntry (asRectangle x) "rectangle" x

def validateNameOrStringEntry (x : XRefTable) (dict : Dict) (dictName entryName : String)
    (required : Bool) (sinceVersion : PDFVersion) : Except Err Unit :=
  match validateEntry asNameOrString "name or string" x dict dictName entryName required
      sinceVersion none with
  | .error e => .error e
  | .ok _ => .ok ()

/-- Modelled from the spec: the Rotate predicate `validateRotate` (validate
package, not among the two source files): the values 0, 90, 180 and 270 pass. -/
def validateRotate (i : Int) : Bool :=
  i == 0 || i == 90 || i == 180 || i == 270

/-- The helper `memberOf` (validate package): `s` is one of `list`. -/
def memberOf (s : String) (list : List String) : Bool :=
  list.contains s

/-! ## Methods of a dictionary that read an entry of a given kind

They belong to the types package. They have no access to the resolver: the
entry counts only when it is stored as a value of the kind. -/

/-- The method `dict.IntEntry(key)`. -/
def Dict.IntEntry (d : Dict) (key : String) : Option Int :=
  match d.Find key with
  | some (.PDFInteger i) => some i
  | _ => none

/-- The method `dict.PDFArrayEntry(key)`. -/
def Dict.PDFArrayEntry (d : Dict) (key : String) : Option (List PDFObject) :=
  match d.Find key with
  | some (.PDFArray a) => some a
  | _ => none

/-- The method `dict.IndirectRefEntry(key)`: object and generation number. -/
def Dict.IndirectRefEntry (d : Dict) (key : String) : Option (Nat × Nat) :=
  match d.Find key with
  | some (.PDFIndirectRef n g) => some (n, g)
  | _ => none

/-- The table with the page counter set. -/
def XRefTable.setPageCount (x : XRefTable) (pageCount : Int) : XRefTable :=
  ⟨x.Version, x.ValidationMode, pageCount, x.Table⟩

/-! ## Collaborators of `pages.go` -/

/-- The validators and predicates of the validate package that `pages.go`
calls and that are defined outside the two source files. They are parameters
of the development. `resourceOrder` is the order in which the `range` loop of
`validateResourceDict` visits the keys of its map literal. -/
structure Collaborators where
  validateExtGStateResourceDict : XRefTable → PDFObject → PDFVersion → Except Err Unit
  validateFontResourceDict : XRefTable → PDFObject → PDFVersion → Except Err Unit
  validateXObjectResourceDict : XRefTable → PDFObject → PDFVersion → Except Err Unit
  validatePropertiesResourceDict : XRefTable → PDFObject → PDFVersion → Except Err Unit
  validateColorSpaceResourceDict : XRefTable → PDFObject → PDFVersion → Except Err Unit
  validatePatternResourceDict : XRefTable → PDFObject → PDFVersion → Except Err Unit
  validateShadingResourceDict : XRefTable → PDFObject → PDFVersion → Except Err Unit
  resourceOrder : List String
  validatePieceInfo : XRefTable → Dict → Bool → PDFVersion → Except Err Bool
  validateAdditionalActions :
    XRefTable → Dict → String → String → Bool → PDFVersion → String → Except Err Unit
  validateMetadata : XRefTable → Dict → Bool → PDFVersion → Except Err Unit
  validateGroupAttributesDict : XRefTable → Dict → Except Err Unit
  validateXObjectStreamDict : XRefTable → Dict → Except Err Unit
  validateColorSpaceArraySubset : XRefTable → List PDFObject → List String → Except Err Unit
  validateGuideLineStyle : String → Bool
  validateDi : Int → Bool
  validateTransitionDirectionOfMotion : String → Bool
  validateTransitionStyle : String → Bool
  validateTransitionStyleV15 : String → Bool
  validateTransitionDimension : String → Bool

/-! ## `pages.go` -/

section Pages

variable (P : Predicates) (E : Collaborators)

/-- The map literal of `validateResourceDict`: resource category, validator,
minimum version. -/
def resourceCategories :
    List (String × ((XRefTable → PDFObject → PDFVersion → Except Err Unit) × PDFVersion)) :=
  [("ExtGState", (E.validateExtGStateResourceDict, V10)),
    ("Font", (E.validateFontResourceDict, V10)),
    ("XObject", (E.validateXObjectResourceDict, V10)),
    ("Properties", (E.validatePropertiesResourceDict, V10)),
    ("ColorSpace", (E.validateColorSpaceResourceDict, V10)),
    ("Pattern", (E.validatePatternResourceDict, V10)),
    ("Shading", (E.validateShadingResourceDict, V13))]

/-- The loop `for k, v := range map[string]struct{...}` of
`validateResourceDict`, over the keys in the order they are visited. -/
def validateResourceDictLoop (xRefTable : XRefTable) (dict : Dict) :
    List String → Except Err Unit
  | [] => pure ()
  | k :: rest =>
    match List.lookup k (resourceCategories E) with
    | none => validateResourceDictLoop xRefTable dict rest
    | some v =>
      match dict.Find k with
      | some obj =>
        match v.1 xRefTable obj v.2 with
        | .error err => .error err
        | .ok _ => validateResourceDictLoop xRefTable dict rest
      | none => validateResourceDictLoop xRefTable dict rest

def validateResourceDict (xRefTable : XRefTable) (obj : PDFObject) : Except Err Bool :=
  match xRefTable.DereferenceDict obj with
  | .error err => .error err
  | .ok none => .ok false
  | .ok (some dict) =>
    match validateResourceDictLoop E xRefTable dict E.resourceOrder with
    | .error err => .error err
    | .ok _ => .ok true

/-- The test `obj == nil` on the loop variable of `validatePageContents` after
`obj, err = xRefTable.DereferenceStreamDict(obj)`. The loop variable is an
element of the array, of interface type. `DereferenceStreamDict` returns a
pointer, `*types.PDFStreamDict`, as `DereferenceDict` and `DereferenceArray`
return `*types.PDFDict` and `*types.PDFArray`. The assignment stores the
pointer in the interface variable, and in Go an interface value that holds a
pointer is not nil, also when the pointer is nil. -/
def interfaceHoldingPointerIsNil (_pointer : Option Dict) : Bool :=
  false

/-- The loop `for _, obj := range obj` of `validatePageContents`, with the
value `hasContents` has so far. -/
def validatePageContentsLoop (xRefTable : XRefTable) (hasContents : Bool) :
    List PDFObject → Except Err Bool
  | [] => .ok hasContents
  | obj :: rest =>
    match xRefTable.DereferenceStreamDict obj with
    | .error err => .error err
    | .ok obj =>
      if interfaceHoldingPointerIsNil obj then
        validatePageContentsLoop xRefTable hasContents rest
      else
        validatePageContentsLoop xRefTable true rest

def validatePageContents (xRefTable : XRefTable) (dict : Dict) : Except Err Bool :=
  match dict.Find "Contents" with
  | none => .ok false
  | some obj =>
    match xRefTable.Dereference obj with
    | .error err => .error err
    | .ok obj =>
      if obj.isNil then .ok false
      else
        match obj with
        | .PDFStreamDict _ =>
          -- no further processing.
          .ok true
        | .PDFArray arr =>
          -- process array of content stream dicts.
          validatePageContentsLoop xRefTable false arr
        | _ =>
          .error (.errorf
            "validatePageContents: page content must be stream dict or array" [])

def validatePageResources (xRefTable : XRefTable) (dict : Dict)
    (hasResources hasContents : Bool) : Except Err Unit :=
  match dict.Find "Resources" with
  | some obj =>
    match validateResourceDict E xRefTable obj with
    | .error err => .error err
    | .ok _ => .ok ()
  | none =>
    if !hasResources && hasContents then
      .error (.errorf
        "validatePageResources: missing required entry \"Resources\" - should be inheritated"
        [])
    else
      .ok ()

def validatePageEntryMediaBox (xRefTable : XRefTable) (dict : Dict) (required : Bool)
    (sinceVersion : PDFVersion) : Except Err Bool :=
  match validateRectangleEntry xRefTable dict "pageDict" "MediaBox" required sinceVersion
      none with
  | .error err => .error err
  | .ok obj => .ok obj.isSome

def validatePageEntryCropBox (xRefTable : XRefTable) (dict : Dict) (required : Bool)
    (sinceVersion : PDFVersion) : Except Err Unit := do
  let _ ← validateRectangleEntry xRefTable dict "pagesDict" "CropBox" required sinceVersion none
  return ()

def validatePageEntryBleedBox (xRefTable : XRefTable) (dict : Dict) (required : Bool)
    (sinceVersion : PDFVersion) : Except Err Unit := do
  let _ ← validateRectangleEntry xRefTable dict "pagesDict" "BleedBox" required sinceVersion
    none
  return ()

def validatePageEntryTrimBox (xRefTable : XRefTable) (dict : Dict) (required : Bool)
    (sinceVersion : PDFVersion) : Except Err Unit := do
  let _ ← validateRectangleEntry xRefTable dict "pagesDict" "TrimBox" required sinceVersion none
  return ()

def validatePageEntryArtBox (xRefTable : XRefTable) (dict : Dict) (required : Bool)
    (sinceVersion : PDFVersion) : Except Err Unit := do
  let _ ← validateRectangleEntry xRefTable dict "pagesDict" "ArtBox" required sinceVersion none
  return ()

def validateBoxStyleDictEntry (xRefTable : XRefTable) (dict : Dict)
    (dictName entryName : String) (required : Bool) (sinceVersion : PDFVersion) :
    Except Err (Option Dict) := do
  let d ← validateDictEntry xRefTable dict dictName entryName required sinceVersion none
  match d with
  | none => return none
  | some d =>
    let dictName := "boxStyleDict"
    -- C, number array with 3 elements, optional
    let _ ← validateNumberArrayEntry xRefTable d dictName "C" OPTIONAL sinceVersion
      (some (fun arr => arr.length == 3))
    -- W, number, optional
    let _ ← validateNumberEntry xRefTable d dictName "W" OPTIONAL sinceVersion none
    -- S, name, optional
    let _ ← validateNameEntry xRefTable d dictName "S" OPTIONAL sinceVersion
      (some E.validateGuideLineStyle)
    -- D, array, optional, since V1.3, dashArray
    let _ ← validateIntegerArrayEntry xRefTable d dictName "D" OPTIONAL sinceVersion none
    return some d

def validatePageBoxColorInfo (xRefTable : XRefTable) (pageDict : Dict) (required : Bool)
    (sinceVersion : PDFVersion) : Except Err Unit := do
  let dictName := "pageDict"
  let dict ← validateDictEntry xRefTable pageDict dictName "BoxColorInfo" required
    sinceVersion none
  match dict with
  | none => return ()
  | some dict =>
    let dictName := "boxColorInfoDict"
    let _ ← validateBoxStyleDictEntry E xRefTable dict dictName "CropBox" OPTIONAL sinceVersion
    let _ ← validateBoxStyleDictEntry E xRefTable dict dictName "BleedBox" OPTIONAL sinceVersion
    let _ ← validateBoxStyleDictEntry E xRefTable dict dictName "TrimBox" OPTIONAL sinceVersion
    let _ ← validateBoxStyleDictEntry E xRefTable dict dictName "ArtBox" OPTIONAL sinceVersion
    return ()

def validatePageEntryRotate (xRefTable : XRefTable) (dict : Dict) (required : Bool)
    (sinceVersion : PDFVersion) : Except Err Unit := do
  let _ ← validateIntegerEntry xRefTable dict "pagesDict" "Rotate" required sinceVersion
    (some validateRotate)
  return ()

def validatePageEntryGroup (xRefTable : XRefTable) (dict : Dict) (required : Bool)
    (sinceVersion : PDFVersion) : Except Err Unit := do
  let d ← validateDictEntry xRefTable dict "pageDict" "Group" required sinceVersion none
  match d with
  | some d => E.validateGroupAttributesDict xRefTable d
  | none => return ()

def validatePageEntryThumb (xRefTable : XRefTable) (dict : Dict) (required : Bool)
    (sinceVersion : PDFVersion) : Except Err Unit := do
  let streamDict ← validateStreamDictEntry xRefTable dict "pagesDict" "Thumb" required
    sinceVersion none
  match streamDict with
  | none => return ()
  | some streamDict => E.validateXObjectStreamDict xRefTable streamDict

def validatePageEntryB (xRefTable : XRefTable) (dict : Dict) (required : Bool)
    (sinceVersion : PDFVersion) : Except Err Unit := do
  -- Note: Only makes sense if "Threads" entry in document root and bead dicts present.
  let _ ← validateIndRefArrayEntry xRefTable dict "pagesDict" "B" required sinceVersion none
  return ()

def validatePageEntryDur (xRefTable : XRefTable) (dict : Dict) (required : Bool)
    (sinceVersion : PDFVersion) : Except Err Unit := do
  let _ ← validateNumberEntry xRefTable dict "pagesDict" "Dur" required sinceVersion none
  return ()

/-- The entry is read without the resolver; a value that is neither an integer
nor a name meets no case of the type switch. -/
def validateTransitionDictEntryDi (_xRefTable : XRefTable) (dict : Dict) : Except Err Unit :=
  match dict.Find "Di" with
  | none => .ok ()
  | some obj =>
    match obj with
    | .PDFInteger i =>
      if !E.validateDi i then
        .error (.errorf "validateTransitionDict: entry Di int value undefined" [])
      else .ok ()
    | .PDFName s =>
      if s != "None" then
        .error (.errorf "validateTransitionDict: entry Di name value undefined" [])
      else .ok ()
    | _ => .ok ()

/-- The predicate `validateM` that `validateTransitionDictEntryM` builds. -/
def validateM (transStyle : Option String) (s : String) : Bool :=
  E.validateTransitionDirectionOfMotion s &&
    (transStyle.isSome &&
      (transStyle == some "Split" || transStyle == some "Box" || transStyle == some "Fly"))

def validateTransitionDictEntryM (xRefTable : XRefTable) (dict : Dict) (dictName : String)
    (transStyle : Option String) : Except Err Unit :=
  match validateNameEntry xRefTable dict dictName "M" OPTIONAL V10
      (some (validateM E transStyle)) with
  | .error err => .error err
  | .ok _ => .ok ()

/-- The predicate `validateDm` that `validateTransitionDict` builds. -/
def validateDm (transStyle : Option String) (s : String) : Bool :=
  E.validateTransitionDimension s &&
    (transStyle.isSome && (transStyle == some "Split" || transStyle == some "Blinds"))

/-- The predicate `validateB` that `validateTransitionDict` builds. -/
def validateB (transStyle : Option String) (_b : Bool) : Bool :=
  transStyle.isSome && transStyle == some "Fly"

def validateTransitionDict (xRefTable : XRefTable) (dict : Dict) : Except Err Unit := do
  let dictName := "transitionDict"
  -- S, name, optional
  let validate :=
    if xRefTable.Version ≥ V15 then E.validateTransitionStyleV15
    else E.validateTransitionStyle
  let transStyle ← validateNameEntry xRefTable dict dictName "S" OPTIONAL V10 (some validate)
  -- D, optional, number > 0
  let _ ← validateNumberEntry xRefTable dict dictName "D" OPTIONAL V10
    (some (fun f => decide (f > 0)))
  -- Dm, optional, name
  let _ ← validateNameEntry xRefTable dict dictName "Dm" OPTIONAL V10
    (some (validateDm E transStyle))
  -- M, optional, name
  validateTransitionDictEntryM E xRefTable dict dictName transStyle
  -- Di, optional, number or name
  validateTransitionDictEntryDi E xRefTable dict
  -- SS, optional, number, since V1.5
  let _ ←
    if transStyle.isSome && transStyle == some "Fly" then
      validateNumberEntry xRefTable dict dictName "SS" OPTIONAL V15 none
    else pure none
  -- B, optional, boolean, since V1.5
  let _ ← validateBooleanEntry xRefTable dict dictName "B" OPTIONAL V15
    (some (validateB transStyle))
  return ()

def validatePageEntryTrans (xRefTable : XRefTable) (pageDict : Dict) (required : Bool)
    (sinceVersion : PDFVersion) : Except Err Unit := do
  let dict ← validateDictEntry xRefTable pageDict "pagesDict" "Trans" required sinceVersion
    none
  match dict with
  | none => return ()
  | some dict => validateTransitionDict E xRefTable dict

def validatePageEntryStructParents (xRefTable : XRefTable) (dict : Dict) (required : Bool)
    (sinceVersion : PDFVersion) : Except Err Unit := do
  let _ ← validateIntegerEntry xRefTable dict "pagesDict" "StructParents" required
    sinceVersion none
  return ()

def validatePageEntryID (xRefTable : XRefTable) (dict : Dict) (required : Bool)
    (sinceVersion : PDFVersion) : Except Err Unit := do
  let _ ← validateStringEntry xRefTable dict "pagesDict" "ID" required sinceVersion none
  return ()

def validatePageEntryPZ (xRefTable : XRefTable) (dict : Dict) (required : Bool)
    (sinceVersion : PDFVersion) : Except Err Unit := do
  -- Preferred zoom factor, number
  let _ ← validateNumberEntry xRefTable dict "pagesDict" "PZ" required sinceVersion none
  return ()

def validatePageEntrySeparationInfo (xRefTable : XRefTable) (pagesDict : Dict)
    (required : Bool) (sinceVersion : PDFVersion) : Except Err Unit := do
  let dict ← validateDictEntry xRefTable pagesDict "pagesDict" "SeparationInfo" required
    sinceVersion none
  match dict with
  | none => return ()
  | some dict =>
    let dictName := "separationDict"
    let _ ← validateIndRefArrayEntry xRefTable dict dictName "Pages" REQUIRED sinceVersion none
    validateNameOrStringEntry xRefTable dict dictName "DeviceColorant" required sinceVersion
    let arr ← validateArrayEntry xRefTable dict dictName "ColorSpace" OPTIONAL sinceVersion none
    match arr with
    | some arr => E.validateColorSpaceArraySubset xRefTable arr ["Separation", "DeviceN"]
    | none => return ()

def validatePageEntryTabs (xRefTable : XRefTable) (dict : Dict) (required : Bool)
    (sinceVersion : PDFVersion) : Except Err Unit := do
  -- Include out of spec entry "W"
  let validateTabs := fun (s : String) => memberOf s ["R", "C", "S", "W"]
  let _ ← validateNameEntry xRefTable dict "pagesDict" "Tabs" required sinceVersion
    (some validateTabs)
  return ()

def validatePageEntryTemplateInstantiated (xRefTable : XRefTable) (dict : Dict)
    (required : Bool) (sinceVersion : PDFVersion) : Except Err Unit := do
  let _ ← validateNameEntry xRefTable dict "pagesDict" "TemplateInstantiated" required
    sinceVersion none
  return ()

def validatePageEntryPresSteps (xRefTable : XRefTable) (pagesDict : Dict) (required : Bool)
    (sinceVersion : PDFVersion) : Except Err Unit := do
  let dict ← validateDictEntry xRefTable pagesDict "pagesDict" "PresSteps" required
    sinceVersion none
  match dict with
  | none => return ()
  | some _ => throw (Err.errorf "*** validatePageEntryPresSteps: not supported ***" [])

def validatePageEntryUserUnit (xRefTable : XRefTable) (dict : Dict) (required : Bool)
    (sinceVersion : PDFVersion) : Except Err Unit := do
  -- UserUnit, optional, positive number, since V1.6
  let _ ← validateNumberEntry xRefTable dict "pagesDict" "UserUnit" required sinceVersion
    (some (fun f => decide (f > 0)))
  return ()

def validateNumberFormatDict (xRefTable : XRefTable) (dict : Dict)
    (sinceVersion : PDFVersion) : Except Err Unit := do
  let dictName := "numberFormatDict"
  -- Type, name, optional
  let _ ← validateNameEntry xRefTable dict dictName "Type" OPTIONAL sinceVersion
    (some (fun s => s == "NumberFormat"))
  -- U, text string, required
  let _ ← validateStringEntry xRefTable dict dictName "U" REQUIRED sinceVersion none
  -- C, number, required
  let _ ← validateNumberEntry xRefTable dict dictName "C" REQUIRED sinceVersion none
  -- F, name, optional
  let _ ← validateNameEntry xRefTable dict dictName "F" OPTIONAL sinceVersion none
  -- D, integer, optional
  let _ ← validateIntegerEntry xRefTable dict dictName "D" OPTIONAL sinceVersion none
  -- FD, bool, optional
  let _ ← validateBooleanEntry xRefTable dict dictName "FD" OPTIONAL sinceVersion none
  -- RT, text string, optional
  let _ ← validateStringEntry xRefTable dict dictName "RT" OPTIONAL sinceVersion none
  -- RD, text string, optional
  let _ ← validateStringEntry xRefTable dict dictName "RD" OPTIONAL sinceVersion none
  -- PS, text string, optional
  let _ ← validateStringEntry xRefTable dict dictName "PS" OPTIONAL sinceVersion none
  -- SS, text string, optional
  let _ ← validateStringEntry xRefTable dict dictName "SS" OPTIONAL sinceVersion none
  -- O, name, optional
  let _ ← validateNameEntry xRefTable dict dictName "O" OPTIONAL sinceVersion none
  return ()

/-- The loop `for _, v := range *arr` of `validateNumberFormatArrayEntry`. -/
def validateNumberFormatArrayLoop (xRefTable : XRefTable) (sinceVersion : PDFVersion) :
    List PDFObject → Except Err Unit
  | [] => pure ()
  | v :: rest =>
    match xRefTable.DereferenceDict v with
    | .error err => .error err
    | .ok none => validateNumberFormatArrayLoop xRefTable sinceVersion rest
    | .ok (some d) =>
      match validateNumberFormatDict xRefTable d sinceVersion with
      | .error err => .error err
      | .ok _ => validateNumberFormatArrayLoop xRefTable sinceVersion rest

def validateNumberFormatArrayEntry (xRefTable : XRefTable) (dict : Dict)
    (dictName entryName : String) (required : Bool) (sinceVersion : PDFVersion) :
    Except Err Unit := do
  let arr ← validateArrayEntry xRefTable dict dictName entryName required sinceVersion none
  match arr with
  | none => return ()
  | some arr => validateNumberFormatArrayLoop xRefTable sinceVersion arr

def validateMeasureDict (xRefTable : XRefTable) (dict : Dict) (sinceVersion : PDFVersion) :
    Except Err Unit := do
  let dictName := "measureDict"
  let _ ← validateNameEntry xRefTable dict dictName "Type" OPTIONAL sinceVersion
    (some (fun s => s == "Measure"))
  let _ ← validateNameEntry xRefTable dict dictName "Subtype" OPTIONAL sinceVersion
    (some (fun s => s == "RL"))
  -- R, text string, required, scale ratio
  let _ ← validateStringEntry xRefTable dict dictName "R" REQUIRED sinceVersion none
  -- X, number format array, required
  validateNumberFormatArrayEntry xRefTable dict dictName "X" REQUIRED sinceVersion
  -- Y, number format array, optional
  validateNumberFormatArrayEntry xRefTable dict dictName "Y" OPTIONAL sinceVersion
  -- D, number format array, required
  validateNumberFormatArrayEntry xRefTable dict dictName "D" REQUIRED sinceVersion
  -- A, number format array, required
  validateNumberFormatArrayEntry xRefTable dict dictName "A" REQUIRED sinceVersion
  -- T, number format array, optional
  validateNumberFormatArrayEntry xRefTable dict dictName "T" OPTIONAL sinceVersion
  -- S, number format array, optional
  validateNumberFormatArrayEntry xRefTable dict dictName "S" OPTIONAL sinceVersion
  -- O, number array, optional, array of two numbers
  let _ ← validateNumberArrayEntry xRefTable dict dictName "O" OPTIONAL sinceVersion
    (some (fun a => a.length == 2))
  -- CYX, number, optional
  let _ ← validateNumberEntry xRefTable dict dictName "CYX" OPTIONAL sinceVersion none
  return ()

def validateViewportDict (xRefTable : XRefTable) (dict : Dict) (sinceVersion : PDFVersion) :
    Except Err Unit := do
  let dictName := "viewportDict"
  let _ ← validateNameEntry xRefTable dict dictName "Type" OPTIONAL sinceVersion
    (some (fun s => s == "Viewport"))
  let _ ← validateRectangleEntry xRefTable dict dictName "BBox" REQUIRED sinceVersion none
  let _ ← validateStringEntry xRefTable dict dictName "Name" OPTIONAL sinceVersion none
  -- Measure, optional, dict
  let d ← validateDictEntry xRefTable dict dictName "Measure" OPTIONAL sinceVersion none
  match d with
  | some d => validateMeasureDict xRefTable d sinceVersion
  | none => return ()

/-- The loop `for _, v := range *arr` of `validatePageEntryVP`. -/
def validatePageEntryVPLoop (xRefTable : XRefTable) (sinceVersion : PDFVersion) :
    List PDFObject → Except Err Unit
  | [] => pure ()
  | v :: rest =>
    if v.isNil then validatePageEntryVPLoop xRefTable sinceVersion rest
    else
      match xRefTable.DereferenceDict v with
      | .error err => .error err
      | .ok none => validatePageEntryVPLoop xRefTable sinceVersion rest
      | .ok (some dict) =>
        match validateViewportDict xRefTable dict sinceVersion with
        | .error err => .error err
        | .ok _ => validatePageEntryVPLoop xRefTable sinceVersion rest

def validatePageEntryVP (xRefTable : XRefTable) (pagesDict : Dict) (required : Bool)
    (sinceVersion : PDFVersion) : Except Err Unit := do
  let arr ← validateArrayEntry xRefTable pagesDict "pagesDict" "VP" required sinceVersion none
  match arr with
  | none => return ()
  | some arr => validatePageEntryVPLoop xRefTable sinceVersion arr

/-- The table `[]v{...}` of `validatePageDict`: validator, required flag,
minimum version, in the order of the loop. -/
def pageDictEntryValidators :
    List ((XRefTable → Dict → Bool → PDFVersion → Except Err Unit) × (Bool × PDFVersion)) :=
  [(validatePageEntryCropBox, (OPTIONAL, V10)),
    (validatePageEntryBleedBox, (OPTIONAL, V13)),
    (validatePageEntryTrimBox, (OPTIONAL, V13)),
    (validatePageEntryArtBox, (OPTIONAL, V13)),
    (validatePageBoxColorInfo E, (OPTIONAL, V14)),
    (validatePageEntryRotate, (OPTIONAL, V10)),
    (validatePageEntryGroup E, (OPTIONAL, V14)),
    (validatePageEntryThumb E, (OPTIONAL, V10)),
    (validatePageEntryB, (OPTIONAL, V11)),
    (validatePageEntryDur, (OPTIONAL, V11)),
    (validatePageEntryTrans E, (OPTIONAL, V11)),
    (E.validateMetadata, (OPTIONAL, V14)),
    (validatePageEntryStructParents, (OPTIONAL, V10)),
    (validatePageEntryID, (OPTIONAL, V13)),
    (validatePageEntryPZ, (OPTIONAL, V13)),
    (validatePageEntrySeparationInfo E, (OPTIONAL, V13)),
    (validatePageEntryTabs, (OPTIONAL, V15)),
    (validatePageEntryTemplateInstantiated, (OPTIONAL, V15)),
    (validatePageEntryPresSteps, (OPTIONAL, V15)),
    (validatePageEntryUserUnit, (OPTIONAL, V16)),
    (validatePageEntryVP, (OPTIONAL, V16))]

/-- The loop `for _, f := range []v{...}` of `validatePageDict`. -/
def validatePageDictLoop (xRefTable : XRefTable) (pageDict : Dict) :
    List ((XRefTable → Dict → Bool → PDFVersion → Except Err Unit) × (Bool × PDFVersion)) →
      Except Err Unit
  | [] => .ok ()
  | f :: rest =>
    match f.1 xRefTable pageDict f.2.1 f.2.2 with
    | .error err => .error err
    | .ok _ => validatePageDictLoop xRefTable pageDict rest

/-- The part of `validatePageDict` on PieceInfo and LastModified (the three
statements after the MediaBox check). -/
def validatePageDictPieceInfo (xRefTable : XRefTable) (pageDict : Dict) : Except Err Unit :=
  -- PieceInfo
  let sinceVersion :=
    if xRefTable.ValidationMode == ValidationMode.ValidationRelaxed then V10 else V13
  match E.validatePieceInfo xRefTable pageDict OPTIONAL sinceVersion with
  | .error err => .error err
  | .ok hasPieceInfo =>
    -- LastModified
    match validateDateEntry P.validDate xRefTable pageDict "pageDict" "LastModified" OPTIONAL
        V13 with
    | .error err => .error err
    | .ok lm =>
      if hasPieceInfo && lm.isNone &&
          xRefTable.ValidationMode == ValidationMode.ValidationStrict then
        .error (.errorf
          "validatePageDict: missing \"LastModified\" (required by \"PieceInfo\")" [])
      else .ok ()

/-- The rest of `validatePageDict`: the AA entry and the loop over the table of
entry validators. -/
def validatePageDictEntries (xRefTable : XRefTable) (pageDict : Dict) : Except Err Unit :=
  -- AA
  match E.validateAdditionalActions xRefTable pageDict "pageDict" "AA" OPTIONAL V14 "page" with
  | .error err => .error err
  | .ok _ => validatePageDictLoop xRefTable pageDict (pageDictEntryValidators E)

/-- The body of the function is kept in three parts: the checks up to MediaBox
here, then `validatePageDictPieceInfo`, then `validatePageDictEntries`. -/
def validatePageDict (xRefTable : XRefTable) (pageDict : Dict) (_objNumber _genNumber : Nat)
    (hasResources hasMediaBox : Bool) : Except Err Unit :=
  match pageDict.IndirectRefEntry "Parent" with
  | none => .error (.errorf "validatePageDict: missing parent" [])
  | some _ =>
    -- Contents
    match validatePageContents xRefTable pageDict with
    | .error err => .error err
    | .ok hasContents =>
      -- Resources
      match validatePageResources E xRefTable pageDict hasResources hasContents with
      | .error err => .error err
      | .ok _ =>
        -- MediaBox
        match validatePageEntryMediaBox xRefTable pageDict (!hasMediaBox) V10 with
        | .error err => .error err
        | .ok _ =>
          match validatePageDictPieceInfo P E xRefTable pageDict with
          | .error err => .error err
          | .ok _ => validatePageDictEntries E xRefTable pageDict

/-- The first component is the table after the step: `validateResources`
writes the page counter. -/
def validateResources (xRefTable : XRefTable) (dict : Dict) : XRefTable × Except Err Bool :=
  -- Get number of pages of this PDF file.
  match dict.IntEntry "Count" with
  | none => (xRefTable, .error (.errorf "validateResources: missing \"Count\"" []))
  | some pageCount =>
    let xRefTable :=
      if xRefTable.PageCount == 0 then xRefTable.setPageCount pageCount else xRefTable
    -- Resources: optional, dict
    match dict.Find "Resources" with
    | none => (xRefTable, .ok false)
    | some obj => (xRefTable, validateResourceDict E xRefTable obj)

def validatePagesDictGeneralEntries (xRefTable : XRefTable) (dict : Dict) :
    XRefTable × Except Err (Bool × Bool) :=
  match validateResources E xRefTable dict with
  | (xRefTable, .error err) => (xRefTable, .error err)
  | (xRefTable, .ok hasResources) =>
    -- MediaBox: optional, rectangle
    match validatePageEntryMediaBox xRefTable dict OPTIONAL V10 with
    | .error err => (xRefTable, .error err)
    | .ok hasMediaBox =>
      -- CropBox: optional, rectangle
      match validatePageEntryCropBox xRefTable dict OPTIONAL V10 with
      | .error err => (xRefTable, .error err)
      | .ok _ =>
        -- Rotate:  optional, integer
        match validatePageEntryRotate xRefTable dict OPTIONAL V10 with
        | .error err => (xRefTable, .error err)
        | .ok _ => (xRefTable, .ok (hasResources, hasMediaBox))

/-- The parameter is a pointer: `nil` is `none`. -/
def dictTypeForPageNodeDict (pageNodeDict : Option Dict) : Except Err String :=
  match pageNodeDict with
  | none => .error (.errorf "dictTypeForPageNodeDict: pageNodeDict is null" [])
  | some pageNodeDict =>
    match pageNodeDict.Type with
    | none => .error (.errorf "dictTypeForPageNodeDict: missing pageNodeDict type" [])
    | some dictType => .ok dictType

/-- The signature of `validatePageDict` once its collaborators are fixed. -/
abbrev PageValidator := XRefTable → Dict → Nat → Nat → Bool → Bool → Except Err Unit

/-- The outcome of a walk of the page tree: `none` when the walk has not ended
within the recursion depth allowed, otherwise the table after the walk and the
verdict. -/
abbrev Walk := Option (XRefTable × Except Err Unit)

/-- The loop `for _, obj := range *kidsArray` of `validatePagesDict`. `recurse`
is the recursive call of `validatePagesDict`, `page` is `validatePageDict`. -/
def validatePagesDictKids (recurse : XRefTable → Dict → Nat → Nat → Bool → Bool → Walk)
    (page : PageValidator) (hasResources hasMediaBox : Bool) :
    XRefTable → List PDFObject → Walk
  | xRefTable, [] => some (xRefTable, .ok ())
  | xRefTable, obj :: rest =>
    if obj.isNil then
      validatePagesDictKids recurse page hasResources hasMediaBox xRefTable rest
    else
      -- Dereference next page node dict.
      match obj with
      | .PDFIndirectRef objNumber genNumber =>
        match xRefTable.DereferenceDict (.PDFIndirectRef objNumber genNumber) with
        | .error err => some (xRefTable, .error err)
        | .ok pageNodeDict =>
          match dictTypeForPageNodeDict pageNodeDict with
          | .error err => some (xRefTable, .error err)
          | .ok dictType =>
            match pageNodeDict with
            | none => some (xRefTable, .error .nilDereference)
            | some pageNodeDict =>
              if dictType == "Pages" then
                -- Recurse over pagetree
                match recurse xRefTable pageNodeDict objNumber genNumber hasResources
                    hasMediaBox with
                | none => none
                | some (xRefTable, .error err) => some (xRefTable, .error err)
                | some (xRefTable, .ok _) =>
                  validatePagesDictKids recurse page hasResources hasMediaBox xRefTable rest
              else if dictType == "Page" then
                match page xRefTable pageNodeDict objNumber genNumber hasResources
                    hasMediaBox with
                | .error err => some (xRefTable, .error err)
                | .ok _ =>
                  validatePagesDictKids recurse page hasResources hasMediaBox xRefTable rest
              else
                some (xRefTable,
                  .error (.errorf "validatePagesDict: Unexpected dict type: %s" [dictType]))
      | _ =>
        some (xRefTable,
          .error (.errorf "validatePagesDict: missing indirect reference for kid" []))

/-- The first parameter is `validatePageDict`, which the function calls for a
kid of Type Page; `validatePages` passes it. The second bounds the depth of the
recursion: a walk that needs more gives `none`. -/
def validatePagesDict (page : PageValidator) :
    Nat → XRefTable → Dict → Nat → Nat → Bool → Bool → Walk
  | 0, _, _, _, _, _, _ => none
  | fuel + 1, xRefTable, dict, _objNumber, _genNumber, hasResources, hasMediaBox =>
    -- Resources and Mediabox are inheritated.
    match validatePagesDictGeneralEntries E xRefTable dict with
    | (xRefTable, .error err) => some (xRefTable, .error err)
    | (xRefTable, .ok (dHasResources, dHasMediaBox)) =>
      let hasResources := if dHasResources then true else hasResources
      let hasMediaBox := if dHasMediaBox then true else hasMediaBox
      -- Iterate over page tree.
      match dict.PDFArrayEntry "Kids" with
      | none => some (xRefTable, .error (.errorf "validatePagesDict: corrupt \"Kids\" entry" []))
      | some kidsArray =>
        validatePagesDictKids (validatePagesDict page fuel) page hasResources hasMediaBox
          xRefTable kidsArray

/-- The result is the table after the walk and the root page node dictionary
or the failure; `none` when the walk needs a deeper recursion than `fuel`. -/
def validatePages (fuel : Nat) (xRefTable : XRefTable) (rootDict : Dict) :
    Option (XRefTable × Except Err Dict) :=
  -- Ensure indirect reference entry "Pages".
  match rootDict.IndirectRefEntry "Pages" with
  | none =>
    some (xRefTable, .error (.errorf "validatePages: missing indirect obj for pages dict" []))
  | some (objNumber, genNumber) =>
    -- Dereference root of page node tree.
    match xRefTable.DereferenceDict (.PDFIndirectRef objNumber genNumber) with
    | .error err => some (xRefTable, .error err)
    | .ok none =>
      some (xRefTable,
        .error (.errorf "validatePagesDict: cannot dereference pageNodeDict" []))
    | .ok (some rootPageNodeDict) =>
      -- Process page node tree.
      match validatePagesDict E (validatePageDict P E) fuel xRefTable rootPageNodeDict
          objNumber genNumber false false with
      | none => none
      | some (xRefTable, .error err) => some (xRefTable, .error err)
      | some (xRefTable, .ok _) => some (xRefTable, .ok rootPageNodeDict)

end Pages

/-! ## Notions used in the statements -/

/-- The validation does not succeed: the result is a failure, which is an
error value or the run-time failure `Err.nilDereference`. -/
def Fails {α : Type} (r : Except Err α) : Prop := ∃ e, r = .error e

/-- The field is absent, or its value is or resolves to Null. -/
def absentOrNull (x : XRefTable) (dict : Dict) (entryName : String) : Prop :=
  dict.Find entryName = none ∨
    ∃ obj, dict.Find entryName = some obj ∧ x.Dereference obj = .ok .null

/-- The resolver contract "to a concrete value": what the object table answers
is never itself a reference. -/
def XRefTable.Concrete (x : XRefTable) : Prop :=
  ∀ n g o, x.Table n g = .ok o → ∀ n' g', o ≠ .PDFIndirectRef n' g'

/-- The array entry resolves to a stream that validates as an embedded file
stream dictionary. -/
def validStreamEntry (P : Predicates) (x : XRefTable) (v : PDFObject) : Prop :=
  ∃ sd, x.Dereference v = .ok (.PDFStreamDict sd) ∧
    validateEmbeddedFileStreamDict P x (some sd) = .ok ()

/-- The array entry resolves to a string literal. -/
def stringLiteralEntry (x : XRefTable) (v : PDFObject) : Prop :=
  ∃ s, x.Dereference v = .ok (.PDFStringLiteral s)

/-- A fault reported by the resolver. -/
def Err.isFault : Err → Bool
  | .ResolutionFailure _ => true
  | _ => false

/-- The failure is one of: a failure attributed to a field among `fields`, a
message among `formats`, or a failure of resolution (a fault, a value of the
wrong kind, a nil pointer). -/
def Err.within (fields formats : List String) : Err → Prop
  | .errorf format _ => format ∈ formats
  | .MissingRequiredField _ f => f ∈ fields
  | .TypeMismatch _ f _ => f ∈ fields
  | .MalformedValue _ f => f ∈ fields
  | .ConstraintViolated f _ => f ∈ fields
  | .VersionTooLow f _ _ => f ∈ fields
  | .ResolveTypeMismatch _ => True
  | .ResolutionFailure _ => True
  | .nilDereference => True

/-- Every failure the result can be satisfies `S`. -/
def ErrsIn {α : Type} (r : Except Err α) (S : Err → Prop) : Prop :=
  ∀ e, r = .error e → S e

/-- The fields validated below the EF, RF and Type entries of a file
specification dictionary. -/
def nestedFields : List String :=
  ["RF", "EF", "Type", "Subtype", "Params", "Size", "CreationDate", "ModDate", "Mac",
    "CheckSum", "Creator", "ResFork"]

/-- The messages of the validators of the EF and RF dictionaries. -/
def nestedFormats : List String :=
  ["validateFileSpecEntriesEFAndRF: invalid key: %s",
    "validateEFDictFilesArray: rfDict array corrupt",
    "validateEFDictFilesArray: rfDict, array entry nil",
    "validateEFDictFilesArray: rfDict, array entry corrupt",
    "validateFileSpecEntriesEFAndRF: missing required efDict.",
    "validateFileSpecEntriesEFAndRF: rfDict entry=%s missing corresponding efDict entry\n",
    "validateFileSpecDictType: missing type: FileSpec"]

/-- The fields of a file specification dictionary other than F and UF, with
the fields validated below them. -/
def otherFields : List String :=
  ["FS", "ID", "V", "Desc", "CI"] ++ nestedFields

/-- The keys of a dictionary. -/
def Dict.keys (d : Dict) : List String := d.map Prod.fst

/-! ### Concrete inputs -/

/-- Predicates that accept every string. -/
def acceptAll : Predicates := ⟨fun _ => true, fun _ => true, fun _ => true⟩

/-- A cross reference table without objects: every reference stands for Null. -/
def emptyTable (version : PDFVersion) (mode : ValidationMode) : XRefTable :=
  ⟨version, mode, 0, fun _ _ => .ok .null⟩

/-- The Type predicate that `validateFileSpecDictEFAndEF` builds. -/
def fileSpecTypePredicate (x : XRefTable) : String → Bool :=
  fun s => s == "Filespec" ||
    (x.ValidationMode == ValidationMode.ValidationRelaxed && s == "F")

/-- A file specification dictionary with a DOS path and no F entry. -/
def dosOnlyFileSpec : Dict := [("DOS", .PDFStringLiteral "A.TXT")]

/-- A file specification dictionary with an F and a UF path. -/
def unicodeFileSpec : Dict :=
  [("F", .PDFStringLiteral "a.txt"), ("UF", .PDFStringLiteral "a.txt")]

/-- A related files array of one pair. -/
def onePairArray : List PDFObject := [.PDFStreamDict [], .PDFStringLiteral "desc"]

/-! ### Notions for `pages.go` -/

/-- The entry `key` of the dictionary resolves to the value `o`. -/
def resolvesTo (x : XRefTable) (dict : Dict) (key : String) (o : PDFObject) : Prop :=
  ∃ obj, dict.Find key = some obj ∧ x.Dereference obj = .ok o

/-- The style predicate that `validateTransitionDict` chooses by the document
version. -/
def transitionStylePredicate (E : Collaborators) (x : XRefTable) : String → Bool :=
  if x.Version ≥ V15 then E.validateTransitionStyleV15 else E.validateTransitionStyle

/-- A kid that makes the walk fail: it is not nil, and it is not a reference
that resolves to a dictionary of Type Pages or Page. So it is a direct value, a
reference that does not resolve to a dictionary (Null included), or a
reference to a dictionary without Type or of another Type. -/
def badKid (x : XRefTable) (obj : PDFObject) : Prop :=
  obj.isNil = false ∧
    ∀ n g d, obj = .PDFIndirectRef n g → x.DereferenceDict obj = .ok (some d) →
      d.Type ≠ some "Pages" ∧ d.Type ≠ some "Page"

/-- The page validator that is always told that Resources are inherited. -/
def withResources (page : PageValidator) : PageValidator :=
  fun x d n g _ hasMediaBox => page x d n g true hasMediaBox

/-- The page validator that is always told that a MediaBox is inherited. -/
def withMediaBox (page : PageValidator) : PageValidator :=
  fun x d n g hasResources _ => page x d n g hasResources true

/-- Collaborators that accept everything and report `pieceInfo` for the
PieceInfo dictionary. -/
def collaboratorsReporting (pieceInfo : Bool) : Collaborators :=
  ⟨fun _ _ _ => .ok (), fun _ _ _ => .ok (), fun _ _ _ => .ok (), fun _ _ _ => .ok (),
    fun _ _ _ => .ok (), fun _ _ _ => .ok (), fun _ _ _ => .ok (),
    ["ExtGState", "Font", "XObject", "Properties", "ColorSpace", "Pattern", "Shading"],
    fun _ _ _ _ => .ok pieceInfo, fun _ _ _ _ _ _ _ => .ok (), fun _ _ _ _ => .ok (),
    fun _ _ => .ok (), fun _ _ => .ok (), fun _ _ _ => .ok (),
    fun _ => true, fun _ => true, fun _ => true, fun _ => true, fun _ => true, fun _ => true⟩

/-- Collaborators that accept everything and report no PieceInfo. -/
def acceptingCollaborators : Collaborators := collaboratorsReporting false

/-- A page tree of three objects: the root Pages node 1, the interior Pages
node 2, which has no Parent entry, and the leaf Page 3. -/
def orphanRootNode : Dict :=
  [("Type", .PDFName "Pages"), ("Count", .PDFInteger 1),
    ("Kids", .PDFArray [.PDFIndirectRef 2 0])]

def orphanInteriorNode : Dict :=
  [("Type", .PDFName "Pages"), ("Count", .PDFInteger 1),
    ("Kids", .PDFArray [.PDFIndirectRef 3 0])]

def orphanLeaf : Dict :=
  [("Type", .PDFName "Page"), ("Parent", .PDFIndirectRef 2 0),
    ("MediaBox", .PDFArray [.PDFInteger 0, .PDFInteger 0, .PDFInteger 612, .PDFInteger 792])]

def orphanTable : XRefTable :=
  ⟨V14, .ValidationStrict, 0, fun n _ =>
    match n with
    | 1 => .ok (.PDFDict orphanRootNode)
    | 2 => .ok (.PDFDict orphanInteriorNode)
    | 3 => .ok (.PDFDict orphanLeaf)
    | _ => .ok .null⟩

def orphanCatalog : Dict := [("Type", .PDFName "Catalog"), ("Pages", .PDFIndirectRef 1 0)]

/-- An interior node with an empty Kids array. -/
def emptyKidsNode : Dict :=
  [("Type", .PDFName "Pages"), ("Count", .PDFInteger 0), ("Kids", .PDFArray [])]

/-- A page whose Contents is an array of one Null element. -/
def nullContentsPage : Dict :=
  [("Type", .PDFName "Page"), ("Parent", .PDFIndirectRef 1 0),
    ("Contents", .PDFArray [.null])]

/-- The table `x'` describes the same document as `x`: they differ at most in
the page counter. -/
def sameDocument (x x' : XRefTable) : Prop :=
  x'.Version = x.Version ∧ x'.ValidationMode = x.ValidationMode ∧ x'.Table = x.Table

/-- An interior node without a Kids entry. -/
def noKidsNode : Dict := [("Type", .PDFName "Pages"), ("Count", .PDFInteger 0)]

/-- An interior node whose Kids holds a direct integer. -/
def directKidNode : Dict :=
  [("Type", .PDFName "Pages"), ("Count", .PDFInteger 1), ("Kids", .PDFArray [.PDFInteger 5])]

/-- A leaf page with a Parent reference and nothing else. -/
def bareLeaf : Dict := [("Type", .PDFName "Page"), ("Parent", .PDFIndirectRef 1 0)]

/-- A transition dictionary with a direction of motion and no style. -/
def motionWithoutStyle : Dict := [("M", .PDFName "I")]

/-! ### Further concrete inputs -/

/-- An embedded file stream dictionary whose Params entry is a reference to an
undefined object. -/
def nullParamsStream : Dict :=
  [("Type", .PDFName "EmbeddedFile"), ("Params", .PDFIndirectRef 9 0)]

/-- A leaf page whose Contents entry refers to object 5 and whose Resources
entry refers to object 9. -/
def nullResourcesPage : Dict :=
  [("Type", .PDFName "Page"), ("Parent", .PDFIndirectRef 2 0),
    ("Contents", .PDFIndirectRef 5 0), ("Resources", .PDFIndirectRef 9 0)]

/-- A leaf page whose Contents entry refers to object 5 and whose Resources
entry is Null. -/
def directNullResourcesPage : Dict :=
  [("Type", .PDFName "Page"), ("Parent", .PDFIndirectRef 2 0),
    ("Contents", .PDFIndirectRef 5 0), ("Resources", .null)]

/-- A leaf page with a PresSteps dictionary. -/
def presStepsPage : Dict :=
  [("Type", .PDFName "Page"), ("Parent", .PDFIndirectRef 1 0), ("PresSteps", .PDFDict [])]

/-- A related files array of one pair whose description is Null. -/
def nullDescriptionArray : List PDFObject := [.PDFStreamDict [], .null]

/-- The dictionary without its entries under `key`. -/
def Dict.without (d : Dict) (key : String) : Dict :=
  d.filter (fun entry => entry.1 != key)

/-- A transition dictionary with an SS entry and no style. -/
def scaleWithoutStyle : Dict := [("SS", .PDFInteger 1)]

/-- A transition dictionary of style Wipe whose SS entry is a name. -/
def scaleUnderWipe : Dict := [("S", .PDFName "Wipe"), ("SS", .PDFName "x")]

/-- A transition dictionary of style Fly whose SS entry is a name. -/
def scaleUnderFly : Dict := [("S", .PDFName "Fly"), ("SS", .PDFName "x")]

/-- A Kids array of a nil entry, a direct integer and a reference. -/
def kidsWithDirectInteger : List PDFObject := [.null, .PDFInteger 5, .PDFIndirectRef 7 0]

/-- A page tree whose root declares Count 0: the root Pages node 1, the
interior Pages node 2 with Count 1, and the leaf Page 3. -/
def zeroCountRoot : Dict :=
  [("Type", .PDFName "Pages"), ("Count", .PDFInteger 0),
    ("Kids", .PDFArray [.PDFIndirectRef 2 0])]

def zeroCountInteriorNode : Dict :=
  [("Type", .PDFName "Pages"), ("Parent", .PDFIndirectRef 1 0), ("Count", .PDFInteger 1),
    ("Kids", .PDFArray [.PDFIndirectRef 3 0])]

def zeroCountTable : XRefTable :=
  ⟨V14, .ValidationStrict, 0, fun n _ =>
    match n with
    | 1 => .ok (.PDFDict zeroCountRoot)
    | 2 => .ok (.PDFDict zeroCountInteriorNode)
    | 3 => .ok (.PDFDict orphanLeaf)
    | _ => .ok .null⟩

/-! ### A two level page tree -/

/-- The collaborators accept a dictionary that lacks the entry they validate:
without a PieceInfo entry `validatePieceInfo` reports none, and without an AA or
a Metadata entry `validateAdditionalActions` and `validateMetadata` pass. -/
def AcceptsAbsent (E : Collaborators) : Prop :=
  (∀ x d sinceVersion, Dict.Find d "PieceInfo" = none →
    E.validatePieceInfo x d OPTIONAL sinceVersion = .ok false) ∧
  (∀ x d sinceVersion, Dict.Find d "AA" = none →
    E.validateAdditionalActions x d "pageDict" "AA" OPTIONAL sinceVersion "page" = .ok ()) ∧
  (∀ x d sinceVersion, Dict.Find d "Metadata" = none →
    E.validateMetadata x d OPTIONAL sinceVersion = .ok ())

/-- The catalog of the tree: its Pages entry refers to the root node 1. -/
def treeCatalog : Dict := [("Type", .PDFName "Catalog"), ("Pages", .PDFIndirectRef 1 0)]

/-- The root Pages node 1: it declares Count and Resources, and its one kid is
the interior Pages node 2. -/
def treeRoot (count : Int) : Dict :=
  [("Type", .PDFName "Pages"), ("Count", .PDFInteger count), ("Resources", .PDFDict []),
    ("Kids", .PDFArray [.PDFIndirectRef 2 0])]

/-- The interior Pages node 2: it declares Count and MediaBox, and its kids are
the leaves 3 and 4. -/
def treeInteriorNode (count : Int) : Dict :=
  [("Type", .PDFName "Pages"), ("Parent", .PDFIndirectRef 1 0), ("Count", .PDFInteger count),
    ("MediaBox", .PDFArray [.PDFInteger 0, .PDFInteger 0, .PDFInteger 612, .PDFInteger 792]),
    ("Kids", .PDFArray [.PDFIndirectRef 3 0, .PDFIndirectRef 4 0])]

/-- The leaf Page 3: a Parent reference and a content stream, no Resources, no
MediaBox. -/
def treeLeaf : Dict :=
  [("Type", .PDFName "Page"), ("Parent", .PDFIndirectRef 2 0),
    ("Contents", .PDFIndirectRef 5 0)]

/-- The leaf Page 4: as leaf 3, with Rotate 90. -/
def treeRotatedLeaf : Dict :=
  [("Type", .PDFName "Page"), ("Parent", .PDFIndirectRef 2 0),
    ("Contents", .PDFIndirectRef 6 0), ("Rotate", .PDFInteger 90)]

/-- The objects of the tree; 5 and 6 are the content streams of the leaves. -/
def treeObjects (rootCount interiorCount : Int) : Nat → Nat → Except String PDFObject :=
  fun n _ =>
    match n with
    | 1 => .ok (.PDFDict (treeRoot rootCount))
    | 2 => .ok (.PDFDict (treeInteriorNode interiorCount))
    | 3 => .ok (.PDFDict treeLeaf)
    | 4 => .ok (.PDFDict treeRotatedLeaf)
    | 5 => .ok (.PDFStreamDict [("Length", .PDFInteger 0)])
    | 6 => .ok (.PDFStreamDict [("Length", .PDFInteger 0)])
    | _ => .ok .null

/-- The table of the tree for a document version, a mode and a value of the
page counter. -/
def treeTable (version : PDFVersion) (mode : ValidationMode) (pageCount : Int)
    (rootCount interiorCount : Int) : XRefTable :=
  ⟨version, mode, pageCount, treeObjects rootCount interiorCount⟩

/-- The page counter after the visit of a node that declares `count`. -/
def counterAfter (pageCount count : Int) : Int :=
  if pageCount = 0 then count else pageCount



/-- The collaborators with another order of visiting the resource categories. -/
def Collaborators.withOrder (E : Collaborators) (order : List String) : Collaborators :=
  ⟨E.validateExtGStateResourceDict, E.validateFontResourceDict, E.validateXObjectResourceDict,
    E.validatePropertiesResourceDict, E.validateColorSpaceResourceDict,
    E.validatePatternResourceDict, E.validateShadingResourceDict, order, E.validatePieceInfo,
    E.validateAdditionalActions, E.validateMetadata, E.validateGroupAttributesDict,
    E.validateXObjectStreamDict, E.validateColorSpaceArraySubset, E.validateGuideLineStyle,
    E.validateDi, E.validateTransitionDirectionOfMotion, E.validateTransitionStyle,
    E.validateTransitionStyleV15, E.validateTransitionDimension⟩

/-- An EF dictionary with two keys outside the set of EF keys. -/
def twoBadKeys : Dict := [("A", .PDFStreamDict []), ("B", .PDFStreamDict [])]

/-- The same dictionary visited in the other order. -/
def twoBadKeysSwapped : Dict := [("B", .PDFStreamDict []), ("A", .PDFStreamDict [])]

/-! ### The depth of a page tree -/

/-- The tree of Pages nodes under `dict` has at most `depth` levels, `dict`
included: every kid of `dict` that is a reference to a dictionary of Type
Pages has at most `depth - 1` levels. Kids of another kind do not count, as
`validatePagesDict` does not recurse into them. No number of levels bounds a
node that is reached again from itself. -/
def depthAtMost (x : XRefTable) : Nat → Dict → Bool
  | 0, _ => false
  | depth + 1, dict =>
    match dict.PDFArrayEntry "Kids" with
    | none => true
    | some kids =>
      kids.all fun obj =>
        match obj with
        | .PDFIndirectRef n g =>
          match x.DereferenceDict (.PDFIndirectRef n g) with
          | .ok (some d) => if d.Type == some "Pages" then depthAtMost x depth d else true
          | _ => true
        | _ => true

/-- A Pages node, object 1, whose Kids array refers to the node itself. -/
def cyclicNode : Dict :=
  [("Type", .PDFName "Pages"), ("Count", .PDFInteger 1),
    ("Kids", .PDFArray [.PDFIndirectRef 1 0])]

/-- The table in which object 1 is the node that refers to itself. -/
def cyclicTable (pageCount : Int) : XRefTable :=
  ⟨V14, .ValidationStrict, pageCount, fun n _ =>
    match n with
    | 1 => .ok (.PDFDict cyclicNode)
    | _ => .ok .null⟩

/-! ### Inputs with an embedded file stream whose Params entry resolves to Null -/

/-- The table in which object 5 is an embedded file stream whose Params entry
refers to the undefined object 9, object 6 is an embedded file stream without
a Params entry, object 7 is the name Filespec and object 8 is the name F. -/
def paramsTable (version : PDFVersion) (mode : ValidationMode) : XRefTable :=
  ⟨version, mode, 0, fun n _ =>
    match n with
    | 5 => .ok (.PDFStreamDict nullParamsStream)
    | 6 => .ok (.PDFStreamDict [("Type", .PDFName "EmbeddedFile")])
    | 7 => .ok (.PDFName "Filespec")
    | 8 => .ok (.PDFName "F")
    | _ => .ok .null⟩

/-- An EF dictionary whose F entry refers to the stream with the Null Params. -/
def nullParamsEF : Dict := [("F", .PDFIndirectRef 5 0)]

/-- An EF dictionary whose F entry refers to the stream without Params. -/
def plainEF : Dict := [("F", .PDFIndirectRef 6 0)]

/-- An RF dictionary with the key X, which the EF dictionaries above lack. -/
def unpairedRF : Dict := [("X", .PDFArray [])]

/-- A file specification dictionary with the EF and RF dictionaries above. -/
def unpairedFileSpec (ef : Dict) : Dict :=
  [("Type", .PDFName "Filespec"), ("F", .PDFStringLiteral "a.txt"), ("EF", .PDFDict ef),
    ("RF", .PDFDict unpairedRF)]

/-- An EF dictionary with the key F, visited first, and the key Thumb, which
is outside the set of EF keys. -/
def thumbAfterNullParams : Dict := [("F", .PDFIndirectRef 5 0), ("Thumb", .PDFIndirectRef 6 0)]

/-- The same entries with Thumb visited first. -/
def thumbBeforeNullParams : Dict :=
  [("Thumb", .PDFIndirectRef 6 0), ("F", .PDFIndirectRef 5 0)]

/-- The same keys with F referring to the stream without Params. -/
def thumbAfterPlain : Dict := [("F", .PDFIndirectRef 6 0), ("Thumb", .PDFIndirectRef 6 0)]

/-- A related files array whose stream has the Null Params and whose
description is Null. -/
def nullAfterNullParams : List PDFObject := [.PDFIndirectRef 5 0, .null]

/-- A related files array whose stream has no Params and whose description is
Null. -/
def nullAfterPlain : List PDFObject := [.PDFIndirectRef 6 0, .null]

@[simp] theorem bind_ok_eq {α β : Type} (a : α) (f : α → Except Err β) :
    (Except.ok a >>= f) = f a := rfl

@[simp] theorem bind_error_eq {α β : Type} (e : Err) (f : α → Except Err β) :
    ((Except.error e : Except Err α) >>= f) = Except.error e := rfl

@[simp] theorem pure_eq_ok {α : Type} (a : α) : (pure a : Except Err α) = Except.ok a := rfl

@[simp] theorem throw_eq_error {α : Type} (e : Err) :
    (throw e : Except Err α) = Except.error e := rfl

theorem fails_error {α : Type} (e : Err) : Fails (Except.error e : Except Err α) := ⟨e, rfl⟩

theorem not_fails_ok {α : Type} (a : α) : ¬ Fails (Except.ok a : Except Err α) := by
  rintro ⟨e, h⟩; cases h

theorem fails_bind {α β : Type} (r : Except Err α) (f : α → Except Err β)
    (h : ∀ a, r = .ok a → Fails (f a)) : Fails (r >>= f) := by
  cases r with
  | error e => exact ⟨e, rfl⟩
  | ok a => exact h a rfl

theorem fails_bind_left {α β : Type} (r : Except Err α) (f : α → Except Err β)
    (h : Fails r) : Fails (r >>= f) := by
  obtain ⟨e, rfl⟩ := h
  exact ⟨e, rfl⟩

theorem dereference_null (x : XRefTable) : x.Dereference .null = .ok .null := rfl

theorem isNil_eq_true {o : PDFObject} : o.isNil = true ↔ o = .null := by
  cases o <;> simp [PDFObject.isNil]

theorem isNil_eq_false {o : PDFObject} : o.isNil = false ↔ o ≠ .null := by
  cases o <;> simp [PDFObject.isNil]

/-- An absent or Null field: the entry validator fails when the field is
required and returns no value otherwise. -/
theorem validateEntry_absentOrNull {α : Type} (asK : PDFObject → TypeCheck α) (kind : String)
    (x : XRefTable) (dict : Dict) (dictName entryName : String) (required : Bool)
    (sinceVersion : PDFVersion) (validate : Option (α → Bool))
    (h : absentOrNull x dict entryName) :
    validateEntry asK kind x dict dictName entryName required sinceVersion validate =
      if required then .error (.MissingRequiredField dictName entryName) else .ok none := by
  rcases h with h | ⟨obj, h, hd⟩
  · simp [validateEntry, h]
  · simp [validateEntry, h, hd]

/-- A field that resolves to a non-Null value of the kind: the entry validator
applies the version check and the predicate. -/
theorem validateEntry_value {α : Type} (asK : PDFObject → TypeCheck α) (kind : String)
    (x : XRefTable) (dict : Dict) (dictName entryName : String) (required : Bool)
    (sinceVersion : PDFVersion) (validate : Option (α → Bool))
    (obj o : PDFObject) (v : α) (hf : dict.Find entryName = some obj)
    (hd : x.Dereference obj = .ok o) (hn : o.isNil = false) (hk : asK o = .value v) :
    validateEntry asK kind x dict dictName entryName required sinceVersion validate =
      if x.Version < sinceVersion then
        .error (.VersionTooLow entryName sinceVersion x.Version)
      else
        match validate with
        | none => .ok (some v)
        | some p => if p v then .ok (some v) else .error (.ConstraintViolated entryName o) := by
  cases o <;> simp [PDFObject.isNil] at hn <;> simp [validateEntry, hf, hd, hk]

theorem keys_cons (k : String) (v : PDFObject) (d : Dict) :
    Dict.keys ((k, v) :: d) = k :: Dict.keys d := rfl

theorem find_cons (k k' : String) (v : PDFObject) (d : Dict) :
    Dict.Find ((k', v) :: d) k = if k = k' then some v else Dict.Find d k := by
  unfold Dict.Find
  by_cases h : k = k'
  · subst h; simp [List.lookup]
  · have : (k == k') = false := by simpa using h
    simp [List.lookup, this, h]

/-- The EF loop fails when some key is outside the allowed set. -/
theorem efDict_invalid_key (P : Predicates) (x : XRefTable) (d : Dict) (k : String)
    (hk : k ∈ d.keys) (hbad : validateFileSpecDictEntriesEFAndRFKeys k = false) :
    Fails (validateFileSpecDictEntryEFDict P x d) := by
  induction d with
  | nil => simp [Dict.keys] at hk
  | cons hd tl ih =>
    obtain ⟨k', v'⟩ := hd
    simp only [validateFileSpecDictEntryEFDict]
    by_cases hk' : validateFileSpecDictEntriesEFAndRFKeys k' = true
    · have hne : k ≠ k' := by
        intro h; subst h; simp [hbad] at hk'
      have hk2 : k ∈ Dict.keys tl := by
        simpa [keys_cons, hne] using hk
      simp only [hk', Bool.not_true, Bool.false_eq_true, if_false]
      apply fails_bind; intro _ _
      apply fails_bind; intro _ _
      apply fails_bind; intro _ _
      exact ih hk2
    · simp only [Bool.not_eq_true] at hk'
      simp [hk']
      exact fails_error _

/-- The RF loop fails when some key of RF is not a key of EF. -/
theorem rfLoop_missing_key (P : Predicates) (x : XRefTable) (efDict rfDict : Dict) (k : String)
    (hk : k ∈ rfDict.keys) (hmiss : efDict.Find k = none) :
    Fails (validateFileSpecDictEntriesEFAndRFLoop P x efDict rfDict) := by
  induction rfDict with
  | nil => simp [Dict.keys] at hk
  | cons hd tl ih =>
    obtain ⟨k', v'⟩ := hd
    simp only [validateFileSpecDictEntriesEFAndRFLoop]
    by_cases hk' : efDict.Find k' = none
    · simp [hk']
      exact fails_error _
    · have hne : k ≠ k' := by
        intro h; subst h; exact hk' hmiss
      have hk2 : k ∈ Dict.keys tl := by
        simpa [keys_cons, hne] using hk
      have hs : (efDict.Find k').isNone = false := by
        cases h : efDict.Find k' with
        | none => exact absurd h hk'
        | some _ => rfl
      simp only [hs, Bool.false_eq_true, if_false]
      apply fails_bind; intro _ _
      apply fails_bind; intro arr _
      cases arr with
      | none => exact fails_bind _ _ (fun _ _ => ih hk2)
      | some arr => exact fails_bind _ _ (fun _ _ => ih hk2)

/-- RF/EF key pairing: for every EF dictionary and every RF dictionary, in
whatever order their entries are visited, a key of RF that is not a key of EF
keeps `validateFileSpecDictEntriesEFAndRF` from succeeding: the result is an
error value, or the nil dereference when the pass over EF ends in one. -/
theorem rf_key_without_ef_key_fails (P : Predicates) (x : XRefTable) (efDict rfDict : Dict)
    (k : String) (hk : k ∈ rfDict.keys) (hmiss : efDict.Find k = none) :
    Fails (validateFileSpecDictEntriesEFAndRF P x (some efDict) (some rfDict)) := by
  simp only [validateFileSpecDictEntriesEFAndRF]
  apply fails_bind; intro _ _
  exact rfLoop_missing_key P x efDict rfDict k hk hmiss

/-- C5. A related-files array of odd length is rejected with the `array corrupt`
error, whatever the resolver and whatever the elements are: no element takes
part in the result. -/
theorem C5_odd_length_rejected (P : Predicates) (x : XRefTable) (arr : List PDFObject)
    (hodd : arr.length % 2 = 1) :
    validateEFDictFilesArray P x arr =
      .error (.errorf "validateEFDictFilesArray: rfDict array corrupt" []) := by
  simp [validateEFDictFilesArray, hodd]

/-- The allowed EF keys are exactly F, UF, DOS, Mac and Unix, and on an EF
dictionary with a key outside that set `validateFileSpecDictEntryEFDict` does
not succeed, whatever its other entries and whatever the order in which the
entries are visited: the loop ends at that key or at an entry visited before
it, with an error value or with the nil dereference of that entry. -/
theorem ef_key_outside_set_fails (P : Predicates) (x : XRefTable) :
    (∀ k : String, validateFileSpecDictEntriesEFAndRFKeys k = true ↔
      (k = "F" ∨ k = "UF" ∨ k = "DOS" ∨ k = "Mac" ∨ k = "Unix")) ∧
    (∀ (efDict : Dict) (k : String), k ∈ efDict.keys →
      ¬ (k = "F" ∨ k = "UF" ∨ k = "DOS" ∨ k = "Mac" ∨ k = "Unix") →
      Fails (validateFileSpecDictEntryEFDict P x efDict)) := by
  have hkeys : ∀ k : String, validateFileSpecDictEntriesEFAndRFKeys k = true ↔
      (k = "F" ∨ k = "UF" ∨ k = "DOS" ∨ k = "Mac" ∨ k = "Unix") := by
    intro k
    simp [validateFileSpecDictEntriesEFAndRFKeys, or_assoc]
  refine ⟨hkeys, ?_⟩
  intro efDict k hk hbad
  apply efDict_invalid_key P x efDict k hk
  cases h : validateFileSpecDictEntriesEFAndRFKeys k with
  | false => rfl
  | true => exact absurd ((hkeys k).mp h) hbad

/-- C8. EF is required when RF is present: in a document of version 1.3 or
later, a file specification dictionary whose RF resolves to a dictionary and
whose EF is absent or Null is rejected by `validateFileSpecDictEFAndEF` for the
missing EF; and `validateFileSpecDictEntriesEFAndRF` rejects a nil EF
dictionary. -/
theorem C8_ef_required_with_rf (P : Predicates) (x : XRefTable) :
    (∀ (dict : Dict) (dictName : String) (rfObj : PDFObject) (rfDict : Dict),
      V13 ≤ x.Version →
      dict.Find "RF" = some rfObj → x.Dereference rfObj = .ok (.PDFDict rfDict) →
      absentOrNull x dict "EF" →
      validateFileSpecDictEFAndEF P x dict dictName =
        .error (.MissingRequiredField dictName "EF")) ∧
    (∀ rfDict : Option Dict,
      validateFileSpecDictEntriesEFAndRF P x none rfDict =
        .error (.errorf "validateFileSpecEntriesEFAndRF: missing required efDict." [])) := by
  constructor
  · intro dict dictName rfObj rfDict hv hf hd hef
    have hrf : validateDictEntry x dict dictName "RF" OPTIONAL V13 none = .ok (some rfDict) := by
      unfold validateDictEntry
      rw [validateEntry_value asDict "dictionary" x dict dictName "RF" OPTIONAL V13 none
        rfObj (.PDFDict rfDict) rfDict hf hd rfl rfl]
      simp [Nat.not_lt.mpr hv]
    have hefr : validateDictEntry x dict dictName "EF" true V13 none =
        .error (.MissingRequiredField dictName "EF") := by
      unfold validateDictEntry
      rw [validateEntry_absentOrNull asDict "dictionary" x dict dictName "EF" true V13 none hef]
      simp
    simp [validateFileSpecDictEFAndEF, hrf, hefr]
  · intro rfDict
    rfl

theorem dereference_idem (x : XRefTable) (hc : x.Concrete) (v o : PDFObject)
    (h : x.Dereference v = .ok o) : x.Dereference o = .ok o := by
  cases v with
  | PDFIndirectRef n g =>
    simp only [XRefTable.Dereference] at h
    cases ht : x.Table n g with
    | error f => simp [ht] at h
    | ok o' =>
      simp [ht] at h
      subst h
      have := hc n g o' ht
      cases o' <;> first | rfl | exact absurd rfl (this _ _)
  | _ => simp only [XRefTable.Dereference] at h; cases h; rfl

/-- One round of the array loop succeeds exactly when the entry meets the
condition of its position and the rest of the loop succeeds. -/
theorem filesArrayLoop_cons_of (P : Predicates) (x : XRefTable) (k : Nat) (v : PDFObject)
    (rest : List PDFObject)
    (hv : (k % 2 = 0 → validStreamEntry P x v) ∧ (k % 2 = 1 → stringLiteralEntry x v))
    (hrest : validateEFDictFilesArrayLoop P x (k + 1) rest = .ok ()) :
    validateEFDictFilesArrayLoop P x k (v :: rest) = .ok () := by
  rcases Nat.mod_two_eq_zero_or_one k with hk | hk
  · obtain ⟨sd, hd, hsd⟩ := hv.1 hk
    have hnil : v.isNil = false := by
      cases v <;> first | rfl | (simp [XRefTable.Dereference] at hd)
    have h1 : (PDFObject.PDFStreamDict sd).isNil = false := rfl
    have h2 : validateStreamDict x (.PDFStreamDict sd) = .ok (some sd) := rfl
    simp [validateEFDictFilesArrayLoop, hnil, hd, h1, h2, hk, hsd, hrest]
  · obtain ⟨s, hd⟩ := hv.2 hk
    have hnil : v.isNil = false := by
      cases v <;> first | rfl | (simp [XRefTable.Dereference] at hd)
    have h1 : (PDFObject.PDFStringLiteral s).isNil = false := rfl
    simp [validateEFDictFilesArrayLoop, hnil, hd, h1, hk, hrest]

theorem filesArrayLoop_ok_of (P : Predicates) (x : XRefTable) (l : List PDFObject) :
    ∀ k : Nat,
      (∀ i v, l[i]? = some v →
        ((k + i) % 2 = 0 → validStreamEntry P x v) ∧
        ((k + i) % 2 = 1 → stringLiteralEntry x v)) →
      validateEFDictFilesArrayLoop P x k l = .ok () := by
  induction l with
  | nil => intro k _; rfl
  | cons v rest ih =>
    intro k h
    apply filesArrayLoop_cons_of
    · simpa using h 0 v (by simp)
    · apply ih
      intro i w hw
      have := h (i + 1) w (by simpa using hw)
      rwa [show k + (i + 1) = k + 1 + i by omega] at this

theorem filesArrayLoop_cons_inv (P : Predicates) (x : XRefTable) (hc : x.Concrete) (k : Nat)
    (v : PDFObject) (rest : List PDFObject)
    (h : validateEFDictFilesArrayLoop P x k (v :: rest) = .ok ()) :
    ((k % 2 = 0 → validStreamEntry P x v) ∧ (k % 2 = 1 → stringLiteralEntry x v)) ∧
      validateEFDictFilesArrayLoop P x (k + 1) rest = .ok () := by
  simp only [validateEFDictFilesArrayLoop] at h
  cases hnil : v.isNil with
  | true => simp [hnil] at h
  | false =>
    simp only [hnil, Bool.false_eq_true, if_false, pure_eq_ok, bind_ok_eq] at h
    cases hd : x.Dereference v with
    | error e => simp [hd] at h
    | ok obj =>
      simp only [hd, bind_ok_eq] at h
      cases hobj : obj.isNil with
      | true => simp [hobj] at h
      | false =>
        simp only [hobj, Bool.false_eq_true, if_false, pure_eq_ok, bind_ok_eq] at h
        rcases Nat.mod_two_eq_zero_or_one k with hk | hk
        · simp only [hk, gt_iff_lt, lt_self_iff_false, if_false] at h
          have hidem := dereference_idem x hc v obj hd
          cases hs : validateStreamDict x obj with
          | error e => simp [hs] at h
          | ok sd =>
            simp only [hs, bind_ok_eq] at h
            cases sd with
            | none => simp [validateEmbeddedFileStreamDict] at h
            | some sd =>
              cases hv : validateEmbeddedFileStreamDict P x (some sd) with
              | error e => simp [hv] at h
              | ok u =>
                simp only [hv, bind_ok_eq] at h
                refine ⟨⟨fun _ => ⟨sd, ?_, hv⟩, fun h1 => by omega⟩, h⟩
                simp only [validateStreamDict, XRefTable.DereferenceStreamDict, hidem] at hs
                cases obj <;> simp at hs
                subst hs
                exact hd
        · simp only [hk, gt_iff_lt, Nat.lt_one_iff, one_ne_zero, Nat.zero_lt_one, if_true] at h
          cases obj <;> simp at h
          exact ⟨⟨fun h0 => by omega, fun _ => ⟨_, hd⟩⟩, h⟩

theorem filesArrayLoop_ok_inv (P : Predicates) (x : XRefTable) (hc : x.Concrete)
    (l : List PDFObject) :
    ∀ k : Nat, validateEFDictFilesArrayLoop P x k l = .ok () →
      ∀ i v, l[i]? = some v →
        ((k + i) % 2 = 0 → validStreamEntry P x v) ∧
        ((k + i) % 2 = 1 → stringLiteralEntry x v) := by
  induction l with
  | nil => intro k _ i v hv; simp at hv
  | cons w rest ih =>
    intro k h i v hv
    obtain ⟨hw, hrest⟩ := filesArrayLoop_cons_inv P x hc k w rest h
    cases i with
    | zero =>
      simp at hv
      subst hv
      simpa using hw
    | succ j =>
      have := ih (k + 1) hrest j v (by simpa using hv)
      rwa [show k + 1 + j = k + (j + 1) by omega] at this

/-! ### Where a failure comes from -/

theorem errsIn_ok {α : Type} (a : α) (S : Err → Prop) : ErrsIn (Except.ok a) S := by
  intro e h; cases h

theorem errsIn_error {α : Type} (e : Err) (S : Err → Prop) (h : S e) :
    ErrsIn (Except.error e : Except Err α) S := by
  intro e' h'; cases h'; exact h

theorem errsIn_bind {α β : Type} (r : Except Err α) (f : α → Except Err β) (S : Err → Prop)
    (h1 : ErrsIn r S) (h2 : ∀ a, r = .ok a → ErrsIn (f a) S) : ErrsIn (r >>= f) S := by
  cases r with
  | error e => intro e' h'; exact h1 e' (by simpa using h')
  | ok a => exact h2 a rfl

theorem errsIn_mono {α : Type} (r : Except Err α) (S T : Err → Prop) (h : ErrsIn r S)
    (hst : ∀ e, S e → T e) : ErrsIn r T :=
  fun e he => hst e (h e he)

theorem dereference_errs (x : XRefTable) (o : PDFObject) (e : Err)
    (h : x.Dereference o = .error e) : e.isFault = true := by
  cases o with
  | PDFIndirectRef n g =>
    simp only [XRefTable.Dereference] at h
    cases ht : x.Table n g with
    | error f => simp [ht] at h; subst h; rfl
    | ok o' => simp [ht] at h
  | _ => simp [XRefTable.Dereference] at h

/-- A failure of an entry validator is a fault of the resolver or is attributed
to the validated field. -/
theorem validateEntry_errs {α : Type} (asK : PDFObject → TypeCheck α) (kind : String)
    (x : XRefTable) (dict : Dict) (dictName entryName : String) (required : Bool)
    (sinceVersion : PDFVersion) (validate : Option (α → Bool))
    (hasK : ∀ o e, asK o = .fault e → e.isFault = true) :
    ErrsIn (validateEntry asK kind x dict dictName entryName required sinceVersion validate)
      (fun e => e.isFault = true ∨ e.fieldName? = some entryName) := by
  intro e h
  unfold validateEntry at h
  split at h
  · split at h
    · cases h; right; rfl
    · cases h
  · split at h
    · cases h; left; exact dereference_errs x _ _ (by assumption)
    · split at h
      · cases h; right; rfl
      · cases h
    · split at h
      · cases h; left; exact hasK _ _ (by assumption)
      · cases h; right; rfl
      · cases h; right; rfl
      · split at h
        · cases h; right; rfl
        · split at h
          · cases h
          · split at h
            · cases h
            · cases h; right; rfl

theorem within_of_entry (fields formats : List String) (entryName : String) (e : Err)
    (hmem : entryName ∈ fields) (h : e.isFault = true ∨ e.fieldName? = some entryName) :
    e.within fields formats := by
  cases e <;> simp [Err.isFault, Err.fieldName?, Err.within] at h ⊢ <;> (subst h; exact hmem)

theorem entry_within {α : Type} (r : Except Err α) (fields formats : List String)
    (entryName : String)
    (h : ErrsIn r (fun e => e.isFault = true ∨ e.fieldName? = some entryName))
    (hmem : entryName ∈ fields) : ErrsIn r (Err.within fields formats) :=
  errsIn_mono r _ _ h (fun e he => within_of_entry fields formats entryName e hmem he)

theorem validateBooleanEntry_errs (x : XRefTable) (dict : Dict) (dictName entryName : String)
    (required : Bool) (sinceVersion : PDFVersion) (validate : Option (Bool → Bool)) :
    ErrsIn (validateBooleanEntry x dict dictName entryName required sinceVersion validate)
      (fun e => e.isFault = true ∨ e.fieldName? = some entryName) :=
  validateEntry_errs _ _ _ _ _ _ _ _ _ (by intro o e h; cases o <;> simp [asBoolean] at h)

theorem validateIntegerEntry_errs (x : XRefTable) (dict : Dict) (dictName entryName : String)
    (required : Bool) (sinceVersion : PDFVersion) (validate : Option (Int → Bool)) :
    ErrsIn (validateIntegerEntry x dict dictName entryName required sinceVersion validate)
      (fun e => e.isFault = true ∨ e.fieldName? = some entryName) :=
  validateEntry_errs _ _ _ _ _ _ _ _ _ (by intro o e h; cases o <;> simp [asInteger] at h)

theorem validateNameEntry_errs (x : XRefTable) (dict : Dict) (dictName entryName : String)
    (required : Bool) (sinceVersion : PDFVersion) (validate : Option (String → Bool)) :
    ErrsIn (validateNameEntry x dict dictName entryName required sinceVersion validate)
      (fun e => e.isFault = true ∨ e.fieldName? = some entryName) :=
  validateEntry_errs _ _ _ _ _ _ _ _ _ (by intro o e h; cases o <;> simp [asName] at h)

theorem validateStringEntry_errs (x : XRefTable) (dict : Dict) (dictName entryName : String)
    (required : Bool) (sinceVersion : PDFVersion) (validate : Option (String → Bool)) :
    ErrsIn (validateStringEntry x dict dictName entryName required sinceVersion validate)
      (fun e => e.isFault = true ∨ e.fieldName? = some entryName) :=
  validateEntry_errs _ _ _ _ _ _ _ _ _ (by intro o e h; cases o <;> simp [asString] at h)

theorem validateDictEntry_errs (x : XRefTable) (dict : Dict) (dictName entryName : String)
    (required : Bool) (sinceVersion : PDFVersion) (validate : Option (Dict → Bool)) :
    ErrsIn (validateDictEntry x dict dictName entryName required sinceVersion validate)
      (fun e => e.isFault = true ∨ e.fieldName? = some entryName) :=
  validateEntry_errs _ _ _ _ _ _ _ _ _ (by intro o e h; cases o <;> simp [asDict] at h)

theorem validateStreamDictEntry_errs (x : XRefTable) (dict : Dict)
    (dictName entryName : String) (required : Bool) (sinceVersion : PDFVersion)
    (validate : Option (Dict → Bool)) :
    ErrsIn (validateStreamDictEntry x dict dictName entryName required sinceVersion validate)
      (fun e => e.isFault = true ∨ e.fieldName? = some entryName) :=
  validateEntry_errs _ _ _ _ _ _ _ _ _ (by intro o e h; cases o <;> simp [asStreamDict] at h)

theorem validateDateEntry_errs (validDate : String → Bool) (x : XRefTable) (dict : Dict)
    (dictName entryName : String) (required : Bool) (sinceVersion : PDFVersion) :
    ErrsIn (validateDateEntry validDate x dict dictName entryName required sinceVersion)
      (fun e => e.isFault = true ∨ e.fieldName? = some entryName) :=
  validateEntry_errs _ _ _ _ _ _ _ _ _ (by
    intro o e h
    cases o <;> simp [asDate] at h <;> split at h <;> cases h)

theorem stringElements_fault (x : XRefTable) (l : List PDFObject) (e : Err)
    (h : stringElements x l = .fault e) : e.isFault = true := by
  induction l with
  | nil => simp [stringElements] at h
  | cons v rest ih =>
    simp only [stringElements] at h
    split at h
    · cases h; exact dereference_errs x _ _ (by assumption)
    · exact ih h
    · exact ih h
    · cases h

theorem validateStringArrayEntry_errs (x : XRefTable) (dict : Dict)
    (dictName entryName : String) (required : Bool) (sinceVersion : PDFVersion)
    (validate : Option (List PDFObject → Bool)) :
    ErrsIn (validateStringArrayEntry x dict dictName entryName required sinceVersion validate)
      (fun e => e.isFault = true ∨ e.fieldName? = some entryName) :=
  validateEntry_errs _ _ _ _ _ _ _ _ _ (by
    intro o e h
    cases o <;> simp [asStringArray] at h
    split at h <;> cases h
    rename_i heq
    exact stringElements_fault x _ _ heq)

theorem fault_within (fields formats : List String) (e : Err) (h : e.isFault = true) :
    e.within fields formats := by
  cases e <;> simp [Err.isFault] at h
  trivial

theorem dereference_within (x : XRefTable) (o : PDFObject) (fields formats : List String) :
    ErrsIn (x.Dereference o) (Err.within fields formats) :=
  fun e h => fault_within fields formats e (dereference_errs x o e h)

theorem dereferenceDict_errs (x : XRefTable) (o : PDFObject) (fields formats : List String) :
    ErrsIn (x.DereferenceDict o) (Err.within fields formats) := by
  intro e h
  unfold XRefTable.DereferenceDict at h
  split at h
  · cases h
    exact fault_within _ _ _ (dereference_errs x _ _ (by assumption))
  · cases h
  · cases h
  · cases h; trivial

theorem dereferenceArray_errs (x : XRefTable) (o : PDFObject) (fields formats : List String) :
    ErrsIn (x.DereferenceArray o) (Err.within fields formats) := by
  intro e h
  unfold XRefTable.DereferenceArray at h
  split at h
  · cases h
    exact fault_within _ _ _ (dereference_errs x _ _ (by assumption))
  · cases h
  · cases h
  · cases h; trivial

theorem validateStreamDict_errs (x : XRefTable) (o : PDFObject)
    (fields formats : List String) :
    ErrsIn (validateStreamDict x o) (Err.within fields formats) := by
  intro e h
  unfold validateStreamDict XRefTable.DereferenceStreamDict at h
  split at h
  · cases h
    exact fault_within _ _ _ (dereference_errs x _ _ (by assumption))
  · cases h
  · cases h
  · cases h; trivial

theorem macParameterDict_errs (x : XRefTable) (dict : Dict) :
    ErrsIn (validateEmbeddedFileStreamMacParameterDict x dict)
      (Err.within nestedFields nestedFormats) := by
  unfold validateEmbeddedFileStreamMacParameterDict
  dsimp only
  refine errsIn_bind _ _ _
    (entry_within _ _ _ _ (validateIntegerEntry_errs _ _ _ _ _ _ _) (by decide)) (fun _ _ => ?_)
  refine errsIn_bind _ _ _
    (entry_within _ _ _ _ (validateIntegerEntry_errs _ _ _ _ _ _ _) (by decide)) (fun _ _ => ?_)
  refine errsIn_bind _ _ _
    (entry_within _ _ _ _ (validateStreamDictEntry_errs _ _ _ _ _ _ _) (by decide))
    (fun _ _ => ?_)
  exact errsIn_ok _ _

theorem parameterDict_errs (P : Predicates) (x : XRefTable) (obj : PDFObject) :
    ErrsIn (validateEmbeddedFileStreamParameterDict P x obj)
      (Err.within nestedFields nestedFormats) := by
  unfold validateEmbeddedFileStreamParameterDict
  dsimp only
  refine errsIn_bind _ _ _ (dereferenceDict_errs _ _ _ _) (fun dict _ => ?_)
  split
  · exact errsIn_ok _ _
  · cases dict with
    | none => exact errsIn_error _ _ trivial
    | some dict =>
      dsimp only [pure_eq_ok, bind_ok_eq]
      refine errsIn_bind _ _ _
        (entry_within _ _ _ _ (validateIntegerEntry_errs _ _ _ _ _ _ _) (by decide))
        (fun _ _ => ?_)
      refine errsIn_bind _ _ _
        (entry_within _ _ _ _ (validateDateEntry_errs _ _ _ _ _ _ _) (by decide))
        (fun _ _ => ?_)
      refine errsIn_bind _ _ _
        (entry_within _ _ _ _ (validateDateEntry_errs _ _ _ _ _ _ _) (by decide))
        (fun _ _ => ?_)
      refine errsIn_bind _ _ _
        (entry_within _ _ _ _ (validateDictEntry_errs _ _ _ _ _ _ _) (by decide))
        (fun macDict _ => ?_)
      cases macDict with
      | none =>
        dsimp only [pure_eq_ok, bind_ok_eq]
        refine errsIn_bind _ _ _
          (entry_within _ _ _ _ (validateStringEntry_errs _ _ _ _ _ _ _) (by decide))
          (fun _ _ => ?_)
        exact errsIn_ok _ _
      | some macDict =>
        dsimp only
        refine errsIn_bind _ _ _ (macParameterDict_errs _ _) (fun _ _ => ?_)
        refine errsIn_bind _ _ _
          (entry_within _ _ _ _ (validateStringEntry_errs _ _ _ _ _ _ _) (by decide))
          (fun _ _ => ?_)
        exact errsIn_ok _ _

theorem embeddedFileStreamDict_errs (P : Predicates) (x : XRefTable) (sd : Option Dict) :
    ErrsIn (validateEmbeddedFileStreamDict P x sd) (Err.within nestedFields nestedFormats) := by
  unfold validateEmbeddedFileStreamDict
  cases sd with
  | none => exact errsIn_error _ _ trivial
  | some sd =>
    dsimp only
    refine errsIn_bind _ _ _
      (entry_within _ _ _ _ (validateNameEntry_errs _ _ _ _ _ _ _) (by decide)) (fun _ _ => ?_)
    refine errsIn_bind _ _ _
      (entry_within _ _ _ _ (validateNameEntry_errs _ _ _ _ _ _ _) (by decide)) (fun _ _ => ?_)
    split
    · split
      · exact errsIn_bind _ _ _ (parameterDict_errs _ _ _) (fun _ _ => errsIn_ok _ _)
      · exact errsIn_ok _ _
    · exact errsIn_ok _ _

theorem efDict_errs (P : Predicates) (x : XRefTable) (d : Dict) :
    ErrsIn (validateFileSpecDictEntryEFDict P x d) (Err.within nestedFields nestedFormats) := by
  induction d with
  | nil => exact errsIn_ok _ _
  | cons hd tl ih =>
    obtain ⟨k, obj⟩ := hd
    unfold validateFileSpecDictEntryEFDict
    simp only [throw_eq_error, bind_error_eq, pure_eq_ok, bind_ok_eq]
    split
    · exact errsIn_error _ _ (by simp [Err.within, nestedFormats])
    · refine errsIn_bind _ _ _ (validateStreamDict_errs _ _ _ _) (fun _ _ => ?_)
      exact errsIn_bind _ _ _ (embeddedFileStreamDict_errs _ _ _) (fun _ _ => ih)

theorem filesArrayLoop_errs (P : Predicates) (x : XRefTable) (l : List PDFObject) :
    ∀ k, ErrsIn (validateEFDictFilesArrayLoop P x k l)
      (Err.within nestedFields nestedFormats) := by
  induction l with
  | nil => intro k; exact errsIn_ok _ _
  | cons v rest ih =>
    intro k
    unfold validateEFDictFilesArrayLoop
    simp only [throw_eq_error, bind_error_eq, pure_eq_ok, bind_ok_eq]
    split
    · exact errsIn_error _ _ (by simp [Err.within, nestedFormats])
    · refine errsIn_bind _ _ _ (dereference_within _ _ _ _) (fun obj _ => ?_)
      split
      · exact errsIn_error _ _ (by simp [Err.within, nestedFormats])
      · split
        · split
          · exact ih _
          · exact errsIn_error _ _ (by simp [Err.within, nestedFormats])
        · refine errsIn_bind _ _ _ (validateStreamDict_errs _ _ _ _) (fun _ _ => ?_)
          exact errsIn_bind _ _ _ (embeddedFileStreamDict_errs _ _ _) (fun _ _ => ih _)

theorem filesArray_errs (P : Predicates) (x : XRefTable) (arr : List PDFObject) :
    ErrsIn (validateEFDictFilesArray P x arr) (Err.within nestedFields nestedFormats) := by
  unfold validateEFDictFilesArray
  split
  · exact errsIn_error _ _ (by simp [Err.within, nestedFormats])
  · exact filesArrayLoop_errs _ _ _ _

theorem rfLoop_errs (P : Predicates) (x : XRefTable) (efDict rfDict : Dict) :
    ErrsIn (validateFileSpecDictEntriesEFAndRFLoop P x efDict rfDict)
      (Err.within nestedFields nestedFormats) := by
  induction rfDict with
  | nil => exact errsIn_ok _ _
  | cons hd tl ih =>
    obtain ⟨k, val⟩ := hd
    unfold validateFileSpecDictEntriesEFAndRFLoop
    simp only [throw_eq_error, bind_error_eq, pure_eq_ok, bind_ok_eq]
    split
    · exact errsIn_error _ _ (by simp [Err.within, nestedFormats])
    · refine errsIn_bind _ _ _ (dereferenceArray_errs _ _ _ _) (fun arr _ => ?_)
      cases arr with
      | none => exact ih
      | some arr => exact errsIn_bind _ _ _ (filesArray_errs _ _ _) (fun _ _ => ih)

theorem entriesEFAndRF_errs (P : Predicates) (x : XRefTable) (efDict rfDict : Option Dict) :
    ErrsIn (validateFileSpecDictEntriesEFAndRF P x efDict rfDict)
      (Err.within nestedFields nestedFormats) := by
  unfold validateFileSpecDictEntriesEFAndRF
  cases efDict with
  | none => exact errsIn_error _ _ (by simp [Err.within, nestedFormats])
  | some efDict =>
    refine errsIn_bind _ _ _ (efDict_errs _ _ _) (fun _ _ => ?_)
    cases rfDict with
    | none => exact errsIn_ok _ _
    | some rfDict => exact rfLoop_errs _ _ _ _

theorem fileSpecDictType_errs (x : XRefTable) (dict : Dict) :
    ErrsIn (validateFileSpecDictType x dict) (Err.within nestedFields nestedFormats) := by
  unfold validateFileSpecDictType
  split
  · exact errsIn_error _ _ (by simp [Err.within, nestedFormats])
  · split
    · exact errsIn_error _ _ (by simp [Err.within, nestedFormats])
    · exact errsIn_ok _ _

theorem efAndEF_errs (P : Predicates) (x : XRefTable) (dict : Dict) (dictName : String) :
    ErrsIn (validateFileSpecDictEFAndEF P x dict dictName)
      (Err.within nestedFields nestedFormats) := by
  unfold validateFileSpecDictEFAndEF
  dsimp only
  refine errsIn_bind _ _ _
    (entry_within _ _ _ _ (validateDictEntry_errs _ _ _ _ _ _ _) (by decide)) (fun _ _ => ?_)
  refine errsIn_bind _ _ _
    (entry_within _ _ _ _ (validateDictEntry_errs _ _ _ _ _ _ _) (by decide)) (fun _ _ => ?_)
  refine errsIn_bind _ _ _
    (entry_within _ _ _ _ (validateNameEntry_errs _ _ _ _ _ _ _) (by decide)) (fun _ _ => ?_)
  split
  · refine errsIn_bind _ _ _ (fileSpecDictType_errs _ _) (fun _ _ => ?_)
    exact errsIn_bind _ _ _ (entriesEFAndRF_errs _ _ _ _) (fun _ _ => errsIn_ok _ _)
  · exact errsIn_bind _ _ _ (errsIn_ok _ _) (fun _ _ => errsIn_ok _ _)

theorem within_mono (fields fields2 formats formats2 : List String) (e : Err)
    (hf : ∀ f, f ∈ fields → f ∈ fields2) (hm : ∀ f, f ∈ formats → f ∈ formats2)
    (h : e.within fields formats) : e.within fields2 formats2 := by
  cases e <;> simp only [Err.within] at h ⊢ <;> first | exact hf _ h | exact hm _ h

/-- The failures of `validateFileSpecDict`, given those of its F and UF steps:
every other failure is attributed to another field or is a message of the EF
and RF validators. -/
theorem fileSpecDict_errs (P : Predicates) (x : XRefTable) (dict : Dict)
    (fields : List String) (hsub : ∀ f, f ∈ otherFields → f ∈ fields)
    (hF : ∀ validate, ErrsIn (validateStringEntry x dict "fileSpecDict" "F"
      (requiredF (dict.Find "DOS").isSome (dict.Find "Mac").isSome (dict.Find "Unix").isSome)
      V10 (some validate)) (Err.within fields nestedFormats))
    (hUF : ErrsIn (validateStringEntry x dict "fileSpecDict" "UF" OPTIONAL
      (if x.ValidationMode == ValidationMode.ValidationRelaxed then V14 else V17)
      (some P.validateFileSpecString)) (Err.within fields nestedFormats)) :
    ErrsIn (validateFileSpecDict P x dict) (Err.within fields nestedFormats) := by
  have hmem : ∀ f, f ∈ otherFields → f ∈ fields := hsub
  unfold validateFileSpecDict
  dsimp only
  refine errsIn_bind _ _ _
    (entry_within _ _ _ _ (validateNameEntry_errs _ _ _ _ _ _ _) (hmem _ (by decide)))
    (fun _ _ => ?_)
  refine errsIn_bind _ _ _ (hF _) (fun _ _ => ?_)
  refine errsIn_bind _ _ _ hUF (fun _ _ => ?_)
  refine errsIn_bind _ _ _
    (entry_within _ _ _ _ (validateStringArrayEntry_errs _ _ _ _ _ _ _) (hmem _ (by decide)))
    (fun _ _ => ?_)
  refine errsIn_bind _ _ _
    (entry_within _ _ _ _ (validateBooleanEntry_errs _ _ _ _ _ _ _) (hmem _ (by decide)))
    (fun _ _ => ?_)
  refine errsIn_bind _ _ _ ?_ (fun _ _ => ?_)
  · exact errsIn_mono _ _ _ (efAndEF_errs _ _ _ _)
      (fun e he => within_mono _ _ _ _ e
        (fun f hf => hmem f (by simp [otherFields, hf])) (fun _ h => h) he)
  refine errsIn_bind _ _ _
    (entry_within _ _ _ _ (validateStringEntry_errs _ _ _ _ _ _ _) (hmem _ (by decide)))
    (fun _ _ => ?_)
  refine errsIn_bind _ _ _
    (entry_within _ _ _ _ (validateDictEntry_errs _ _ _ _ _ _ _) (hmem _ (by decide)))
    (fun _ _ => ?_)
  exact errsIn_ok _ _

/-! ### `validateFileSpecification` -/

theorem bind_eq_ok_iff {α β : Type} (r : Except Err α) (f : α → Except Err β) (b : β) :
    (r >>= f) = .ok b ↔ ∃ a, r = .ok a ∧ f a = .ok b := by
  cases r with
  | error e => simp
  | ok a => simp

theorem fileSpecification_nonNil (P : Predicates) (x : XRefTable) (obj v : PDFObject)
    (h : validateFileSpecification P x obj = .ok v) : v.isNil = false := by
  unfold validateFileSpecification at h
  obtain ⟨o, _, h⟩ := (bind_eq_ok_iff _ _ _).mp h
  cases o with
  | PDFStringLiteral s =>
    simp only [throw_eq_error, bind_error_eq, pure_eq_ok, bind_ok_eq] at h
    split at h <;> cases h
    rfl
  | PDFHexLiteral s =>
    simp only [throw_eq_error, bind_error_eq, pure_eq_ok, bind_ok_eq] at h
    split at h <;> cases h
    rfl
  | PDFDict d =>
    simp only [pure_eq_ok] at h
    obtain ⟨_, _, h⟩ := (bind_eq_ok_iff _ _ _).mp h
    cases h; rfl
  | _ => simp at h

/-- The messages of `validateFileSpecification`. -/
theorem fileSpecification_errs (P : Predicates) (x : XRefTable) (obj : PDFObject) :
    ErrsIn (validateFileSpecification P x obj)
      (Err.within (otherFields ++ ["F", "UF"]) (nestedFormats ++
        ["validateFileSpecification: invalid file spec string: %s",
          "validateFileSpecification: invalid type"])) := by
  unfold validateFileSpecification
  refine errsIn_bind _ _ _ (dereference_within _ _ _ _) (fun o _ => ?_)
  have hdict : ∀ d, ErrsIn (validateFileSpecDict P x d)
      (Err.within (otherFields ++ ["F", "UF"]) (nestedFormats ++
        ["validateFileSpecification: invalid file spec string: %s",
          "validateFileSpecification: invalid type"])) := by
    intro d
    refine errsIn_mono _ _ _ (fileSpecDict_errs P x d (otherFields ++ ["F", "UF"])
      (fun f hf => by simp [hf]) (fun _ => ?_) ?_)
      (fun e he => within_mono _ _ _ _ e (fun _ h => h) (fun f hf => by simp [hf]) he)
    · exact entry_within _ _ _ _ (validateStringEntry_errs _ _ _ _ _ _ _) (by simp)
    · exact entry_within _ _ _ _ (validateStringEntry_errs _ _ _ _ _ _ _) (by simp)
  cases o with
  | PDFStringLiteral s =>
    simp only [throw_eq_error, bind_error_eq, pure_eq_ok, bind_ok_eq]
    split
    · exact errsIn_error _ _ (by simp [Err.within])
    · exact errsIn_ok _ _
  | PDFHexLiteral s =>
    simp only [throw_eq_error, bind_error_eq, pure_eq_ok, bind_ok_eq]
    split
    · exact errsIn_error _ _ (by simp [Err.within])
    · exact errsIn_ok _ _
  | PDFDict d => exact errsIn_bind _ _ _ (hdict d) (fun _ _ => errsIn_ok _ _)
  | _ =>
    simp only [throw_eq_error, bind_error_eq, pure_eq_ok, bind_ok_eq]
    exact errsIn_error _ _ (by simp [Err.within])

theorem bind_pure_eq {α : Type} (r : Except Err α) : (r >>= fun a => pure a) = r := by
  cases r <;> rfl

theorem fileSpecEntry_absentOrNull (P : Predicates) (x : XRefTable) (dict : Dict)
    (dictName entryName : String) (required : Bool) (sinceVersion : PDFVersion)
    (h : absentOrNull x dict entryName) :
    validateFileSpecEntry P x dict dictName entryName required sinceVersion =
      if required then
        .error (.errorf "validateFileSpecEntry: dict=%s required entry=%s missing"
          [dictName, entryName])
      else .ok .null := by
  unfold validateFileSpecEntry
  rcases h with h | ⟨obj, h, hd⟩
  · simp [h]
  · simp only [h]
    cases hn : obj.isNil with
    | true => simp
    | false =>
      have : PDFObject.null.isNil = true := rfl
      simp [hd, this]

theorem fileSpecEntry_present (P : Predicates) (x : XRefTable) (dict : Dict)
    (dictName entryName : String) (required : Bool) (sinceVersion : PDFVersion)
    (h : ¬ absentOrNull x dict entryName) :
    ∃ obj, dict.Find entryName = some obj ∧
      validateFileSpecEntry P x dict dictName entryName required sinceVersion =
        (x.Dereference obj >>= validateFileSpecification P x) := by
  cases hf : dict.Find entryName with
  | none => exact absurd (Or.inl hf) h
  | some obj =>
    refine ⟨obj, rfl, ?_⟩
    unfold validateFileSpecEntry
    simp only [hf]
    cases hn : obj.isNil with
    | true =>
      have := isNil_eq_true.mp hn
      subst this
      exact absurd (Or.inr ⟨_, hf, rfl⟩) h
    | false =>
      simp only [Bool.false_eq_true, if_false]
      cases hd : x.Dereference obj with
      | error e => rfl
      | ok o =>
        cases ho : o.isNil with
        | true =>
          have := isNil_eq_true.mp ho
          subst this
          exact absurd (Or.inr ⟨_, hf, hd⟩) h
        | false =>
          simp only [bind_ok_eq, ho, Bool.false_eq_true, if_false, pure_eq_ok]
          cases validateFileSpecification P x o <;> rfl

/-- C1. `validateFileSpecEntry` returns no value and no error exactly when the
field is absent or Null (directly or after resolution) and not required; it
fails with its `required entry missing` error exactly when the field is absent
or Null and required; and for a field that is present and not Null the result
is that of resolution followed by `validateFileSpecification`, so it is a
failure of one of the two or a value that is not nil. -/
theorem C1_fileSpecEntry_absent_or_null (P : Predicates) (x : XRefTable) (dict : Dict)
    (dictName entryName : String) (required : Bool) (sinceVersion : PDFVersion) :
    (validateFileSpecEntry P x dict dictName entryName required sinceVersion = .ok .null ↔
      (absentOrNull x dict entryName ∧ required = false)) ∧
    (validateFileSpecEntry P x dict dictName entryName required sinceVersion =
        .error (.errorf "validateFileSpecEntry: dict=%s required entry=%s missing"
          [dictName, entryName]) ↔
      (absentOrNull x dict entryName ∧ required = true)) ∧
    (¬ absentOrNull x dict entryName →
      ∃ obj, dict.Find entryName = some obj ∧
        validateFileSpecEntry P x dict dictName entryName required sinceVersion =
          (x.Dereference obj >>= validateFileSpecification P x) ∧
        ∀ v, validateFileSpecEntry P x dict dictName entryName required sinceVersion = .ok v →
          v.isNil = false) := by
  have hnonnil : ¬ absentOrNull x dict entryName →
      ∀ v, validateFileSpecEntry P x dict dictName entryName required sinceVersion = .ok v →
        v.isNil = false := by
    intro hp v hv
    obtain ⟨obj, _, heq⟩ := fileSpecEntry_present P x dict dictName entryName required
      sinceVersion hp
    rw [heq] at hv
    obtain ⟨o, _, ho⟩ := (bind_eq_ok_iff _ _ _).mp hv
    exact fileSpecification_nonNil P x o v ho
  refine ⟨⟨?_, ?_⟩, ⟨?_, ?_⟩, ?_⟩
  · intro hr
    by_cases ha : absentOrNull x dict entryName
    · refine ⟨ha, ?_⟩
      rw [fileSpecEntry_absentOrNull P x dict dictName entryName required sinceVersion ha] at hr
      cases required <;> simp at hr ⊢
    · have := hnonnil ha _ hr
      simp [PDFObject.isNil] at this
  · rintro ⟨ha, hreq⟩
    rw [fileSpecEntry_absentOrNull P x dict dictName entryName required sinceVersion ha]
    simp [hreq]
  · intro hr
    by_cases ha : absentOrNull x dict entryName
    · refine ⟨ha, ?_⟩
      rw [fileSpecEntry_absentOrNull P x dict dictName entryName required sinceVersion ha] at hr
      cases required <;> simp at hr ⊢
    · obtain ⟨obj, _, heq⟩ := fileSpecEntry_present P x dict dictName entryName required
        sinceVersion ha
      rw [heq] at hr
      have := errsIn_bind _ _ _ (dereference_within x obj _ _)
        (fun o _ => fileSpecification_errs P x o) _ hr
      simp [Err.within, nestedFormats] at this
  · rintro ⟨ha, hreq⟩
    rw [fileSpecEntry_absentOrNull P x dict dictName entryName required sinceVersion ha]
    simp [hreq]
  · intro ha
    obtain ⟨obj, hf, heq⟩ := fileSpecEntry_present P x dict dictName entryName required
      sinceVersion ha
    exact ⟨obj, hf, heq, hnonnil ha⟩

theorem bind_pure_unit (r : Except Err Unit) : (r >>= fun _ => pure ()) = r := by
  cases r <;> rfl

/-! ### The Type entry of a file specification dictionary -/

theorem typeEntry_ok (x : XRefTable) (dict : Dict) (dictName : String) (required : Bool)
    (s : String) (hf : dict.Find "Type" = some (.PDFName s))
    (hs : s = "Filespec" ∨ (x.ValidationMode = .ValidationRelaxed ∧ s = "F")) :
    validateNameEntry x dict dictName "Type" required V10 (some (fileSpecTypePredicate x)) =
        .ok (some s) ∧
      validateFileSpecDictType x dict = .ok () := by
  constructor
  · unfold validateNameEntry
    rw [validateEntry_value asName "name" x dict dictName "Type" required V10 _
      (.PDFName s) (.PDFName s) s hf rfl rfl rfl]
    rcases hs with hs | ⟨hm, hs⟩
    · simp [V10, fileSpecTypePredicate, hs]
    · simp [V10, fileSpecTypePredicate, hs, hm]
  · unfold validateFileSpecDictType Dict.Type
    rcases hs with hs | ⟨hm, hs⟩
    · simp [hf, hs]
    · simp [hf, hs, hm]

theorem efAndEF_unfold (P : Predicates) (x : XRefTable) (dict : Dict) (dictName : String) :
    validateFileSpecDictEFAndEF P x dict dictName =
      (validateDictEntry x dict dictName "RF" OPTIONAL V13 none >>= fun rfDict =>
        validateDictEntry x dict dictName "EF" rfDict.isSome V13 none >>= fun efDict =>
          validateNameEntry x dict dictName "Type" efDict.isSome V10
              (some (fileSpecTypePredicate x)) >>= fun _ =>
            (if efDict.isSome then
              validateFileSpecDictType x dict >>= fun _ =>
                validateFileSpecDictEntriesEFAndRF P x efDict rfDict
            else pure ()) >>= fun _ => pure ()) := by
  unfold validateFileSpecDictEFAndEF fileSpecTypePredicate
  dsimp only
  refine congrArg _ (funext fun rfDict => congrArg _ (funext fun efDict =>
    congrArg _ (funext fun _ => ?_)))
  cases efDict.isSome
  · rfl
  · simp only [if_true]
    cases validateFileSpecDictType x dict with
    | error e => rfl
    | ok u => rfl

/-- C6. `validateEFDictFilesArray` succeeds on every array of even length, the
empty one included, whose entries at even positions resolve to streams that
validate as embedded file stream dictionaries and whose entries at odd
positions resolve to string literals. Conversely, with a resolver that answers
with concrete values, success means that the length is even and that every
entry meets the condition of its position. -/
theorem C6_files_array_pairs (P : Predicates) (x : XRefTable) (arr : List PDFObject) :
    ((arr.length % 2 = 0 ∧
        ∀ i v, arr[i]? = some v →
          (i % 2 = 0 → validStreamEntry P x v) ∧ (i % 2 = 1 → stringLiteralEntry x v)) →
      validateEFDictFilesArray P x arr = .ok ()) ∧
    (x.Concrete → validateEFDictFilesArray P x arr = .ok () →
      arr.length % 2 = 0 ∧
        ∀ i v, arr[i]? = some v →
          (i % 2 = 0 → validStreamEntry P x v) ∧ (i % 2 = 1 → stringLiteralEntry x v)) := by
  constructor
  · rintro ⟨hlen, hall⟩
    unfold validateEFDictFilesArray
    simp only [hlen, gt_iff_lt, lt_self_iff_false, if_false]
    apply filesArrayLoop_ok_of
    intro i v hv
    simpa using hall i v hv
  · intro hc h
    unfold validateEFDictFilesArray at h
    rcases Nat.mod_two_eq_zero_or_one arr.length with hlen | hlen
    · refine ⟨hlen, ?_⟩
      simp only [hlen, gt_iff_lt, lt_self_iff_false, if_false] at h
      intro i v hv
      simpa using filesArrayLoop_ok_inv P x hc arr 0 h i v hv
    · simp [hlen] at h

/-! ### The F and UF entries of a file specification dictionary -/

theorem fileSpecDict_unfold (P : Predicates) (x : XRefTable) (dict : Dict) :
    ∃ rest : Except Err Unit,
      validateFileSpecDict P x dict =
        (validateNameEntry x dict "fileSpecDict" "FS" OPTIONAL V10 none >>= fun fsName =>
          validateStringEntry x dict "fileSpecDict" "F"
              (requiredF (dict.Find "DOS").isSome (dict.Find "Mac").isSome
                (dict.Find "Unix").isSome) V10
              (some (if fsName == some "URL" then P.validateURLString
                else P.validateFileSpecString)) >>= fun _ =>
            validateStringEntry x dict "fileSpecDict" "UF" OPTIONAL
                (if x.ValidationMode == ValidationMode.ValidationRelaxed then V14 else V17)
                (some P.validateFileSpecString) >>= fun _ => rest) :=
  ⟨_, rfl⟩

/-- C9. The F entry is required exactly when none of DOS, Mac and Unix is
present. `requiredF` is the negation of the disjunction of its arguments. A
dictionary without F and without DOS, Mac and Unix is rejected by
`validateFileSpecDict`, with the missing-F failure once FS has passed. A
dictionary without F in which one of DOS, Mac, Unix is present passes the F
step without a value, and no failure of `validateFileSpecDict` on it is
attributed to F. -/
theorem C9_F_required_unless_platform_entry (P : Predicates) (x : XRefTable) (dict : Dict)
    (hF : absentOrNull x dict "F") :
    (∀ dosFound macFound unixFound : Bool,
      requiredF dosFound macFound unixFound = !(dosFound || macFound || unixFound)) ∧
    ((dict.Find "DOS").isSome = false → (dict.Find "Mac").isSome = false →
      (dict.Find "Unix").isSome = false →
      Fails (validateFileSpecDict P x dict) ∧
      ∀ fsName, validateNameEntry x dict "fileSpecDict" "FS" OPTIONAL V10 none = .ok fsName →
        validateFileSpecDict P x dict = .error (.MissingRequiredField "fileSpecDict" "F")) ∧
    (((dict.Find "DOS").isSome = true ∨ (dict.Find "Mac").isSome = true ∨
        (dict.Find "Unix").isSome = true) →
      (∀ validate, validateStringEntry x dict "fileSpecDict" "F"
        (requiredF (dict.Find "DOS").isSome (dict.Find "Mac").isSome (dict.Find "Unix").isSome)
        V10 validate = .ok none) ∧
      ∀ e, validateFileSpecDict P x dict = .error e → e.fieldName? ≠ some "F") := by
  refine ⟨?_, ?_, ?_⟩
  · intro a b c
    cases a <;> cases b <;> cases c <;> rfl
  · intro hdos hmac hunix
    obtain ⟨rest, hrest⟩ := fileSpecDict_unfold P x dict
    have hstep : ∀ validate, validateStringEntry x dict "fileSpecDict" "F"
        (requiredF (dict.Find "DOS").isSome (dict.Find "Mac").isSome
          (dict.Find "Unix").isSome) V10 validate =
        .error (.MissingRequiredField "fileSpecDict" "F") := by
      intro validate
      unfold validateStringEntry
      rw [validateEntry_absentOrNull asString "string" x dict "fileSpecDict" "F" _ V10 _ hF]
      simp [hdos, hmac, hunix, requiredF]
    have hfs : ∀ fsName,
        validateNameEntry x dict "fileSpecDict" "FS" OPTIONAL V10 none = .ok fsName →
        validateFileSpecDict P x dict = .error (.MissingRequiredField "fileSpecDict" "F") := by
      intro fsName h
      rw [hrest, h]
      simp only [bind_ok_eq, hstep, bind_error_eq]
    refine ⟨?_, hfs⟩
    cases h : validateNameEntry x dict "fileSpecDict" "FS" OPTIONAL V10 none with
    | error e =>
      rw [hrest, h]
      exact fails_error _
    | ok fsName =>
      rw [hfs fsName h]
      exact fails_error _
  · intro hfound
    have hreq : requiredF (dict.Find "DOS").isSome (dict.Find "Mac").isSome
        (dict.Find "Unix").isSome = false := by
      rcases hfound with h | h | h <;> simp [requiredF, h]
    have hstep : ∀ validate, validateStringEntry x dict "fileSpecDict" "F"
        (requiredF (dict.Find "DOS").isSome (dict.Find "Mac").isSome
          (dict.Find "Unix").isSome) V10 validate = .ok none := by
      intro validate
      unfold validateStringEntry
      rw [validateEntry_absentOrNull asString "string" x dict "fileSpecDict" "F" _ V10 _ hF]
      simp [hreq]
    refine ⟨hstep, ?_⟩
    intro e he
    have hin := fileSpecDict_errs P x dict (otherFields ++ ["UF"])
      (fun f hf => by simp [hf])
      (fun validate => by rw [hstep]; exact errsIn_ok _ _)
      (entry_within _ _ _ _ (validateStringEntry_errs _ _ _ _ _ _ _) (by simp))
      e he
    intro hfield
    cases e <;> simp [Err.fieldName?] at hfield <;> subst hfield <;>
      simp [Err.within, otherFields, nestedFields] at hin

/-- C10. The UF threshold depends on the mode: 1.7 in Strict mode, 1.4 in
Relaxed mode. For a dictionary whose UF resolves to a string accepted by
`validateFileSpecString`: below the threshold of the mode
`validateFileSpecDict` fails, with the version failure of UF unless FS or F
failed before; at or above the threshold of the mode the UF step passes and no
failure of `validateFileSpecDict` is attributed to UF. So a version from 1.4
to below 1.7 is rejected in Strict mode only, a version below 1.4 in both
modes, a version from 1.7 on in neither. -/
theorem C10_UF_threshold_by_mode (P : Predicates) (x : XRefTable) (dict : Dict)
    (ufObj o : PDFObject) (s : String)
    (hUF : dict.Find "UF" = some ufObj) (hd : x.Dereference ufObj = .ok o)
    (hs : asString o = .value s) (hvalid : P.validateFileSpecString s = true) :
    (x.ValidationMode = .ValidationStrict → x.Version < V17 →
      ∃ e, validateFileSpecDict P x dict = .error e ∧
        (e = .VersionTooLow "UF" V17 x.Version ∨ e.isFault = true ∨
          e.fieldName? = some "FS" ∨ e.fieldName? = some "F")) ∧
    (x.ValidationMode = .ValidationRelaxed → x.Version < V14 →
      ∃ e, validateFileSpecDict P x dict = .error e ∧
        (e = .VersionTooLow "UF" V14 x.Version ∨ e.isFault = true ∨
          e.fieldName? = some "FS" ∨ e.fieldName? = some "F")) ∧
    (((x.ValidationMode = .ValidationRelaxed ∧ V14 ≤ x.Version) ∨ V17 ≤ x.Version) →
      validateStringEntry x dict "fileSpecDict" "UF" OPTIONAL
          (if x.ValidationMode == ValidationMode.ValidationRelaxed then V14 else V17)
          (some P.validateFileSpecString) = .ok (some s) ∧
        ∀ e, validateFileSpecDict P x dict = .error e → e.fieldName? ≠ some "UF") := by
  have hnil : o.isNil = false := by
    cases o <;> first | rfl | simp [asString] at hs
  have hstep : ∀ since, validateStringEntry x dict "fileSpecDict" "UF" OPTIONAL since
      (some P.validateFileSpecString) =
      if x.Version < since then .error (.VersionTooLow "UF" since x.Version)
      else .ok (some s) := by
    intro since
    unfold validateStringEntry
    rw [validateEntry_value asString "string" x dict "fileSpecDict" "UF" OPTIONAL since _
      ufObj o s hUF hd hnil hs]
    simp [hvalid]
  have hlow : ∀ since,
      (if x.ValidationMode == ValidationMode.ValidationRelaxed then V14 else V17) = since →
      x.Version < since →
      ∃ e, validateFileSpecDict P x dict = .error e ∧
        (e = .VersionTooLow "UF" since x.Version ∨ e.isFault = true ∨
          e.fieldName? = some "FS" ∨ e.fieldName? = some "F") := by
    intro since hsince hv
    obtain ⟨rest, hrest⟩ := fileSpecDict_unfold P x dict
    rw [hrest, hsince, hstep since]
    cases hfs : validateNameEntry x dict "fileSpecDict" "FS" OPTIONAL V10 none with
    | error e =>
      refine ⟨e, rfl, ?_⟩
      rcases validateNameEntry_errs _ _ _ _ _ _ _ e hfs with h | h
      · exact Or.inr (Or.inl h)
      · exact Or.inr (Or.inr (Or.inl h))
    | ok fsName =>
      simp only [bind_ok_eq]
      cases hf : validateStringEntry x dict "fileSpecDict" "F"
          (requiredF (dict.Find "DOS").isSome (dict.Find "Mac").isSome
            (dict.Find "Unix").isSome) V10
          (some (if fsName == some "URL" then P.validateURLString
            else P.validateFileSpecString)) with
      | error e =>
        refine ⟨e, rfl, ?_⟩
        rcases validateStringEntry_errs _ _ _ _ _ _ _ e hf with h | h
        · exact Or.inr (Or.inl h)
        · exact Or.inr (Or.inr (Or.inr h))
      | ok _ =>
        simp only [bind_ok_eq, hv, if_true, bind_error_eq]
        exact ⟨_, rfl, Or.inl rfl⟩
  refine ⟨?_, ?_, ?_⟩
  · intro hm hv
    exact hlow V17 (by simp [hm]) hv
  · intro hm hv
    exact hlow V14 (by simp [hm]) hv
  · intro hok
    have hpass : validateStringEntry x dict "fileSpecDict" "UF" OPTIONAL
        (if x.ValidationMode == ValidationMode.ValidationRelaxed then V14 else V17)
        (some P.validateFileSpecString) = .ok (some s) := by
      rw [hstep]
      rcases hok with ⟨hm, hv⟩ | hv
      · simp [hm, Nat.not_lt.mpr hv]
      · have h17 : ¬ x.Version < V17 := Nat.not_lt.mpr hv
        have h14 : ¬ x.Version < V14 :=
          Nat.not_lt.mpr (Nat.le_trans (by decide : V14 ≤ V17) hv)
        split <;> simp [h17, h14]
    refine ⟨hpass, ?_⟩
    intro e he
    have hin := fileSpecDict_errs P x dict (otherFields ++ ["F"])
      (fun f hf => by simp [hf])
      (fun validate => entry_within _ _ _ _ (validateStringEntry_errs _ _ _ _ _ _ _) (by simp))
      (by rw [hpass]; exact errsIn_ok _ _)
      e he
    intro hfield
    cases e <;> simp [Err.fieldName?] at hfield <;> subst hfield <;>
      simp [Err.within, otherFields, nestedFields] at hin

/-! ### The claims at concrete inputs -/

/-- C1 at a dictionary whose F entry is a reference to an undefined object: the
entry is not required, and the result is no value and no error. -/
theorem C1_fileSpecEntry_absent_or_null_witness :
    absentOrNull (emptyTable V10 .ValidationStrict) [("F", .PDFIndirectRef 1 0)] "F" ∧
    validateFileSpecEntry acceptAll (emptyTable V10 .ValidationStrict)
      [("F", .PDFIndirectRef 1 0)] "annotDict" "F" false V10 = .ok .null :=
  ⟨Or.inr ⟨_, rfl, rfl⟩,
    (C1_fileSpecEntry_absent_or_null acceptAll (emptyTable V10 .ValidationStrict)
      [("F", .PDFIndirectRef 1 0)] "annotDict" "F" false V10).1.mpr
      ⟨Or.inr ⟨_, rfl, rfl⟩, rfl⟩⟩

/-- C2. `validateFileSpecEntry` does not read `sinceVersion`: its result is the
same for every minimum version, and in a document of version 1.0 a present file
specification is accepted under the minimum version 1.7. -/
theorem C2_fileSpecEntry_no_version_check :
    (∀ (P : Predicates) (x : XRefTable) (dict : Dict) (dictName entryName : String)
      (required : Bool) (v w : PDFVersion),
      validateFileSpecEntry P x dict dictName entryName required v =
        validateFileSpecEntry P x dict dictName entryName required w) ∧
    (emptyTable V10 .ValidationStrict).Version < V17 ∧
    (∀ P : Predicates,
      validateFileSpecEntry P (emptyTable V10 .ValidationStrict)
        [("FS", .PDFDict dosOnlyFileSpec)] "annotDict" "FS" true V17 =
        .ok (.PDFDict dosOnlyFileSpec)) :=
  ⟨fun _ _ _ _ _ _ _ _ => rfl, by decide, fun _ => rfl⟩

/-- The pairing of keys at an RF dictionary with the key `X` and an EF
dictionary with the key `F` only. -/
theorem rf_key_without_ef_key_fails_example :
    "X" ∈ Dict.keys [("X", .PDFArray [])] ∧
    Dict.Find [("F", .PDFStreamDict [])] "X" = none ∧
    Fails (validateFileSpecDictEntriesEFAndRF acceptAll (emptyTable V13 .ValidationStrict)
      (some [("F", .PDFStreamDict [])]) (some [("X", .PDFArray [])])) :=
  ⟨by simp [Dict.keys], rfl,
    rf_key_without_ef_key_fails acceptAll (emptyTable V13 .ValidationStrict)
      [("F", .PDFStreamDict [])] [("X", .PDFArray [])] "X" (by simp [Dict.keys]) rfl⟩

/-- C5 at an array of one element. -/
theorem C5_odd_length_rejected_witness :
    [PDFObject.PDFStreamDict []].length % 2 = 1 ∧
    validateEFDictFilesArray acceptAll (emptyTable V13 .ValidationStrict)
      [.PDFStreamDict []] =
      .error (.errorf "validateEFDictFilesArray: rfDict array corrupt" []) :=
  ⟨rfl, C5_odd_length_rejected acceptAll (emptyTable V13 .ValidationStrict)
    [.PDFStreamDict []] rfl⟩

theorem onePairArray_entries :
    onePairArray.length % 2 = 0 ∧
      ∀ i v, onePairArray[i]? = some v →
        (i % 2 = 0 → validStreamEntry acceptAll (emptyTable V13 .ValidationStrict) v) ∧
        (i % 2 = 1 → stringLiteralEntry (emptyTable V13 .ValidationStrict) v) := by
  refine ⟨rfl, ?_⟩
  intro i v h
  match i, h with
  | 0, h =>
    simp [onePairArray] at h
    subst h
    exact ⟨fun _ => ⟨[], rfl, rfl⟩, fun h1 => by simp at h1⟩
  | 1, h =>
    simp [onePairArray] at h
    subst h
    exact ⟨fun h0 => by simp at h0, fun _ => ⟨"desc", rfl⟩⟩
  | n + 2, h => simp [onePairArray] at h

theorem emptyTable_concrete (version : PDFVersion) (mode : ValidationMode) :
    (emptyTable version mode).Concrete := by
  intro n g o h n' g' ho
  subst ho
  simp [emptyTable] at h

/-- C6 at the array of one pair, a stream and a description: it is accepted,
and from the acceptance the even length is recovered. -/
theorem C6_files_array_pairs_witness :
    (onePairArray.length % 2 = 0 ∧
      ∀ i v, onePairArray[i]? = some v →
        (i % 2 = 0 → validStreamEntry acceptAll (emptyTable V13 .ValidationStrict) v) ∧
        (i % 2 = 1 → stringLiteralEntry (emptyTable V13 .ValidationStrict) v)) ∧
    (emptyTable V13 .ValidationStrict).Concrete ∧
    validateEFDictFilesArray acceptAll (emptyTable V13 .ValidationStrict) onePairArray =
      .ok () ∧
    onePairArray.length % 2 = 0 :=
  ⟨onePairArray_entries, emptyTable_concrete _ _,
    (C6_files_array_pairs acceptAll (emptyTable V13 .ValidationStrict) onePairArray).1
      onePairArray_entries,
    ((C6_files_array_pairs acceptAll (emptyTable V13 .ValidationStrict) onePairArray).2
      (emptyTable_concrete _ _)
      ((C6_files_array_pairs acceptAll (emptyTable V13 .ValidationStrict) onePairArray).1
        onePairArray_entries)).1⟩

/-- The set of EF keys at an EF dictionary with the keys `F` and `Thumb`. -/
theorem ef_key_outside_set_fails_example :
    "Thumb" ∈ Dict.keys [("F", .PDFStreamDict []), ("Thumb", .PDFStreamDict [])] ∧
    ¬ ("Thumb" = "F" ∨ "Thumb" = "UF" ∨ "Thumb" = "DOS" ∨ "Thumb" = "Mac" ∨
      "Thumb" = "Unix") ∧
    Fails (validateFileSpecDictEntryEFDict acceptAll (emptyTable V13 .ValidationStrict)
      [("F", .PDFStreamDict []), ("Thumb", .PDFStreamDict [])]) :=
  ⟨by simp [Dict.keys], by decide,
    (ef_key_outside_set_fails acceptAll (emptyTable V13 .ValidationStrict)).2
      [("F", .PDFStreamDict []), ("Thumb", .PDFStreamDict [])] "Thumb"
      (by simp [Dict.keys]) (by decide)⟩

/-- C8 at a dictionary with an RF dictionary and no EF, in a document of
version 1.3. -/
theorem C8_ef_required_with_rf_witness :
    V13 ≤ (emptyTable V13 .ValidationStrict).Version ∧
    Dict.Find [("RF", .PDFDict [])] "RF" = some (.PDFDict []) ∧
    (emptyTable V13 .ValidationStrict).Dereference (.PDFDict []) = .ok (.PDFDict []) ∧
    absentOrNull (emptyTable V13 .ValidationStrict) [("RF", .PDFDict [])] "EF" ∧
    validateFileSpecDictEFAndEF acceptAll (emptyTable V13 .ValidationStrict)
      [("RF", .PDFDict [])] "fileSpecDict" =
      .error (.MissingRequiredField "fileSpecDict" "EF") :=
  ⟨by decide, rfl, rfl, Or.inl rfl,
    (C8_ef_required_with_rf acceptAll (emptyTable V13 .ValidationStrict)).1
      [("RF", .PDFDict [])] "fileSpecDict" (.PDFDict []) [] (by decide) rfl rfl (Or.inl rfl)⟩

/-- C9 at the empty dictionary, which is rejected for the missing F, and at a
dictionary with a DOS path and no F, which is accepted. -/
theorem C9_F_required_unless_platform_entry_witness :
    absentOrNull (emptyTable V10 .ValidationStrict) [] "F" ∧
    validateFileSpecDict acceptAll (emptyTable V10 .ValidationStrict) [] =
      .error (.MissingRequiredField "fileSpecDict" "F") ∧
    absentOrNull (emptyTable V10 .ValidationStrict) dosOnlyFileSpec "F" ∧
    (∀ e, validateFileSpecDict acceptAll (emptyTable V10 .ValidationStrict) dosOnlyFileSpec =
      .error e → e.fieldName? ≠ some "F") ∧
    validateFileSpecDict acceptAll (emptyTable V10 .ValidationStrict) dosOnlyFileSpec =
      .ok () :=
  ⟨Or.inl rfl,
    ((C9_F_required_unless_platform_entry acceptAll (emptyTable V10 .ValidationStrict) []
      (Or.inl rfl)).2.1 rfl rfl rfl).2 none rfl,
    Or.inl rfl,
    ((C9_F_required_unless_platform_entry acceptAll (emptyTable V10 .ValidationStrict)
      dosOnlyFileSpec (Or.inl rfl)).2.2 (Or.inl rfl)).2,
    rfl⟩

/-- C10 at a dictionary with a UF path in a document of version 1.5: rejected
in Strict mode with the version failure of UF, accepted in Relaxed mode. -/
theorem C10_UF_threshold_by_mode_witness :
    Dict.Find unicodeFileSpec "UF" = some (.PDFStringLiteral "a.txt") ∧
    (emptyTable V15 .ValidationStrict).Dereference (.PDFStringLiteral "a.txt") =
      .ok (.PDFStringLiteral "a.txt") ∧
    asString (.PDFStringLiteral "a.txt") = .value "a.txt" ∧
    acceptAll.validateFileSpecString "a.txt" = true ∧
    (∃ e, validateFileSpecDict acceptAll (emptyTable V15 .ValidationStrict) unicodeFileSpec =
        .error e ∧
      (e = .VersionTooLow "UF" V17 (emptyTable V15 .ValidationStrict).Version ∨
        e.isFault = true ∨ e.fieldName? = some "FS" ∨ e.fieldName? = some "F")) ∧
    (∀ e, validateFileSpecDict acceptAll (emptyTable V15 .ValidationRelaxed) unicodeFileSpec =
      .error e → e.fieldName? ≠ some "UF") ∧
    validateFileSpecDict acceptAll (emptyTable V15 .ValidationRelaxed) unicodeFileSpec =
      .ok () :=
  ⟨rfl, rfl, rfl, rfl,
    (C10_UF_threshold_by_mode acceptAll (emptyTable V15 .ValidationStrict) unicodeFileSpec
      (.PDFStringLiteral "a.txt") (.PDFStringLiteral "a.txt") "a.txt" rfl rfl rfl rfl).1 rfl
      (by decide),
    ((C10_UF_threshold_by_mode acceptAll (emptyTable V15 .ValidationRelaxed) unicodeFileSpec
      (.PDFStringLiteral "a.txt") (.PDFStringLiteral "a.txt") "a.txt" rfl rfl rfl rfl).2.2
      (Or.inl ⟨rfl, by decide⟩)).2,
    rfl⟩

/-! ## `pages.go` -/

/-! ### Leaf pages: Parent, Resources, MediaBox, PieceInfo -/

/-- C11. For a page dictionary without a local Resources entry,
`validatePageResources` returns its `missing required entry` error exactly when
the page has content and no ancestor declared Resources, and succeeds
otherwise: a leaf with content passes under an inherited Resources, and fails
without one. -/
theorem C11_leaf_resource_inheritance (E : Collaborators) (x : XRefTable) (dict : Dict)
    (hnone : dict.Find "Resources" = none) :
    (∀ hasResources hasContents : Bool,
      (Fails (validatePageResources E x dict hasResources hasContents) ↔
        (hasContents = true ∧ hasResources = false)) ∧
      (¬ (hasContents = true ∧ hasResources = false) →
        validatePageResources E x dict hasResources hasContents = .ok ())) ∧
    validatePageResources E x dict true true = .ok () ∧
    validatePageResources E x dict false true =
      .error (.errorf
        "validatePageResources: missing required entry \"Resources\" - should be inheritated"
        []) := by
  refine ⟨?_, ?_, ?_⟩
  · intro hasResources hasContents
    cases hasResources <;> cases hasContents <;>
      simp [validatePageResources, hnone, Fails]
  · simp [validatePageResources, hnone]
  · simp [validatePageResources, hnone]

theorem indirectRefEntry_none (dict : Dict) (key : String)
    (h : ∀ n g, dict.Find key ≠ some (.PDFIndirectRef n g)) :
    dict.IndirectRefEntry key = none := by
  unfold Dict.IndirectRefEntry
  cases hf : dict.Find key with
  | none => rfl
  | some v =>
    cases v with
    | PDFIndirectRef n g => exact absurd hf (h n g)
    | _ => rfl

/-- C14. A leaf page dictionary whose Parent entry is absent or is not an
indirect reference is rejected by `validatePageDict` with the `missing parent`
error, for every table, every collaborator and every inherited flag: nothing
else of the page takes part in the result. -/
theorem C14_leaf_requires_parent (P : Predicates) (E : Collaborators) (x : XRefTable)
    (pageDict : Dict) (objNumber genNumber : Nat) (hasResources hasMediaBox : Bool)
    (hparent : ∀ n g, pageDict.Find "Parent" ≠ some (.PDFIndirectRef n g)) :
    validatePageDict P E x pageDict objNumber genNumber hasResources hasMediaBox =
      .error (.errorf "validatePageDict: missing parent" []) := by
  unfold validatePageDict
  rw [indirectRefEntry_none pageDict "Parent" hparent]

theorem mediaBox_absentOrNull (x : XRefTable) (dict : Dict) (required : Bool)
    (sinceVersion : PDFVersion) (h : absentOrNull x dict "MediaBox") :
    validatePageEntryMediaBox x dict required sinceVersion =
      if required then .error (.MissingRequiredField "pageDict" "MediaBox")
      else .ok false := by
  unfold validatePageEntryMediaBox validateRectangleEntry
  rw [validateEntry_absentOrNull _ _ x dict "pageDict" "MediaBox" required sinceVersion none h]
  cases required <;> rfl

/-- The checks of `validatePageDict` before the MediaBox check. -/
theorem pageDict_fails_of_mediaBox (P : Predicates) (E : Collaborators) (x : XRefTable)
    (pageDict : Dict) (objNumber genNumber : Nat) (hasResources hasMediaBox : Bool)
    (h : Fails (validatePageEntryMediaBox x pageDict (!hasMediaBox) V10)) :
    Fails (validatePageDict P E x pageDict objNumber genNumber hasResources hasMediaBox) := by
  unfold validatePageDict
  cases pageDict.IndirectRefEntry "Parent" with
  | none => exact fails_error _
  | some _ =>
    dsimp only
    cases validatePageContents x pageDict with
    | error e => exact fails_error _
    | ok hc =>
      dsimp only
      cases validatePageResources E x pageDict hasResources hc with
      | error e => exact fails_error _
      | ok _ =>
        dsimp only
        obtain ⟨e, he⟩ := h
        rw [he]
        exact fails_error _

/-- C12. `validatePageDict` asks for MediaBox with required = not hasMediaBox.
A leaf page without a MediaBox entry is rejected when no ancestor declared one:
the MediaBox check fails with the missing-field failure, and so the page fails.
When an ancestor declared one the MediaBox check passes without a value, and
the verdict on the page is that of its other checks. -/
theorem C12_leaf_mediabox_inheritance (P : Predicates) (E : Collaborators) (x : XRefTable)
    (pageDict : Dict) (objNumber genNumber : Nat) (hasResources : Bool)
    (habsent : absentOrNull x pageDict "MediaBox") :
    (validatePageEntryMediaBox x pageDict (!false) V10 =
        .error (.MissingRequiredField "pageDict" "MediaBox") ∧
      Fails (validatePageDict P E x pageDict objNumber genNumber hasResources false) ∧
      ∀ ref hasContents, pageDict.IndirectRefEntry "Parent" = some ref →
        validatePageContents x pageDict = .ok hasContents →
        validatePageResources E x pageDict hasResources hasContents = .ok () →
        validatePageDict P E x pageDict objNumber genNumber hasResources false =
          .error (.MissingRequiredField "pageDict" "MediaBox")) ∧
    (validatePageEntryMediaBox x pageDict (!true) V10 = .ok false ∧
      validatePageDict P E x pageDict objNumber genNumber hasResources true =
        match pageDict.IndirectRefEntry "Parent" with
        | none => .error (.errorf "validatePageDict: missing parent" [])
        | some _ =>
          validatePageContents x pageDict >>= fun hasContents =>
            validatePageResources E x pageDict hasResources hasContents >>= fun _ =>
              validatePageDictPieceInfo P E x pageDict >>= fun _ =>
                validatePageDictEntries E x pageDict) := by
  have hreq : validatePageEntryMediaBox x pageDict (!false) V10 =
      .error (.MissingRequiredField "pageDict" "MediaBox") := by
    rw [mediaBox_absentOrNull x pageDict _ V10 habsent]; rfl
  have hopt : validatePageEntryMediaBox x pageDict (!true) V10 = .ok false := by
    rw [mediaBox_absentOrNull x pageDict _ V10 habsent]; rfl
  refine ⟨⟨hreq, ?_, ?_⟩, hopt, ?_⟩
  · exact pageDict_fails_of_mediaBox P E x pageDict objNumber genNumber hasResources false
      ⟨_, hreq⟩
  · intro ref hasContents hp hc hr
    unfold validatePageDict
    simp only [hp, hc, hr, hreq]
  · unfold validatePageDict
    cases pageDict.IndirectRefEntry "Parent" with
    | none => rfl
    | some _ =>
      dsimp only
      cases validatePageContents x pageDict with
      | error e => rfl
      | ok hc =>
        dsimp only [bind_ok_eq]
        cases validatePageResources E x pageDict hasResources hc with
        | error e => rfl
        | ok _ =>
          dsimp only [bind_ok_eq]
          rw [hopt]
          dsimp only
          cases validatePageDictPieceInfo P E x pageDict with
          | error e => rfl
          | ok _ => rfl

theorem pageDict_fails_of_pieceInfo (P : Predicates) (E : Collaborators) (x : XRefTable)
    (pageDict : Dict) (objNumber genNumber : Nat) (hasResources hasMediaBox : Bool)
    (h : Fails (validatePageDictPieceInfo P E x pageDict)) :
    Fails (validatePageDict P E x pageDict objNumber genNumber hasResources hasMediaBox) := by
  unfold validatePageDict
  cases pageDict.IndirectRefEntry "Parent" with
  | none => exact fails_error _
  | some _ =>
    dsimp only
    cases validatePageContents x pageDict with
    | error e => exact fails_error _
    | ok hc =>
      dsimp only
      cases validatePageResources E x pageDict hasResources hc with
      | error e => exact fails_error _
      | ok _ =>
        dsimp only
        cases validatePageEntryMediaBox x pageDict (!hasMediaBox) V10 with
        | error e => exact fails_error _
        | ok _ =>
          dsimp only
          obtain ⟨e, he⟩ := h
          rw [he]
          exact fails_error _

theorem pageDict_of_pieceInfo_ok (P : Predicates) (E : Collaborators) (x : XRefTable)
    (pageDict : Dict) (objNumber genNumber : Nat) (hasResources hasMediaBox : Bool)
    (h : validatePageDictPieceInfo P E x pageDict = .ok ()) :
    validatePageDict P E x pageDict objNumber genNumber hasResources hasMediaBox =
      match pageDict.IndirectRefEntry "Parent" with
      | none => .error (.errorf "validatePageDict: missing parent" [])
      | some _ =>
        validatePageContents x pageDict >>= fun hasContents =>
          validatePageResources E x pageDict hasResources hasContents >>= fun _ =>
            validatePageEntryMediaBox x pageDict (!hasMediaBox) V10 >>= fun _ =>
              validatePageDictEntries E x pageDict := by
  unfold validatePageDict
  cases pageDict.IndirectRefEntry "Parent" with
  | none => rfl
  | some _ =>
    dsimp only
    cases validatePageContents x pageDict with
    | error e => rfl
    | ok hc =>
      dsimp only [bind_ok_eq]
      cases validatePageResources E x pageDict hasResources hc with
      | error e => rfl
      | ok _ =>
        dsimp only [bind_ok_eq]
        cases validatePageEntryMediaBox x pageDict (!hasMediaBox) V10 with
        | error e => rfl
        | ok _ =>
          dsimp only [bind_ok_eq]
          rw [h]

/-- C19. The cross-check of PieceInfo and LastModified in `validatePageDict`.
When `validatePieceInfo` reports a PieceInfo dictionary and LastModified is
absent or Null: in Strict mode the cross-check fails with its error and the
page is rejected; in Relaxed mode the cross-check passes and the verdict on the
page is that of its other checks. When LastModified is present and valid the
cross-check passes in both modes, whatever `validatePieceInfo` reports. -/
theorem C19_pieceInfo_lastModified (P : Predicates) (E : Collaborators) (x : XRefTable)
    (pageDict : Dict) (objNumber genNumber : Nat) (hasResources hasMediaBox : Bool) :
    (E.validatePieceInfo x pageDict OPTIONAL
        (if x.ValidationMode == ValidationMode.ValidationRelaxed then V10 else V13) =
        .ok true →
      absentOrNull x pageDict "LastModified" →
      (x.ValidationMode = .ValidationStrict →
        validatePageDictPieceInfo P E x pageDict =
          .error (.errorf
            "validatePageDict: missing \"LastModified\" (required by \"PieceInfo\")" []) ∧
        Fails (validatePageDict P E x pageDict objNumber genNumber hasResources
          hasMediaBox)) ∧
      (x.ValidationMode = .ValidationRelaxed →
        validatePageDictPieceInfo P E x pageDict = .ok () ∧
        validatePageDict P E x pageDict objNumber genNumber hasResources hasMediaBox =
          match pageDict.IndirectRefEntry "Parent" with
          | none => .error (.errorf "validatePageDict: missing parent" [])
          | some _ =>
            validatePageContents x pageDict >>= fun hasContents =>
              validatePageResources E x pageDict hasResources hasContents >>= fun _ =>
                validatePageEntryMediaBox x pageDict (!hasMediaBox) V10 >>= fun _ =>
                  validatePageDictEntries E x pageDict)) ∧
    (∀ (hasPieceInfo : Bool) (lm : String),
      E.validatePieceInfo x pageDict OPTIONAL
        (if x.ValidationMode == ValidationMode.ValidationRelaxed then V10 else V13) =
        .ok hasPieceInfo →
      validateDateEntry P.validDate x pageDict "pageDict" "LastModified" OPTIONAL V13 =
        .ok (some lm) →
      validatePageDictPieceInfo P E x pageDict = .ok ()) := by
  constructor
  · intro hpi hlm
    have hdate : validateDateEntry P.validDate x pageDict "pageDict" "LastModified" OPTIONAL
        V13 = .ok none := by
      unfold validateDateEntry
      rw [validateEntry_absentOrNull _ _ x pageDict "pageDict" "LastModified" OPTIONAL V13
        none hlm]
      rfl
    constructor
    · intro hm
      have hseg : validatePageDictPieceInfo P E x pageDict =
          .error (.errorf
            "validatePageDict: missing \"LastModified\" (required by \"PieceInfo\")" []) := by
        unfold validatePageDictPieceInfo
        rw [hm] at hpi
        simp only [hm, hpi, hdate]
        rfl
      exact ⟨hseg, pageDict_fails_of_pieceInfo P E x pageDict objNumber genNumber
        hasResources hasMediaBox ⟨_, hseg⟩⟩
    · intro hm
      have hseg : validatePageDictPieceInfo P E x pageDict = .ok () := by
        unfold validatePageDictPieceInfo
        rw [hm] at hpi
        simp only [hm, hpi, hdate]
        rfl
      exact ⟨hseg, pageDict_of_pieceInfo_ok P E x pageDict objNumber genNumber hasResources
        hasMediaBox hseg⟩
  · intro hasPieceInfo lm hpi hdate
    unfold validatePageDictPieceInfo
    simp only [hpi, hdate]
    simp

/-! ### Transition dictionaries -/

/-- A present, non-Null field whose predicate accepts nothing is rejected. -/
theorem validateEntry_present_rejected {α : Type} (asK : PDFObject → TypeCheck α)
    (kind : String) (x : XRefTable) (dict : Dict) (dictName entryName : String)
    (required : Bool) (sinceVersion : PDFVersion) (p : α → Bool)
    (hpresent : ¬ absentOrNull x dict entryName) (hp : ∀ v, p v = false) :
    Fails (validateEntry asK kind x dict dictName entryName required sinceVersion
      (some p)) := by
  unfold validateEntry
  cases hf : dict.Find entryName with
  | none => exact absurd (Or.inl hf) hpresent
  | some obj =>
    dsimp only
    cases hd : x.Dereference obj with
    | error e => exact fails_error _
    | ok o =>
      cases hn : o.isNil with
      | true =>
        have := isNil_eq_true.mp hn
        subst this
        exact absurd (Or.inr ⟨obj, hf, hd⟩) hpresent
      | false =>
        have hne : o ≠ .null := isNil_eq_false.mp hn
        cases hk : asK o with
        | fault e => cases o <;> first | exact absurd rfl hne | (simp only [hk]; exact fails_error _)
        | mismatch => cases o <;> first | exact absurd rfl hne | (simp only [hk]; exact fails_error _)
        | malformed => cases o <;> first | exact absurd rfl hne | (simp only [hk]; exact fails_error _)
        | value v =>
          cases o <;> first
            | exact absurd rfl hne
            | (simp only [hk, hp v]
               split <;> exact fails_error _)

/-- A field that resolves to a value of the kind and is accepted: the predicate
holds of the value and the version is not below the minimum. -/
theorem validateEntry_ok_pred {α : Type} (asK : PDFObject → TypeCheck α) (kind : String)
    (x : XRefTable) (dict : Dict) (dictName entryName : String) (required : Bool)
    (sinceVersion : PDFVersion) (p : α → Bool) (r : Option α)
    (h : validateEntry asK kind x dict dictName entryName required sinceVersion (some p) =
      .ok r)
    (o : PDFObject) (v : α) (hres : resolvesTo x dict entryName o) (hn : o.isNil = false)
    (hk : asK o = .value v) : p v = true ∧ ¬ x.Version < sinceVersion := by
  obtain ⟨obj, hf, hd⟩ := hres
  rw [validateEntry_value asK kind x dict dictName entryName required sinceVersion _ obj o v
    hf hd hn hk] at h
  by_cases hv : x.Version < sinceVersion
  · simp [hv] at h
  · simp only [hv, if_false] at h
    cases hpv : p v with
    | true => exact ⟨rfl, hv⟩
    | false => simp [hpv] at h

theorem transitionDict_unfold (E : Collaborators) (x : XRefTable) (dict : Dict) :
    validateTransitionDict E x dict =
      (validateNameEntry x dict "transitionDict" "S" OPTIONAL V10
          (some (transitionStylePredicate E x)) >>= fun transStyle =>
        validateNumberEntry x dict "transitionDict" "D" OPTIONAL V10
            (some (fun f => decide (f > 0))) >>= fun _ =>
          validateNameEntry x dict "transitionDict" "Dm" OPTIONAL V10
              (some (validateDm E transStyle)) >>= fun _ =>
            validateTransitionDictEntryM E x dict "transitionDict" transStyle >>= fun _ =>
              validateTransitionDictEntryDi E x dict >>= fun _ =>
                (if transStyle.isSome && transStyle == some "Fly" then
                    validateNumberEntry x dict "transitionDict" "SS" OPTIONAL V15 none
                  else pure none) >>= fun _ =>
                  validateBooleanEntry x dict "transitionDict" "B" OPTIONAL V15
                      (some (validateB transStyle)) >>= fun _ =>
                    pure ()) := by
  unfold validateTransitionDict transitionStylePredicate
  dsimp only
  refine congrArg _ (funext fun transStyle => congrArg _ (funext fun _ =>
    congrArg _ (funext fun _ => congrArg _ (funext fun _ => congrArg _ (funext fun _ => ?_)))))
  split <;> rfl

theorem styleStep_absent (E : Collaborators) (x : XRefTable) (dict : Dict)
    (h : absentOrNull x dict "S") :
    validateNameEntry x dict "transitionDict" "S" OPTIONAL V10
      (some (transitionStylePredicate E x)) = .ok none := by
  unfold validateNameEntry
  rw [validateEntry_absentOrNull _ _ x dict "transitionDict" "S" OPTIONAL V10 _ h]
  rfl

theorem entryM_fails (E : Collaborators) (x : XRefTable) (dict : Dict)
    (transStyle : Option String) (hpresent : ¬ absentOrNull x dict "M")
    (hstyle : ¬ (transStyle = some "Split" ∨ transStyle = some "Box" ∨
      transStyle = some "Fly")) :
    Fails (validateTransitionDictEntryM E x dict "transitionDict" transStyle) := by
  have hp : ∀ s, validateM E transStyle s = false := by
    intro s
    cases transStyle with
    | none => simp [validateM]
    | some t =>
      have h1 : t ≠ "Split" := fun h => hstyle (Or.inl (by rw [h]))
      have h2 : t ≠ "Box" := fun h => hstyle (Or.inr (Or.inl (by rw [h])))
      have h3 : t ≠ "Fly" := fun h => hstyle (Or.inr (Or.inr (by rw [h])))
      simp [validateM, h1, h2, h3]
  obtain ⟨e, he⟩ := validateEntry_present_rejected asName "name" x dict "transitionDict" "M"
    OPTIONAL V10 (validateM E transStyle) hpresent hp
  unfold validateTransitionDictEntryM validateNameEntry
  rw [he]
  exact fails_error _

theorem entryDm_fails (E : Collaborators) (x : XRefTable) (dict : Dict)
    (transStyle : Option String) (hpresent : ¬ absentOrNull x dict "Dm")
    (hstyle : ¬ (transStyle = some "Split" ∨ transStyle = some "Blinds")) :
    Fails (validateNameEntry x dict "transitionDict" "Dm" OPTIONAL V10
      (some (validateDm E transStyle))) := by
  have hp : ∀ s, validateDm E transStyle s = false := by
    intro s
    cases transStyle with
    | none => simp [validateDm]
    | some t =>
      have h1 : t ≠ "Split" := fun h => hstyle (Or.inl (by rw [h]))
      have h2 : t ≠ "Blinds" := fun h => hstyle (Or.inr (by rw [h]))
      simp [validateDm, h1, h2]
  exact validateEntry_present_rejected asName "name" x dict "transitionDict" "Dm"
    OPTIONAL V10 (validateDm E transStyle) hpresent hp

theorem entryB_fails (x : XRefTable) (dict : Dict)
    (transStyle : Option String) (hpresent : ¬ absentOrNull x dict "B")
    (hstyle : transStyle ≠ some "Fly") :
    Fails (validateBooleanEntry x dict "transitionDict" "B" OPTIONAL V15
      (some (validateB transStyle))) := by
  have hp : ∀ b, validateB transStyle b = false := by
    intro b
    cases transStyle with
    | none => simp [validateB]
    | some t =>
      have h1 : t ≠ "Fly" := fun h => hstyle (by rw [h])
      simp [validateB, h1]
  exact validateEntry_present_rejected asBoolean "boolean" x dict "transitionDict" "B"
    OPTIONAL V15 (validateB transStyle) hpresent hp

/-- C20. The style-dependent fields of a transition dictionary. If
`validateTransitionDict` succeeds, then with the validated style S: an M that
resolves to a name is a valid direction of motion and S is Split, Box or Fly; a
Dm that resolves to a name is a valid dimension and S is Split or Blinds; a B
that resolves to a boolean has S equal to Fly. Conversely a present M, Dm or B
(not Null) under a style outside its set makes the validation fail; in
particular under an absent S, which validates to no style. -/
theorem C20_style_dependent_fields (E : Collaborators) (x : XRefTable) (dict : Dict) :
    (validateTransitionDict E x dict = .ok () →
      ∃ transStyle,
        validateNameEntry x dict "transitionDict" "S" OPTIONAL V10
          (some (transitionStylePredicate E x)) = .ok transStyle ∧
        (∀ m, resolvesTo x dict "M" (.PDFName m) →
          E.validateTransitionDirectionOfMotion m = true ∧
          (transStyle = some "Split" ∨ transStyle = some "Box" ∨ transStyle = some "Fly")) ∧
        (∀ dm, resolvesTo x dict "Dm" (.PDFName dm) →
          E.validateTransitionDimension dm = true ∧
          (transStyle = some "Split" ∨ transStyle = some "Blinds")) ∧
        (∀ b, resolvesTo x dict "B" (.PDFBoolean b) → transStyle = some "Fly")) ∧
    (∀ transStyle,
      validateNameEntry x dict "transitionDict" "S" OPTIONAL V10
        (some (transitionStylePredicate E x)) = .ok transStyle →
      (¬ absentOrNull x dict "M" →
        ¬ (transStyle = some "Split" ∨ transStyle = some "Box" ∨ transStyle = some "Fly") →
        Fails (validateTransitionDict E x dict)) ∧
      (¬ absentOrNull x dict "Dm" →
        ¬ (transStyle = some "Split" ∨ transStyle = some "Blinds") →
        Fails (validateTransitionDict E x dict)) ∧
      (¬ absentOrNull x dict "B" → transStyle ≠ some "Fly" →
        Fails (validateTransitionDict E x dict))) ∧
    (absentOrNull x dict "S" →
      (¬ absentOrNull x dict "M" ∨ ¬ absentOrNull x dict "Dm" ∨ ¬ absentOrNull x dict "B") →
      Fails (validateTransitionDict E x dict)) := by
  have hgen : ∀ transStyle,
      validateNameEntry x dict "transitionDict" "S" OPTIONAL V10
        (some (transitionStylePredicate E x)) = .ok transStyle →
      (¬ absentOrNull x dict "M" →
        ¬ (transStyle = some "Split" ∨ transStyle = some "Box" ∨ transStyle = some "Fly") →
        Fails (validateTransitionDict E x dict)) ∧
      (¬ absentOrNull x dict "Dm" →
        ¬ (transStyle = some "Split" ∨ transStyle = some "Blinds") →
        Fails (validateTransitionDict E x dict)) ∧
      (¬ absentOrNull x dict "B" → transStyle ≠ some "Fly" →
        Fails (validateTransitionDict E x dict)) := by
    intro transStyle hS
    refine ⟨?_, ?_, ?_⟩
    · intro hM hstyle
      rw [transitionDict_unfold, hS]
      simp only [bind_ok_eq]
      apply fails_bind; intro _ _
      apply fails_bind; intro _ _
      exact fails_bind_left _ _ (entryM_fails E x dict transStyle hM hstyle)
    · intro hDm hstyle
      rw [transitionDict_unfold, hS]
      simp only [bind_ok_eq]
      apply fails_bind; intro _ _
      exact fails_bind_left _ _ (entryDm_fails E x dict transStyle hDm hstyle)
    · intro hB hstyle
      rw [transitionDict_unfold, hS]
      simp only [bind_ok_eq]
      apply fails_bind; intro _ _
      apply fails_bind; intro _ _
      apply fails_bind; intro _ _
      apply fails_bind; intro _ _
      apply fails_bind; intro _ _
      exact fails_bind_left _ _ (entryB_fails x dict transStyle hB hstyle)
  refine ⟨?_, hgen, ?_⟩
  · intro h
    rw [transitionDict_unfold] at h
    obtain ⟨transStyle, hS, h⟩ := (bind_eq_ok_iff _ _ _).mp h
    obtain ⟨_, _, h⟩ := (bind_eq_ok_iff _ _ _).mp h
    obtain ⟨rDm, hDm, h⟩ := (bind_eq_ok_iff _ _ _).mp h
    obtain ⟨_, hM, h⟩ := (bind_eq_ok_iff _ _ _).mp h
    obtain ⟨_, _, h⟩ := (bind_eq_ok_iff _ _ _).mp h
    obtain ⟨_, _, h⟩ := (bind_eq_ok_iff _ _ _).mp h
    obtain ⟨rB, hB, _⟩ := (bind_eq_ok_iff _ _ _).mp h
    refine ⟨transStyle, hS, ?_, ?_, ?_⟩
    · intro m hres
      unfold validateTransitionDictEntryM at hM
      cases hM' : validateNameEntry x dict "transitionDict" "M" OPTIONAL V10
          (some (validateM E transStyle)) with
      | error e => rw [hM'] at hM; cases hM
      | ok r =>
        have := (validateEntry_ok_pred asName "name" x dict "transitionDict" "M" OPTIONAL V10
          (validateM E transStyle) r hM' (.PDFName m) m hres rfl rfl).1
        cases transStyle with
        | none => simp [validateM] at this
        | some t => simpa [validateM, or_assoc] using this
    · intro dm hres
      have := (validateEntry_ok_pred asName "name" x dict "transitionDict" "Dm" OPTIONAL V10
        (validateDm E transStyle) rDm hDm (.PDFName dm) dm hres rfl rfl).1
      cases transStyle with
      | none => simp [validateDm] at this
      | some t => simpa [validateDm] using this
    · intro b hres
      have := (validateEntry_ok_pred asBoolean "boolean" x dict "transitionDict" "B" OPTIONAL
        V15 (validateB transStyle) rB hB (.PDFBoolean b) b hres rfl rfl).1
      cases transStyle with
      | none => simp [validateB] at this
      | some t => simpa [validateB] using this
  · intro hS hpresent
    have hstep := styleStep_absent E x dict hS
    rcases hpresent with h | h | h
    · exact (hgen none hstep).1 h (by simp)
    · exact (hgen none hstep).2.1 h (by simp)
    · exact (hgen none hstep).2.2 h (by simp)

/-! ### The page tree -/

/-- C15. `validatePagesDict` does not look at the Parent entry of an interior
node: on the tree root 1, interior node 2, leaf 3, in which the interior node
has no Parent entry, `validatePages` succeeds and returns the root node. -/
theorem C15_interior_node_without_parent_accepted :
    Dict.Find orphanInteriorNode "Parent" = none ∧
    (validatePages acceptAll acceptingCollaborators 2 orphanTable orphanCatalog).map
      (fun r => r.2) = some (.ok orphanRootNode) :=
  ⟨rfl, rfl⟩

/-- C18. On a Contents array whose only element is Null, and on one whose only
element is a reference to an undefined object, `validatePageContents` reports
content: the test for nil after `DereferenceStreamDict` is made on an interface
value that holds a pointer, and never holds. -/
theorem C18_null_content_element_counts :
    validatePageContents (emptyTable V14 .ValidationStrict) nullContentsPage = .ok true ∧
    validatePageContents (emptyTable V14 .ValidationStrict)
      [("Contents", .PDFArray [.PDFIndirectRef 7 0])] = .ok true ∧
    validatePageContents (emptyTable V14 .ValidationStrict) [("Contents", .PDFArray [])] =
      .ok false :=
  ⟨rfl, rfl, rfl⟩

theorem kids_nil_head (recurse : XRefTable → Dict → Nat → Nat → Bool → Bool → Walk)
    (page : PageValidator) (hr hm : Bool) (x : XRefTable) (rest : List PDFObject) :
    validatePagesDictKids recurse page hr hm x (.null :: rest) =
      validatePagesDictKids recurse page hr hm x rest := by
  simp [validatePagesDictKids, PDFObject.isNil]

theorem kids_direct_head (recurse : XRefTable → Dict → Nat → Nat → Bool → Bool → Walk)
    (page : PageValidator) (hr hm : Bool) (x : XRefTable) (obj : PDFObject)
    (rest : List PDFObject) (hnil : obj.isNil = false)
    (hdirect : ∀ n g, obj ≠ .PDFIndirectRef n g) :
    validatePagesDictKids recurse page hr hm x (obj :: rest) =
      some (x, .error (.errorf "validatePagesDict: missing indirect reference for kid" [])) := by
  cases obj with
  | PDFIndirectRef n g => exact absurd rfl (hdirect n g)
  | null => simp [PDFObject.isNil] at hnil
  | _ => simp [validatePagesDictKids, PDFObject.isNil]

theorem kids_unresolved_head (recurse : XRefTable → Dict → Nat → Nat → Bool → Bool → Walk)
    (page : PageValidator) (hr hm : Bool) (x : XRefTable) (n g : Nat)
    (rest : List PDFObject) (e : Err)
    (hd : x.DereferenceDict (.PDFIndirectRef n g) = .error e) :
    validatePagesDictKids recurse page hr hm x (.PDFIndirectRef n g :: rest) =
      some (x, .error e) := by
  simp [validatePagesDictKids, PDFObject.isNil, hd]

theorem kids_null_head (recurse : XRefTable → Dict → Nat → Nat → Bool → Bool → Walk)
    (page : PageValidator) (hr hm : Bool) (x : XRefTable) (n g : Nat)
    (rest : List PDFObject)
    (hd : x.DereferenceDict (.PDFIndirectRef n g) = .ok none) :
    validatePagesDictKids recurse page hr hm x (.PDFIndirectRef n g :: rest) =
      some (x, .error (.errorf "dictTypeForPageNodeDict: pageNodeDict is null" [])) := by
  simp [validatePagesDictKids, PDFObject.isNil, hd, dictTypeForPageNodeDict]

theorem kids_untyped_head (recurse : XRefTable → Dict → Nat → Nat → Bool → Bool → Walk)
    (page : PageValidator) (hr hm : Bool) (x : XRefTable) (n g : Nat)
    (rest : List PDFObject) (d : Dict)
    (hd : x.DereferenceDict (.PDFIndirectRef n g) = .ok (some d)) (ht : d.Type = none) :
    validatePagesDictKids recurse page hr hm x (.PDFIndirectRef n g :: rest) =
      some (x, .error (.errorf "dictTypeForPageNodeDict: missing pageNodeDict type" [])) := by
  simp [validatePagesDictKids, PDFObject.isNil, hd, dictTypeForPageNodeDict, ht]

theorem kids_other_head (recurse : XRefTable → Dict → Nat → Nat → Bool → Bool → Walk)
    (page : PageValidator) (hr hm : Bool) (x : XRefTable) (n g : Nat)
    (rest : List PDFObject) (d : Dict) (t : String)
    (hd : x.DereferenceDict (.PDFIndirectRef n g) = .ok (some d)) (ht : d.Type = some t)
    (h1 : t ≠ "Pages") (h2 : t ≠ "Page") :
    validatePagesDictKids recurse page hr hm x (.PDFIndirectRef n g :: rest) =
      some (x, .error (.errorf "validatePagesDict: Unexpected dict type: %s" [t])) := by
  simp [validatePagesDictKids, PDFObject.isNil, hd, dictTypeForPageNodeDict, ht, h1, h2]

theorem kids_pages_head (recurse : XRefTable → Dict → Nat → Nat → Bool → Bool → Walk)
    (page : PageValidator) (hr hm : Bool) (x : XRefTable) (n g : Nat)
    (rest : List PDFObject) (d : Dict)
    (hd : x.DereferenceDict (.PDFIndirectRef n g) = .ok (some d))
    (ht : d.Type = some "Pages") :
    validatePagesDictKids recurse page hr hm x (.PDFIndirectRef n g :: rest) =
      match recurse x d n g hr hm with
      | none => none
      | some (x', .error e) => some (x', .error e)
      | some (x', .ok _) => validatePagesDictKids recurse page hr hm x' rest := by
  simp [validatePagesDictKids, PDFObject.isNil, hd, dictTypeForPageNodeDict, ht]

theorem kids_page_head (recurse : XRefTable → Dict → Nat → Nat → Bool → Bool → Walk)
    (page : PageValidator) (hr hm : Bool) (x : XRefTable) (n g : Nat)
    (rest : List PDFObject) (d : Dict)
    (hd : x.DereferenceDict (.PDFIndirectRef n g) = .ok (some d))
    (ht : d.Type = some "Page") :
    validatePagesDictKids recurse page hr hm x (.PDFIndirectRef n g :: rest) =
      match page x d n g hr hm with
      | .error e => some (x, .error e)
      | .ok _ => validatePagesDictKids recurse page hr hm x rest := by
  simp [validatePagesDictKids, PDFObject.isNil, hd, dictTypeForPageNodeDict, ht]

/-- A bad kid at the head of the loop ends the loop with a failure. -/
theorem kids_bad_head (recurse : XRefTable → Dict → Nat → Nat → Bool → Bool → Walk)
    (page : PageValidator) (hr hm : Bool) (x : XRefTable) (obj : PDFObject)
    (rest : List PDFObject) (hbad : badKid x obj) :
    ∃ e, validatePagesDictKids recurse page hr hm x (obj :: rest) = some (x, .error e) := by
  obtain ⟨hnil, hkid⟩ := hbad
  by_cases href : ∃ n g, obj = .PDFIndirectRef n g
  · obtain ⟨n, g, rfl⟩ := href
    cases hd : x.DereferenceDict (.PDFIndirectRef n g) with
    | error e => exact ⟨e, kids_unresolved_head recurse page hr hm x n g rest e hd⟩
    | ok od =>
      cases od with
      | none => exact ⟨_, kids_null_head recurse page hr hm x n g rest hd⟩
      | some d =>
        obtain ⟨h1, h2⟩ := hkid n g d rfl hd
        cases ht : d.Type with
        | none => exact ⟨_, kids_untyped_head recurse page hr hm x n g rest d hd ht⟩
        | some t =>
          refine ⟨_, kids_other_head recurse page hr hm x n g rest d t hd ht ?_ ?_⟩
          · rintro rfl; exact h1 ht
          · rintro rfl; exact h2 ht
  · refine ⟨_, kids_direct_head recurse page hr hm x obj rest hnil ?_⟩
    intro n g h
    exact href ⟨n, g, h⟩

/-- The loop over a concatenation: the loop over the first part, and when that
succeeds the loop over the second part from the table it leaves. -/
theorem kids_append (recurse : XRefTable → Dict → Nat → Nat → Bool → Bool → Walk)
    (page : PageValidator) (hr hm : Bool) (l1 l2 : List PDFObject) :
    ∀ x, validatePagesDictKids recurse page hr hm x (l1 ++ l2) =
      match validatePagesDictKids recurse page hr hm x l1 with
      | none => none
      | some (x', .error e) => some (x', .error e)
      | some (x', .ok _) => validatePagesDictKids recurse page hr hm x' l2 := by
  induction l1 with
  | nil => intro x; rfl
  | cons obj rest ih =>
    intro x
    rw [List.cons_append]
    cases hnil : obj.isNil with
    | true =>
      have := isNil_eq_true.mp hnil
      subst this
      rw [kids_nil_head, kids_nil_head, ih]
    | false =>
      by_cases href : ∃ n g, obj = .PDFIndirectRef n g
      · obtain ⟨n, g, rfl⟩ := href
        cases hd : x.DereferenceDict (.PDFIndirectRef n g) with
        | error e => rw [kids_unresolved_head _ _ _ _ _ _ _ _ e hd,
            kids_unresolved_head _ _ _ _ _ _ _ _ e hd]
        | ok od =>
          cases od with
          | none => rw [kids_null_head _ _ _ _ _ _ _ _ hd, kids_null_head _ _ _ _ _ _ _ _ hd]
          | some d =>
            cases ht : d.Type with
            | none => rw [kids_untyped_head _ _ _ _ _ _ _ _ d hd ht,
                kids_untyped_head _ _ _ _ _ _ _ _ d hd ht]
            | some t =>
              by_cases h1 : t = "Pages"
              · subst h1
                rw [kids_pages_head _ _ _ _ _ _ _ _ d hd ht,
                  kids_pages_head _ _ _ _ _ _ _ _ d hd ht]
                cases recurse x d n g hr hm with
                | none => rfl
                | some r =>
                  obtain ⟨x', v⟩ := r
                  cases v with
                  | error e => rfl
                  | ok _ => exact ih x'
              · by_cases h2 : t = "Page"
                · subst h2
                  rw [kids_page_head _ _ _ _ _ _ _ _ d hd ht,
                    kids_page_head _ _ _ _ _ _ _ _ d hd ht]
                  cases page x d n g hr hm with
                  | error e => rfl
                  | ok _ => exact ih x
                · rw [kids_other_head _ _ _ _ _ _ _ _ d t hd ht h1 h2,
                    kids_other_head _ _ _ _ _ _ _ _ d t hd ht h1 h2]
      · have hdirect : ∀ n g, obj ≠ .PDFIndirectRef n g := fun n g h => href ⟨n, g, h⟩
        rw [kids_direct_head _ _ _ _ _ _ _ hnil hdirect,
          kids_direct_head _ _ _ _ _ _ _ hnil hdirect]

theorem sameDocument_refl (x : XRefTable) : sameDocument x x := ⟨rfl, rfl, rfl⟩

theorem sameDocument_trans {x y z : XRefTable} (h1 : sameDocument x y)
    (h2 : sameDocument y z) : sameDocument x z :=
  ⟨h2.1.trans h1.1, h2.2.1.trans h1.2.1, h2.2.2.trans h1.2.2⟩

theorem dereference_same {x x' : XRefTable} (h : sameDocument x x') (o : PDFObject) :
    x'.Dereference o = x.Dereference o := by
  cases o <;> simp [XRefTable.Dereference, h.2.2]

theorem dereferenceDict_same {x x' : XRefTable} (h : sameDocument x x') (o : PDFObject) :
    x'.DereferenceDict o = x.DereferenceDict o := by
  unfold XRefTable.DereferenceDict
  rw [dereference_same h]

theorem badKid_same {x x' : XRefTable} (h : sameDocument x x') (obj : PDFObject)
    (hbad : badKid x obj) : badKid x' obj := by
  refine ⟨hbad.1, ?_⟩
  intro n g d ho hd
  rw [dereferenceDict_same h] at hd
  exact hbad.2 n g d ho hd

theorem validateResources_same (E : Collaborators) (x : XRefTable) (dict : Dict) :
    sameDocument x (validateResources E x dict).1 := by
  unfold validateResources
  cases dict.IntEntry "Count" with
  | none => exact sameDocument_refl x
  | some c =>
    dsimp only
    have hs : sameDocument x (if x.PageCount == 0 then x.setPageCount c else x) := by
      split
      · exact ⟨rfl, rfl, rfl⟩
      · exact sameDocument_refl x
    cases dict.Find "Resources" <;> exact hs

theorem generalEntries_same (E : Collaborators) (x : XRefTable) (dict : Dict) :
    sameDocument x (validatePagesDictGeneralEntries E x dict).1 := by
  have h := validateResources_same E x dict
  unfold validatePagesDictGeneralEntries
  rcases hres : validateResources E x dict with ⟨x1, r⟩
  rw [hres] at h
  cases r with
  | error e => exact h
  | ok hr =>
    dsimp only
    cases validatePageEntryMediaBox x1 dict OPTIONAL V10 with
    | error e => exact h
    | ok hm =>
      dsimp only
      cases validatePageEntryCropBox x1 dict OPTIONAL V10 with
      | error e => exact h
      | ok _ =>
        dsimp only
        cases validatePageEntryRotate x1 dict OPTIONAL V10 with
        | error e => exact h
        | ok _ => exact h

theorem kids_same (recurse : XRefTable → Dict → Nat → Nat → Bool → Bool → Walk)
    (page : PageValidator) (hr hm : Bool)
    (hrec : ∀ x d n g x' r, recurse x d n g hr hm = some (x', r) → sameDocument x x')
    (kids : List PDFObject) :
    ∀ x x' r, validatePagesDictKids recurse page hr hm x kids = some (x', r) →
      sameDocument x x' := by
  induction kids with
  | nil =>
    intro x x' r h
    simp [validatePagesDictKids] at h
    rw [← h.1]
    exact sameDocument_refl x
  | cons obj rest ih =>
    intro x x' r h
    cases hnil : obj.isNil with
    | true =>
      have := isNil_eq_true.mp hnil
      subst this
      rw [kids_nil_head] at h
      exact ih x x' r h
    | false =>
      by_cases href : ∃ n g, obj = .PDFIndirectRef n g
      · obtain ⟨n, g, rfl⟩ := href
        cases hd : x.DereferenceDict (.PDFIndirectRef n g) with
        | error e =>
          rw [kids_unresolved_head _ _ _ _ _ _ _ _ e hd] at h
          simp at h; rw [← h.1]; exact sameDocument_refl x
        | ok od =>
          cases od with
          | none =>
            rw [kids_null_head _ _ _ _ _ _ _ _ hd] at h
            simp at h; rw [← h.1]; exact sameDocument_refl x
          | some d =>
            cases ht : d.Type with
            | none =>
              rw [kids_untyped_head _ _ _ _ _ _ _ _ d hd ht] at h
              simp at h; rw [← h.1]; exact sameDocument_refl x
            | some t =>
              by_cases h1 : t = "Pages"
              · subst h1
                rw [kids_pages_head _ _ _ _ _ _ _ _ d hd ht] at h
                cases hrc : recurse x d n g hr hm with
                | none => rw [hrc] at h; cases h
                | some rr =>
                  obtain ⟨x1, v⟩ := rr
                  have hs := hrec x d n g x1 v hrc
                  rw [hrc] at h
                  cases v with
                  | error e =>
                    simp at h; rw [← h.1]; exact hs
                  | ok _ => exact sameDocument_trans hs (ih x1 x' r h)
              · by_cases h2 : t = "Page"
                · subst h2
                  rw [kids_page_head _ _ _ _ _ _ _ _ d hd ht] at h
                  cases hp : page x d n g hr hm with
                  | error e =>
                    rw [hp] at h
                    simp at h; rw [← h.1]; exact sameDocument_refl x
                  | ok _ =>
                    rw [hp] at h
                    exact ih x x' r h
                · rw [kids_other_head _ _ _ _ _ _ _ _ d t hd ht h1 h2] at h
                  simp at h; rw [← h.1]; exact sameDocument_refl x
      · have hdirect : ∀ n g, obj ≠ .PDFIndirectRef n g := fun n g h => href ⟨n, g, h⟩
        rw [kids_direct_head _ _ _ _ _ _ _ hnil hdirect] at h
        simp at h; rw [← h.1]; exact sameDocument_refl x

/-- One level of `validatePagesDict`. -/
theorem pagesDict_succ (E : Collaborators) (page : PageValidator) (fuel : Nat)
    (x : XRefTable) (dict : Dict) (objNumber genNumber : Nat) (hr hm : Bool) :
    validatePagesDict E page (fuel + 1) x dict objNumber genNumber hr hm =
      match validatePagesDictGeneralEntries E x dict with
      | (x1, .error e) => some (x1, .error e)
      | (x1, .ok (dr, dm)) =>
        match dict.PDFArrayEntry "Kids" with
        | none => some (x1, .error (.errorf "validatePagesDict: corrupt \"Kids\" entry" []))
        | some kids =>
          validatePagesDictKids (validatePagesDict E page fuel) page (hr || dr) (hm || dm)
            x1 kids := by
  rw [validatePagesDict]
  rcases validatePagesDictGeneralEntries E x dict with ⟨x1, r⟩
  cases r with
  | error e => rfl
  | ok flags =>
    obtain ⟨dr, dm⟩ := flags
    cases dict.PDFArrayEntry "Kids" with
    | none => rfl
    | some kids =>
      cases dr <;> cases dm <;> cases hr <;> cases hm <;> rfl

theorem walk_same (E : Collaborators) (page : PageValidator) :
    ∀ fuel x dict n g hr hm x' r,
      validatePagesDict E page fuel x dict n g hr hm = some (x', r) → sameDocument x x' := by
  intro fuel
  induction fuel with
  | zero => intro x dict n g hr hm x' r h; simp [validatePagesDict] at h
  | succ fuel ih =>
    intro x dict n g hr hm x' r h
    rw [pagesDict_succ] at h
    have hs := generalEntries_same E x dict
    rcases hge : validatePagesDictGeneralEntries E x dict with ⟨x1, r1⟩
    rw [hge] at h hs
    cases r1 with
    | error e => simp at h; rw [← h.1]; exact hs
    | ok flags =>
      obtain ⟨dr, dm⟩ := flags
      dsimp only at h
      cases hk : dict.PDFArrayEntry "Kids" with
      | none => rw [hk] at h; simp at h; rw [← h.1]; exact hs
      | some kids =>
        rw [hk] at h
        exact sameDocument_trans hs
          (kids_same _ page _ _ (fun x d n g x' r => ih x d n g _ _ x' r) kids x1 x' r h)

/-- The loop depends on the recursive call and on the page validator only at
the flags it passes. -/
theorem kids_congr (recurse recurse2 : XRefTable → Dict → Nat → Nat → Bool → Bool → Walk)
    (page page2 : PageValidator) (hr hm : Bool)
    (hrec : ∀ x d n g, recurse x d n g hr hm = recurse2 x d n g hr hm)
    (hpage : ∀ x d n g, page x d n g hr hm = page2 x d n g hr hm)
    (kids : List PDFObject) :
    ∀ x, validatePagesDictKids recurse page hr hm x kids =
      validatePagesDictKids recurse2 page2 hr hm x kids := by
  induction kids with
  | nil => intro x; rfl
  | cons obj rest ih =>
    intro x
    cases hnil : obj.isNil with
    | true =>
      have := isNil_eq_true.mp hnil
      subst this
      rw [kids_nil_head, kids_nil_head, ih]
    | false =>
      by_cases href : ∃ n g, obj = .PDFIndirectRef n g
      · obtain ⟨n, g, rfl⟩ := href
        cases hd : x.DereferenceDict (.PDFIndirectRef n g) with
        | error e => rw [kids_unresolved_head _ _ _ _ _ _ _ _ e hd,
            kids_unresolved_head _ _ _ _ _ _ _ _ e hd]
        | ok od =>
          cases od with
          | none => rw [kids_null_head _ _ _ _ _ _ _ _ hd, kids_null_head _ _ _ _ _ _ _ _ hd]
          | some d =>
            cases ht : d.Type with
            | none => rw [kids_untyped_head _ _ _ _ _ _ _ _ d hd ht,
                kids_untyped_head _ _ _ _ _ _ _ _ d hd ht]
            | some t =>
              by_cases h1 : t = "Pages"
              · subst h1
                rw [kids_pages_head _ _ _ _ _ _ _ _ d hd ht,
                  kids_pages_head _ _ _ _ _ _ _ _ d hd ht, hrec]
                cases recurse2 x d n g hr hm with
                | none => rfl
                | some r =>
                  obtain ⟨x', v⟩ := r
                  cases v with
                  | error e => rfl
                  | ok _ => exact ih x'
              · by_cases h2 : t = "Page"
                · subst h2
                  rw [kids_page_head _ _ _ _ _ _ _ _ d hd ht,
                    kids_page_head _ _ _ _ _ _ _ _ d hd ht, hpage]
                  cases page2 x d n g hr hm with
                  | error e => rfl
                  | ok _ => exact ih x
                · rw [kids_other_head _ _ _ _ _ _ _ _ d t hd ht h1 h2,
                    kids_other_head _ _ _ _ _ _ _ _ d t hd ht h1 h2]
      · have hdirect : ∀ n g, obj ≠ .PDFIndirectRef n g := fun n g h => href ⟨n, g, h⟩
        rw [kids_direct_head _ _ _ _ _ _ _ hnil hdirect,
          kids_direct_head _ _ _ _ _ _ _ hnil hdirect]

theorem walk_withResources (E : Collaborators) (page : PageValidator) :
    ∀ fuel x dict n g hm,
      validatePagesDict E page fuel x dict n g true hm =
        validatePagesDict E (withResources page) fuel x dict n g true hm := by
  intro fuel
  induction fuel with
  | zero => intro x dict n g hm; rfl
  | succ fuel ih =>
    intro x dict n g hm
    rw [pagesDict_succ, pagesDict_succ]
    rcases validatePagesDictGeneralEntries E x dict with ⟨x1, r1⟩
    cases r1 with
    | error e => rfl
    | ok flags =>
      obtain ⟨dr, dm⟩ := flags
      dsimp only
      cases dict.PDFArrayEntry "Kids" with
      | none => rfl
      | some kids =>
        dsimp only
        rw [Bool.true_or]
        exact kids_congr _ _ page (withResources page) true _ (fun x d n g => ih x d n g _)
          (fun _ _ _ _ => rfl) kids x1

theorem walk_withMediaBox (E : Collaborators) (page : PageValidator) :
    ∀ fuel x dict n g hr,
      validatePagesDict E page fuel x dict n g hr true =
        validatePagesDict E (withMediaBox page) fuel x dict n g hr true := by
  intro fuel
  induction fuel with
  | zero => intro x dict n g hr; rfl
  | succ fuel ih =>
    intro x dict n g hr
    rw [pagesDict_succ, pagesDict_succ]
    rcases validatePagesDictGeneralEntries E x dict with ⟨x1, r1⟩
    cases r1 with
    | error e => rfl
    | ok flags =>
      obtain ⟨dr, dm⟩ := flags
      dsimp only
      cases dict.PDFArrayEntry "Kids" with
      | none => rfl
      | some kids =>
        dsimp only
        rw [Bool.true_or]
        exact kids_congr _ _ page (withMediaBox page) _ true (fun x d n g => ih x d n g _)
          (fun _ _ _ _ => rfl) kids x1

/-- An accepted field has a value exactly when it is present and not Null. -/
theorem validateEntry_ok_isSome {α : Type} (asK : PDFObject → TypeCheck α) (kind : String)
    (x : XRefTable) (dict : Dict) (dictName entryName : String) (required : Bool)
    (sinceVersion : PDFVersion) (validate : Option (α → Bool)) (r : Option α)
    (h : validateEntry asK kind x dict dictName entryName required sinceVersion validate =
      .ok r) :
    r.isSome = true ↔ ¬ absentOrNull x dict entryName := by
  by_cases ha : absentOrNull x dict entryName
  · rw [validateEntry_absentOrNull asK kind x dict dictName entryName required sinceVersion
      validate ha] at h
    cases required <;> simp at h
    subst h
    simp [ha]
  · simp only [ha, not_false_eq_true, iff_true]
    unfold validateEntry at h
    cases hf : dict.Find entryName with
    | none => exact absurd (Or.inl hf) ha
    | some obj =>
      rw [hf] at h
      dsimp only at h
      cases hd : x.Dereference obj with
      | error e => rw [hd] at h; cases h
      | ok o =>
        rw [hd] at h
        cases hn : o.isNil with
        | true =>
          have := isNil_eq_true.mp hn
          subst this
          exact absurd (Or.inr ⟨obj, hf, hd⟩) ha
        | false =>
          have hne : o ≠ .null := isNil_eq_false.mp hn
          cases hk : asK o with
          | fault e => cases o <;> first | exact absurd rfl hne | (simp [hk] at h)
          | mismatch => cases o <;> first | exact absurd rfl hne | (simp [hk] at h)
          | malformed => cases o <;> first | exact absurd rfl hne | (simp [hk] at h)
          | value v =>
            have hr : r = some v := by
              cases o <;> first
                | exact absurd rfl hne
                | (simp only [hk] at h
                   split at h
                   · cases h
                   · split at h
                     · cases h; rfl
                     · split at h
                       · cases h; rfl
                       · cases h)
            rw [hr]; rfl

theorem absentOrNull_same {x x' : XRefTable} (h : sameDocument x x') (dict : Dict)
    (key : String) : absentOrNull x' dict key ↔ absentOrNull x dict key := by
  unfold absentOrNull
  constructor
  · rintro (h1 | ⟨obj, h1, h2⟩)
    · exact Or.inl h1
    · exact Or.inr ⟨obj, h1, by rw [← dereference_same h]; exact h2⟩
  · rintro (h1 | ⟨obj, h1, h2⟩)
    · exact Or.inl h1
    · exact Or.inr ⟨obj, h1, by rw [dereference_same h]; exact h2⟩

theorem resourceDict_flag (E : Collaborators) (x : XRefTable) (obj : PDFObject) (b : Bool)
    (h : validateResourceDict E x obj = .ok b) :
    b = true ↔ ∃ rd, x.DereferenceDict obj = .ok (some rd) := by
  unfold validateResourceDict at h
  cases hd : x.DereferenceDict obj with
  | error e => rw [hd] at h; cases h
  | ok od =>
    rw [hd] at h
    cases od with
    | none => cases h; simp
    | some rd =>
      dsimp only at h
      cases hl : validateResourceDictLoop E x rd E.resourceOrder with
      | error e => rw [hl] at h; cases h
      | ok _ => rw [hl] at h; cases h; simp

theorem validateResources_flag (E : Collaborators) (x x1 : XRefTable) (dict : Dict) (b : Bool)
    (h : validateResources E x dict = (x1, .ok b)) :
    b = true ↔
      ∃ obj rd, dict.Find "Resources" = some obj ∧ x.DereferenceDict obj = .ok (some rd) := by
  have hs := validateResources_same E x dict
  rw [h] at hs
  unfold validateResources at h
  cases hc : dict.IntEntry "Count" with
  | none => rw [hc] at h; cases h
  | some c =>
    rw [hc] at h
    dsimp only at h
    cases hf : dict.Find "Resources" with
    | none =>
      rw [hf] at h
      cases h
      simp
    | some obj =>
      rw [hf] at h
      have h1 := (Prod.mk.inj h).1
      have h2 := (Prod.mk.inj h).2
      rw [h1] at h2
      rw [resourceDict_flag E x1 obj b h2, dereferenceDict_same hs]
      constructor
      · rintro ⟨rd, hrd⟩; exact ⟨obj, rd, rfl, hrd⟩
      · rintro ⟨obj2, rd, ho, hrd⟩
        cases ho
        exact ⟨rd, hrd⟩

theorem mediaBox_flag (x : XRefTable) (dict : Dict) (required : Bool)
    (sinceVersion : PDFVersion) (b : Bool)
    (h : validatePageEntryMediaBox x dict required sinceVersion = .ok b) :
    b = true ↔ ¬ absentOrNull x dict "MediaBox" := by
  unfold validatePageEntryMediaBox at h
  cases hr : validateRectangleEntry x dict "pageDict" "MediaBox" required sinceVersion
      none with
  | error e => rw [hr] at h; cases h
  | ok r =>
    rw [hr] at h
    cases h
    exact validateEntry_ok_isSome _ _ x dict "pageDict" "MediaBox" required sinceVersion none
      r hr

/-- The flags that a Pages node reports for itself. -/
theorem generalEntries_flags (E : Collaborators) (x x1 : XRefTable) (dict : Dict)
    (dr dm : Bool) (h : validatePagesDictGeneralEntries E x dict = (x1, .ok (dr, dm))) :
    (dr = true ↔
      ∃ obj rd, dict.Find "Resources" = some obj ∧ x.DereferenceDict obj = .ok (some rd)) ∧
    (dm = true ↔ ¬ absentOrNull x dict "MediaBox") := by
  unfold validatePagesDictGeneralEntries at h
  have hs := validateResources_same E x dict
  rcases hres : validateResources E x dict with ⟨x2, r⟩
  rw [hres] at h hs
  cases r with
  | error e => cases h
  | ok b =>
    dsimp only at h
    cases hmb : validatePageEntryMediaBox x2 dict OPTIONAL V10 with
    | error e => rw [hmb] at h; cases h
    | ok b2 =>
      rw [hmb] at h
      dsimp only at h
      cases hcb : validatePageEntryCropBox x2 dict OPTIONAL V10 with
      | error e => rw [hcb] at h; cases h
      | ok _ =>
        rw [hcb] at h
        dsimp only at h
        cases hrot : validatePageEntryRotate x2 dict OPTIONAL V10 with
        | error e => rw [hrot] at h; cases h
        | ok _ =>
          rw [hrot] at h
          cases h
          refine ⟨validateResources_flag E x x1 dict dr hres, ?_⟩
          rw [mediaBox_flag x1 dict OPTIONAL V10 dm hmb, absentOrNull_same hs]

/-- C13. Inherited flags are only strengthened. The flags that
`validatePagesDict` passes to the loop over its kids are the flags received,
each OR-ed with the flag the node reports for itself: Resources that resolve to
a dictionary, a MediaBox that is present and not Null. A flag that is true at a
node is true at every leaf of its subtree: the walk is the same as the walk in
which every page is told so. -/
theorem C13_inherited_flags_only_strengthen (E : Collaborators) (page : PageValidator)
    (fuel : Nat) (x : XRefTable) (dict : Dict) (objNumber genNumber : Nat) (hr hm : Bool) :
    (∀ x1 dr dm kids, validatePagesDictGeneralEntries E x dict = (x1, .ok (dr, dm)) →
      dict.PDFArrayEntry "Kids" = some kids →
      validatePagesDict E page (fuel + 1) x dict objNumber genNumber hr hm =
        validatePagesDictKids (validatePagesDict E page fuel) page (hr || dr) (hm || dm)
          x1 kids ∧
      (hr = true → (hr || dr) = true) ∧ (hm = true → (hm || dm) = true) ∧
      (dr = true ↔
        ∃ obj rd, dict.Find "Resources" = some obj ∧
          x.DereferenceDict obj = .ok (some rd)) ∧
      (dm = true ↔ ¬ absentOrNull x dict "MediaBox")) ∧
    validatePagesDict E page fuel x dict objNumber genNumber true hm =
      validatePagesDict E (withResources page) fuel x dict objNumber genNumber true hm ∧
    validatePagesDict E page fuel x dict objNumber genNumber hr true =
      validatePagesDict E (withMediaBox page) fuel x dict objNumber genNumber hr true := by
  refine ⟨?_, walk_withResources E page fuel x dict objNumber genNumber hm,
    walk_withMediaBox E page fuel x dict objNumber genNumber hr⟩
  intro x1 dr dm kids hge hk
  obtain ⟨h1, h2⟩ := generalEntries_flags E x x1 dict dr dm hge
  refine ⟨?_, ?_, ?_, h1, h2⟩
  · rw [pagesDict_succ, hge]
    simp only [hk]
  · intro h; simp [h]
  · intro h; simp [h]

theorem arrayEntry_none (dict : Dict) (key : String)
    (h : ∀ a, dict.Find key ≠ some (.PDFArray a)) : dict.PDFArrayEntry key = none := by
  unfold Dict.PDFArrayEntry
  cases hf : dict.Find key with
  | none => rfl
  | some v =>
    cases v with
    | PDFArray a => exact absurd hf (h a)
    | _ => rfl

/-- C16, as the code has it. An interior Pages node whose Kids entry is missing
or is not stored as an array is rejected: with the `corrupt Kids` error when
its general entries are valid, with their failure otherwise. A node whose Kids
array is present and empty is not rejected for it: the verdict is that of its
general entries. -/
theorem C16_kids_must_be_an_array (E : Collaborators) (page : PageValidator) (fuel : Nat)
    (x : XRefTable) (dict : Dict) (objNumber genNumber : Nat) (hr hm : Bool) :
    ((∀ a, dict.Find "Kids" ≠ some (.PDFArray a)) →
      (∃ x1 e, validatePagesDict E page (fuel + 1) x dict objNumber genNumber hr hm =
        some (x1, .error e)) ∧
      ∀ x1 flags, validatePagesDictGeneralEntries E x dict = (x1, .ok flags) →
        validatePagesDict E page (fuel + 1) x dict objNumber genNumber hr hm =
          some (x1, .error (.errorf "validatePagesDict: corrupt \"Kids\" entry" []))) ∧
    (dict.Find "Kids" = some (.PDFArray []) →
      validatePagesDict E page (fuel + 1) x dict objNumber genNumber hr hm =
        match validatePagesDictGeneralEntries E x dict with
        | (x1, .error e) => some (x1, .error e)
        | (x1, .ok _) => some (x1, .ok ())) := by
  constructor
  · intro hkids
    have hk := arrayEntry_none dict "Kids" hkids
    constructor
    · rw [pagesDict_succ]
      rcases validatePagesDictGeneralEntries E x dict with ⟨x1, r⟩
      cases r with
      | error e => exact ⟨x1, e, rfl⟩
      | ok flags =>
        obtain ⟨dr, dm⟩ := flags
        simp only [hk]
        exact ⟨x1, _, rfl⟩
    · intro x1 flags hge
      obtain ⟨dr, dm⟩ := flags
      rw [pagesDict_succ, hge]
      simp only [hk]
  · intro hkids
    have hk : dict.PDFArrayEntry "Kids" = some [] := by
      unfold Dict.PDFArrayEntry
      rw [hkids]
    rw [pagesDict_succ]
    rcases validatePagesDictGeneralEntries E x dict with ⟨x1, r⟩
    cases r with
    | error e => rfl
    | ok flags =>
      obtain ⟨dr, dm⟩ := flags
      simp only [hk]
      rfl

/-- C16 as stated fails: an interior node with an empty Kids array is accepted. -/
theorem C16_empty_kids_accepted :
    Dict.Find emptyKidsNode "Kids" = some (.PDFArray []) ∧
    (validatePagesDict acceptingCollaborators (validatePageDict acceptAll acceptingCollaborators)
      1 (emptyTable V14 .ValidationStrict) emptyKidsNode 1 0 false false).map (fun r => r.2) =
      some (.ok ()) :=
  ⟨rfl, rfl⟩

/-- C17. The dispatch on a kid in the loop of `validatePagesDict`, with the
flags `hr` and `hm` of the node. A nil element is skipped. Any other element
that is not an indirect reference is an error. A reference to a dictionary of
Type Pages is validated by the recursive call, one of Type Page by the page
validator, both with `hr` and `hm`, and the loop goes on when they succeed. A
reference that resolves to Null, to a dictionary without Type, or to one of
another Type is an error. So a node with such a kid among its Kids never
validates, and it fails as soon as the kids before it are accepted. -/
theorem C17_kid_dispatch (E : Collaborators) (page : PageValidator) (fuel : Nat)
    (hr hm : Bool) (x : XRefTable) (rest : List PDFObject) :
    validatePagesDictKids (validatePagesDict E page fuel) page hr hm x (.null :: rest) =
      validatePagesDictKids (validatePagesDict E page fuel) page hr hm x rest ∧
    (∀ obj, obj.isNil = false → (∀ n g, obj ≠ .PDFIndirectRef n g) →
      validatePagesDictKids (validatePagesDict E page fuel) page hr hm x (obj :: rest) =
        some (x,
          .error (.errorf "validatePagesDict: missing indirect reference for kid" []))) ∧
    (∀ n g d, x.DereferenceDict (.PDFIndirectRef n g) = .ok (some d) →
      d.Type = some "Pages" →
      validatePagesDictKids (validatePagesDict E page fuel) page hr hm x
          (.PDFIndirectRef n g :: rest) =
        match validatePagesDict E page fuel x d n g hr hm with
        | none => none
        | some (x', .error e) => some (x', .error e)
        | some (x', .ok _) =>
          validatePagesDictKids (validatePagesDict E page fuel) page hr hm x' rest) ∧
    (∀ n g d, x.DereferenceDict (.PDFIndirectRef n g) = .ok (some d) →
      d.Type = some "Page" →
      validatePagesDictKids (validatePagesDict E page fuel) page hr hm x
          (.PDFIndirectRef n g :: rest) =
        match page x d n g hr hm with
        | .error e => some (x, .error e)
        | .ok _ =>
          validatePagesDictKids (validatePagesDict E page fuel) page hr hm x rest) ∧
    (∀ n g, x.DereferenceDict (.PDFIndirectRef n g) = .ok none →
      validatePagesDictKids (validatePagesDict E page fuel) page hr hm x
          (.PDFIndirectRef n g :: rest) =
        some (x, .error (.errorf "dictTypeForPageNodeDict: pageNodeDict is null" []))) ∧
    (∀ n g d, x.DereferenceDict (.PDFIndirectRef n g) = .ok (some d) → d.Type = none →
      validatePagesDictKids (validatePagesDict E page fuel) page hr hm x
          (.PDFIndirectRef n g :: rest) =
        some (x,
          .error (.errorf "dictTypeForPageNodeDict: missing pageNodeDict type" []))) ∧
    (∀ n g d t, x.DereferenceDict (.PDFIndirectRef n g) = .ok (some d) → d.Type = some t →
      t ≠ "Pages" → t ≠ "Page" →
      validatePagesDictKids (validatePagesDict E page fuel) page hr hm x
          (.PDFIndirectRef n g :: rest) =
        some (x, .error (.errorf "validatePagesDict: Unexpected dict type: %s" [t]))) ∧
    (∀ before bad x2, badKid x bad →
      validatePagesDictKids (validatePagesDict E page fuel) page hr hm x before =
        some (x2, .ok ()) →
      ∃ e, validatePagesDictKids (validatePagesDict E page fuel) page hr hm x
        (before ++ bad :: rest) = some (x2, .error e)) ∧
    (∀ dict objNumber genNumber kids bad depth x2, dict.PDFArrayEntry "Kids" = some kids →
      bad ∈ kids → badKid x bad →
      validatePagesDict E page depth x dict objNumber genNumber hr hm ≠ some (x2, .ok ())) := by
  refine ⟨kids_nil_head _ _ _ _ _ _, ?_, ?_, ?_, ?_, ?_, ?_, ?_, ?_⟩
  · intro obj hnil hdirect
    exact kids_direct_head _ _ _ _ _ _ _ hnil hdirect
  · intro n g d hd ht
    exact kids_pages_head _ _ _ _ _ _ _ _ d hd ht
  · intro n g d hd ht
    exact kids_page_head _ _ _ _ _ _ _ _ d hd ht
  · intro n g hd
    exact kids_null_head _ _ _ _ _ _ _ _ hd
  · intro n g d hd ht
    exact kids_untyped_head _ _ _ _ _ _ _ _ d hd ht
  · intro n g d t hd ht h1 h2
    exact kids_other_head _ _ _ _ _ _ _ _ d t hd ht h1 h2
  · intro before bad x2 hbad hpre
    have hs : sameDocument x x2 :=
      kids_same _ page hr hm (fun x d n g x' r => walk_same E page fuel x d n g hr hm x' r)
        before x x2 _ hpre
    obtain ⟨e, he⟩ := kids_bad_head (validatePagesDict E page fuel) page hr hm x2 bad rest
      (badKid_same hs bad hbad)
    refine ⟨e, ?_⟩
    rw [kids_append, hpre]
    exact he
  · intro dict objNumber genNumber kids bad depth x2 hk hmem hbad h
    cases depth with
    | zero => simp [validatePagesDict] at h
    | succ depth =>
      rw [pagesDict_succ] at h
      have hs := generalEntries_same E x dict
      rcases hge : validatePagesDictGeneralEntries E x dict with ⟨x1, r⟩
      rw [hge] at h hs
      cases r with
      | error e => simp at h
      | ok flags =>
        obtain ⟨dr, dm⟩ := flags
        simp only [hk] at h
        obtain ⟨before, after, rfl⟩ := List.append_of_mem hmem
        rw [kids_append] at h
        cases hpre : validatePagesDictKids (validatePagesDict E page depth) page (hr || dr)
            (hm || dm) x1 before with
        | none => rw [hpre] at h; cases h
        | some r2 =>
          obtain ⟨x3, v⟩ := r2
          rw [hpre] at h
          cases v with
          | error e => simp at h
          | ok _ =>
            have hs2 : sameDocument x1 x3 :=
              kids_same _ page _ _
                (fun x d n g x' r => walk_same E page depth x d n g _ _ x' r) before x1 x3 _
                hpre
            obtain ⟨e, he⟩ := kids_bad_head (validatePagesDict E page depth) page (hr || dr)
              (hm || dm) x3 bad after (badKid_same (sameDocument_trans hs hs2) bad hbad)
            dsimp only at h
            rw [he] at h
            simp at h

/-! ### The claims on `pages.go` at concrete inputs -/

theorem present_of_find (x : XRefTable) (dict : Dict) (key : String) (v : PDFObject)
    (hf : dict.Find key = some v) (hv : x.Dereference v ≠ .ok .null) :
    ¬ absentOrNull x dict key := by
  rintro (h | ⟨obj, h1, h2⟩)
  · rw [hf] at h; cases h
  · rw [hf] at h1; cases h1; exact hv h2

theorem find_ne_of_none (dict : Dict) (key : String) (hf : dict.Find key = none)
    (v : PDFObject) : dict.Find key ≠ some v := by
  rw [hf]; intro h; cases h

/-- C11 at a leaf without Resources. -/
theorem C11_leaf_resource_inheritance_witness :
    Dict.Find bareLeaf "Resources" = none ∧
    validatePageResources acceptingCollaborators (emptyTable V14 .ValidationStrict) bareLeaf
      true true = .ok () ∧
    Fails (validatePageResources acceptingCollaborators (emptyTable V14 .ValidationStrict)
      bareLeaf false true) :=
  ⟨rfl,
    (C11_leaf_resource_inheritance acceptingCollaborators (emptyTable V14 .ValidationStrict)
      bareLeaf rfl).2.1,
    ((C11_leaf_resource_inheritance acceptingCollaborators (emptyTable V14 .ValidationStrict)
      bareLeaf rfl).1 false true).1.mpr ⟨rfl, rfl⟩⟩

/-- C12 at a leaf without MediaBox: rejected without an inherited MediaBox,
accepted with one. -/
theorem C12_leaf_mediabox_inheritance_witness :
    absentOrNull (emptyTable V14 .ValidationStrict) bareLeaf "MediaBox" ∧
    validatePageDict acceptAll acceptingCollaborators (emptyTable V14 .ValidationStrict)
      bareLeaf 2 0 false false = .error (.MissingRequiredField "pageDict" "MediaBox") ∧
    validatePageEntryMediaBox (emptyTable V14 .ValidationStrict) bareLeaf (!true) V10 =
      .ok false ∧
    validatePageDict acceptAll acceptingCollaborators (emptyTable V14 .ValidationStrict)
      bareLeaf 2 0 false true = .ok () :=
  ⟨Or.inl rfl,
    (C12_leaf_mediabox_inheritance acceptAll acceptingCollaborators
      (emptyTable V14 .ValidationStrict) bareLeaf 2 0 false (Or.inl rfl)).1.2.2 (1, 0) false
      rfl rfl rfl,
    (C12_leaf_mediabox_inheritance acceptAll acceptingCollaborators
      (emptyTable V14 .ValidationStrict) bareLeaf 2 0 false (Or.inl rfl)).2.1,
    ((C12_leaf_mediabox_inheritance acceptAll acceptingCollaborators
      (emptyTable V14 .ValidationStrict) bareLeaf 2 0 false (Or.inl rfl)).2.2).trans rfl⟩

/-- C13 at the root of the tree of three objects. -/
theorem C13_inherited_flags_only_strengthen_witness :
    validatePagesDict acceptingCollaborators
        (validatePageDict acceptAll acceptingCollaborators) 2 orphanTable orphanRootNode 1 0
        true false =
      validatePagesDict acceptingCollaborators
        (withResources (validatePageDict acceptAll acceptingCollaborators)) 2 orphanTable
        orphanRootNode 1 0 true false :=
  (C13_inherited_flags_only_strengthen acceptingCollaborators
    (validatePageDict acceptAll acceptingCollaborators) 2 orphanTable orphanRootNode 1 0 true
    false).2.1

/-- C14 at a page dictionary without a Parent entry. -/
theorem C14_leaf_requires_parent_witness :
    (∀ n g, Dict.Find [("Type", .PDFName "Page")] "Parent" ≠ some (.PDFIndirectRef n g)) ∧
    validatePageDict acceptAll acceptingCollaborators (emptyTable V14 .ValidationStrict)
      [("Type", .PDFName "Page")] 3 0 true true =
      .error (.errorf "validatePageDict: missing parent" []) :=
  ⟨fun _ _ => find_ne_of_none [("Type", .PDFName "Page")] "Parent" rfl _,
    C14_leaf_requires_parent acceptAll acceptingCollaborators
      (emptyTable V14 .ValidationStrict) [("Type", .PDFName "Page")] 3 0 true true
      (fun _ _ => find_ne_of_none [("Type", .PDFName "Page")] "Parent" rfl _)⟩

/-- C16 at an interior node without a Kids entry. -/
theorem C16_kids_must_be_an_array_witness :
    (∀ a, Dict.Find noKidsNode "Kids" ≠ some (.PDFArray a)) ∧
    ∃ x1 e, validatePagesDict acceptingCollaborators
      (validatePageDict acceptAll acceptingCollaborators) 1 (emptyTable V14 .ValidationStrict)
      noKidsNode 1 0 false false = some (x1, .error e) :=
  ⟨fun _ => find_ne_of_none noKidsNode "Kids" rfl _,
    ((C16_kids_must_be_an_array acceptingCollaborators
      (validatePageDict acceptAll acceptingCollaborators) 0 (emptyTable V14 .ValidationStrict)
      noKidsNode 1 0 false false).1 (fun _ => find_ne_of_none noKidsNode "Kids" rfl _)).1⟩

theorem directKid_bad : badKid (emptyTable V14 .ValidationStrict) (.PDFInteger 5) :=
  ⟨rfl, fun n g d h => by cases h⟩

/-- C17 at an interior node whose only kid is a direct integer. -/
theorem C17_kid_dispatch_witness :
    Dict.PDFArrayEntry directKidNode "Kids" = some [.PDFInteger 5] ∧
    PDFObject.PDFInteger 5 ∈ [PDFObject.PDFInteger 5] ∧
    badKid (emptyTable V14 .ValidationStrict) (.PDFInteger 5) ∧
    validatePagesDict acceptingCollaborators
      (validatePageDict acceptAll acceptingCollaborators) 1 (emptyTable V14 .ValidationStrict)
      directKidNode 1 0 false false ≠
      some ((emptyTable V14 .ValidationStrict).setPageCount 1, .ok ()) :=
  ⟨rfl, List.mem_singleton.mpr rfl, directKid_bad,
    (C17_kid_dispatch acceptingCollaborators
      (validatePageDict acceptAll acceptingCollaborators) 0 false false
      (emptyTable V14 .ValidationStrict) []).2.2.2.2.2.2.2.2 directKidNode 1 0
      [.PDFInteger 5] (.PDFInteger 5) 1 _ rfl (List.mem_singleton.mpr rfl) directKid_bad⟩

/-- C19 at a leaf without LastModified whose PieceInfo is reported present:
the cross-check fails in Strict mode and passes in Relaxed mode. -/
theorem C19_pieceInfo_lastModified_witness :
    absentOrNull (emptyTable V14 .ValidationStrict) bareLeaf "LastModified" ∧
    validatePageDictPieceInfo acceptAll (collaboratorsReporting true)
      (emptyTable V14 .ValidationStrict) bareLeaf =
      .error (.errorf
        "validatePageDict: missing \"LastModified\" (required by \"PieceInfo\")" []) ∧
    validatePageDictPieceInfo acceptAll (collaboratorsReporting true)
      (emptyTable V14 .ValidationRelaxed) bareLeaf = .ok () :=
  ⟨Or.inl rfl,
    ((C19_pieceInfo_lastModified acceptAll (collaboratorsReporting true)
      (emptyTable V14 .ValidationStrict) bareLeaf 2 0 true true).1 rfl (Or.inl rfl)).1 rfl
      |>.1,
    ((C19_pieceInfo_lastModified acceptAll (collaboratorsReporting true)
      (emptyTable V14 .ValidationRelaxed) bareLeaf 2 0 true true).1 rfl (Or.inl rfl)).2 rfl
      |>.1⟩

/-- C20 at a transition dictionary with M and without S. -/
theorem C20_style_dependent_fields_witness :
    absentOrNull (emptyTable V14 .ValidationStrict) motionWithoutStyle "S" ∧
    ¬ absentOrNull (emptyTable V14 .ValidationStrict) motionWithoutStyle "M" ∧
    Fails (validateTransitionDict acceptingCollaborators (emptyTable V14 .ValidationStrict)
      motionWithoutStyle) :=
  ⟨Or.inl rfl,
    present_of_find _ _ _ (.PDFName "I") rfl (by simp [XRefTable.Dereference]),
    (C20_style_dependent_fields acceptingCollaborators (emptyTable V14 .ValidationStrict)
      motionWithoutStyle).2.2 (Or.inl rfl)
      (Or.inl (present_of_find _ _ _ (.PDFName "I") rfl (by simp [XRefTable.Dereference])))⟩

/-! ### Divergences at concrete inputs -/

/-- C27. A leaf page whose Contents entry resolves to a stream, with no
inherited Resources and a local Resources entry that is Null or a reference to
an undefined object, in the table of the two level tree (object 5 is a stream,
object 9 is undefined): `validatePageResources` succeeds, and so does
`validatePageDict`. The flag that `validateResourceDict` returns for the local
entry is dropped. -/
theorem C27_null_resources_with_content_accepted :
    validatePageContents (treeTable V14 .ValidationStrict 0 1 1) nullResourcesPage =
      .ok true ∧
    validateResourceDict acceptingCollaborators (treeTable V14 .ValidationStrict 0 1 1)
      (.PDFIndirectRef 9 0) = .ok false ∧
    validatePageResources acceptingCollaborators (treeTable V14 .ValidationStrict 0 1 1)
      nullResourcesPage false true = .ok () ∧
    validatePageResources acceptingCollaborators (treeTable V14 .ValidationStrict 0 1 1)
      directNullResourcesPage false true = .ok () ∧
    validatePageDict acceptAll acceptingCollaborators (treeTable V14 .ValidationStrict 0 1 1)
      nullResourcesPage 3 0 false true = .ok () :=
  ⟨rfl, rfl, rfl, rfl, rfl⟩

/-- C28. An embedded file stream dictionary with a valid Type whose Params
entry is a reference that resolves to Null: `validateEmbeddedFileStreamDict`
does not succeed, the run ends in the read through the nil dictionary in
`validateEmbeddedFileStreamParameterDict`. Without the Params entry the same
dictionary is accepted. -/
theorem C28_null_params_reaches_nil_dictionary :
    (emptyTable V17 .ValidationStrict).DereferenceDict (.PDFIndirectRef 9 0) = .ok none ∧
    validateEmbeddedFileStreamParameterDict acceptAll (emptyTable V17 .ValidationStrict)
      (.PDFIndirectRef 9 0) = .error .nilDereference ∧
    validateEmbeddedFileStreamDict acceptAll (emptyTable V17 .ValidationStrict)
      (some nullParamsStream) = .error .nilDereference ∧
    validateEmbeddedFileStreamDict acceptAll (emptyTable V17 .ValidationStrict)
      (some [("Type", .PDFName "EmbeddedFile")]) = .ok () :=
  ⟨rfl, rfl, rfl, rfl⟩

/-! ### Presentation steps -/

/-- A failing member of the table of entry validators makes the loop fail. -/
theorem pageDictLoop_fails_of_mem (x : XRefTable) (pageDict : Dict)
    (f : (XRefTable → Dict → Bool → PDFVersion → Except Err Unit) × (Bool × PDFVersion))
    (hf : Fails (f.1 x pageDict f.2.1 f.2.2)) :
    ∀ l : List ((XRefTable → Dict → Bool → PDFVersion → Except Err Unit) × (Bool × PDFVersion)),
      f ∈ l → Fails (validatePageDictLoop x pageDict l) := by
  intro l
  induction l with
  | nil => intro h; cases h
  | cons g rest ih =>
    intro hmem
    unfold validatePageDictLoop
    cases hg : g.1 x pageDict g.2.1 g.2.2 with
    | error e => exact fails_error _
    | ok u =>
      dsimp only
      rcases List.mem_cons.mp hmem with h | h
      · subst h
        obtain ⟨e, he⟩ := hf
        rw [he] at hg
        cases hg
      · exact ih h

theorem pageDict_fails_of_entries (P : Predicates) (E : Collaborators) (x : XRefTable)
    (pageDict : Dict) (objNumber genNumber : Nat) (hasResources hasMediaBox : Bool)
    (h : Fails (validatePageDictEntries E x pageDict)) :
    Fails (validatePageDict P E x pageDict objNumber genNumber hasResources hasMediaBox) := by
  cases hpi : validatePageDictPieceInfo P E x pageDict with
  | error e =>
    exact pageDict_fails_of_pieceInfo P E x pageDict objNumber genNumber hasResources
      hasMediaBox ⟨e, hpi⟩
  | ok u =>
    rw [pageDict_of_pieceInfo_ok P E x pageDict objNumber genNumber hasResources hasMediaBox
      hpi]
    cases pageDict.IndirectRefEntry "Parent" with
    | none => exact fails_error _
    | some _ =>
      dsimp only
      apply fails_bind; intro _ _
      apply fails_bind; intro _ _
      apply fails_bind; intro _ _
      exact h

theorem presSteps_rejected (x : XRefTable) (pageDict : Dict) (required : Bool)
    (sinceVersion : PDFVersion) (d : Dict)
    (h : resolvesTo x pageDict "PresSteps" (.PDFDict d)) :
    Fails (validatePageEntryPresSteps x pageDict required sinceVersion) := by
  obtain ⟨obj, hf, hd⟩ := h
  unfold validatePageEntryPresSteps validateDictEntry
  rw [validateEntry_value asDict "dictionary" x pageDict "pagesDict" "PresSteps" required
    sinceVersion none obj (.PDFDict d) d hf hd rfl rfl]
  split
  · exact fails_error _
  · exact fails_error _

/-- C22. Presentation steps are not supported. A page dictionary whose
PresSteps entry resolves to a dictionary is rejected by
`validatePageEntryPresSteps`, for every required flag and minimum version, every
document version and both modes, and so it is rejected by `validatePageDict`.
`validatePageEntryPresSteps` succeeds exactly when the entry is absent or
resolves to Null and is not required. -/
theorem C22_presSteps_always_rejected (P : Predicates) (E : Collaborators) (x : XRefTable)
    (pageDict : Dict) :
    (∀ d, resolvesTo x pageDict "PresSteps" (.PDFDict d) →
      (∀ required sinceVersion,
        Fails (validatePageEntryPresSteps x pageDict required sinceVersion)) ∧
      (∀ objNumber genNumber hasResources hasMediaBox,
        Fails (validatePageDict P E x pageDict objNumber genNumber hasResources
          hasMediaBox))) ∧
    (∀ required sinceVersion,
      validatePageEntryPresSteps x pageDict required sinceVersion = .ok () ↔
        (absentOrNull x pageDict "PresSteps" ∧ required = false)) := by
  refine ⟨?_, ?_⟩
  · intro d hres
    refine ⟨fun required sinceVersion =>
      presSteps_rejected x pageDict required sinceVersion d hres, ?_⟩
    intro objNumber genNumber hasResources hasMediaBox
    apply pageDict_fails_of_entries
    unfold validatePageDictEntries
    cases E.validateAdditionalActions x pageDict "pageDict" "AA" OPTIONAL V14 "page" with
    | error e => exact fails_error _
    | ok _ =>
      dsimp only
      refine pageDictLoop_fails_of_mem x pageDict (validatePageEntryPresSteps, (OPTIONAL, V15))
        (presSteps_rejected x pageDict OPTIONAL V15 d hres) _ ?_
      simp [pageDictEntryValidators]
  · intro required sinceVersion
    constructor
    · intro h
      unfold validatePageEntryPresSteps at h
      obtain ⟨r, hr, h⟩ := (bind_eq_ok_iff _ _ _).mp h
      cases r with
      | some d => cases h
      | none =>
        unfold validateDictEntry at hr
        have hsome := validateEntry_ok_isSome asDict "dictionary" x pageDict "pagesDict"
          "PresSteps" required sinceVersion none none hr
        have ha : absentOrNull x pageDict "PresSteps" := by
          by_contra hna
          have := hsome.mpr hna
          simp at this
        refine ⟨ha, ?_⟩
        rw [validateEntry_absentOrNull asDict "dictionary" x pageDict "pagesDict" "PresSteps"
          required sinceVersion none ha] at hr
        cases required with
        | false => rfl
        | true => simp at hr
    · rintro ⟨ha, hreq⟩
      subst hreq
      unfold validatePageEntryPresSteps validateDictEntry
      rw [validateEntry_absentOrNull asDict "dictionary" x pageDict "pagesDict" "PresSteps"
        false sinceVersion none ha]
      rfl

/-- C22 at a leaf page with an empty PresSteps dictionary, in a document of
version 1.7 and in Relaxed mode. -/
theorem C22_presSteps_always_rejected_witness :
    resolvesTo (emptyTable V17 .ValidationRelaxed) presStepsPage "PresSteps" (.PDFDict []) ∧
    Fails (validatePageEntryPresSteps (emptyTable V17 .ValidationRelaxed) presStepsPage
      OPTIONAL V15) ∧
    Fails (validatePageDict acceptAll acceptingCollaborators
      (emptyTable V17 .ValidationRelaxed) presStepsPage 3 0 true true) :=
  ⟨⟨_, rfl, rfl⟩,
    ((C22_presSteps_always_rejected acceptAll acceptingCollaborators
      (emptyTable V17 .ValidationRelaxed) presStepsPage).1 [] ⟨_, rfl, rfl⟩).1 OPTIONAL V15,
    ((C22_presSteps_always_rejected acceptAll acceptingCollaborators
      (emptyTable V17 .ValidationRelaxed) presStepsPage).1 [] ⟨_, rfl, rfl⟩).2 3 0 true true⟩

/-! ### Entries of a related files array -/

/-- An entry that resolves to a value the loop rejects at its position makes
the loop fail, there or before: a Null at any position. -/
theorem filesArrayLoop_null_fails (P : Predicates) (x : XRefTable) (l : List PDFObject) :
    ∀ (k i : Nat) (v : PDFObject), l[i]? = some v → x.Dereference v = .ok .null →
      Fails (validateEFDictFilesArrayLoop P x k l) := by
  induction l with
  | nil => intro k i v h; simp at h
  | cons w rest ih =>
    intro k i v hv hd
    simp only [validateEFDictFilesArrayLoop]
    cases hnil : w.isNil with
    | true => simp [Fails]
    | false =>
      simp only [Bool.false_eq_true, if_false, pure_eq_ok, bind_ok_eq]
      cases hdw : x.Dereference w with
      | error e => exact fails_error _
      | ok obj =>
        simp only [bind_ok_eq]
        cases hobj : obj.isNil with
        | true => simp [Fails]
        | false =>
          simp only [Bool.false_eq_true, if_false, pure_eq_ok, bind_ok_eq]
          cases i with
          | zero =>
            simp at hv
            subst hv
            rw [hd] at hdw
            cases hdw
            cases hobj
          | succ j =>
            have hrest := ih (k + 1) j v (by simpa using hv) hd
            split
            · split
              · exact hrest
              · exact fails_error _
            · apply fails_bind
              intro _ _
              apply fails_bind
              intro _ _
              exact hrest

/-- On a related files array in which some entry is nil or resolves to Null
`validateEFDictFilesArray` does not succeed, whatever the position of the entry
and the length of the array: the result is an error value, or the nil
dereference of an entry before it. An RF value that itself resolves to Null,
under a key that EF has, is passed over by `validateFileSpecDictEntriesEFAndRF`:
the loop goes on with the next key, and an RF dictionary with that one entry
adds nothing to the verdict on EF. -/
theorem null_array_entry_fails (P : Predicates) (x : XRefTable) :
    (∀ (arr : List PDFObject) (i : Nat) (v : PDFObject), arr[i]? = some v →
      (v.isNil = true ∨ x.Dereference v = .ok .null) →
      Fails (validateEFDictFilesArray P x arr)) ∧
    (∀ (efDict : Dict) (k : String) (val : PDFObject) (rest : Dict),
      (efDict.Find k).isSome = true → x.Dereference val = .ok .null →
      validateFileSpecDictEntriesEFAndRFLoop P x efDict ((k, val) :: rest) =
        validateFileSpecDictEntriesEFAndRFLoop P x efDict rest ∧
      validateFileSpecDictEntriesEFAndRF P x (some efDict) (some [(k, val)]) =
        validateFileSpecDictEntryEFDict P x efDict) := by
  refine ⟨?_, ?_⟩
  · intro arr i v hv hnull
    have hd : x.Dereference v = .ok .null := by
      rcases hnull with h | h
      · rw [isNil_eq_true.mp h]; rfl
      · exact h
    unfold validateEFDictFilesArray
    split
    · exact fails_error _
    · exact filesArrayLoop_null_fails P x arr 0 i v hv hd
  · intro efDict k val rest hk hd
    have hstep : ∀ rest, validateFileSpecDictEntriesEFAndRFLoop P x efDict ((k, val) :: rest) =
        validateFileSpecDictEntriesEFAndRFLoop P x efDict rest := by
      intro rest
      cases hf : efDict.Find k with
      | none => rw [hf] at hk; cases hk
      | some o =>
        simp [validateFileSpecDictEntriesEFAndRFLoop, hf, XRefTable.DereferenceArray, hd]
    refine ⟨hstep rest, ?_⟩
    unfold validateFileSpecDictEntriesEFAndRF
    dsimp only
    rw [hstep []]
    cases validateFileSpecDictEntryEFDict P x efDict with
    | error e => rfl
    | ok u => rfl

/-- Null entries at the array of a stream and a Null description, and at an RF
dictionary whose entry F is Null beside an EF dictionary with an F stream. -/
theorem null_array_entry_fails_example :
    Fails (validateEFDictFilesArray acceptAll (emptyTable V17 .ValidationStrict)
      nullDescriptionArray) ∧
    validateFileSpecDictEntriesEFAndRF acceptAll (emptyTable V17 .ValidationStrict)
      (some [("F", .PDFStreamDict [])]) (some [("F", .PDFIndirectRef 9 0)]) =
      validateFileSpecDictEntryEFDict acceptAll (emptyTable V17 .ValidationStrict)
        [("F", .PDFStreamDict [])] :=
  ⟨(null_array_entry_fails acceptAll (emptyTable V17 .ValidationStrict)).1
      nullDescriptionArray 1 .null rfl (Or.inl rfl),
    ((null_array_entry_fails acceptAll (emptyTable V17 .ValidationStrict)).2
      [("F", .PDFStreamDict [])] "F" (.PDFIndirectRef 9 0) [] rfl rfl).2⟩

theorem find_without (d : Dict) (key k : String) (h : k ≠ key) :
    (d.without key).Find k = d.Find k := by
  unfold Dict.without Dict.Find
  induction d with
  | nil => rfl
  | cons entry rest ih =>
    obtain ⟨k1, v1⟩ := entry
    by_cases h1 : k1 = key
    · subst h1
      have hk : (k == k1) = false := by simpa using h
      simp [List.filter, List.lookup, hk, ih]
    · have hk : (k1 != key) = true := by simpa using h1
      simp only [List.filter, hk, List.lookup]
      cases k == k1 with
      | true => rfl
      | false => exact ih

/-- An entry validation reads the dictionary at its own key only. -/
theorem validateEntry_without {α : Type} (asK : PDFObject → TypeCheck α) (kind : String)
    (x : XRefTable) (dict : Dict) (key dictName entryName : String) (required : Bool)
    (sinceVersion : PDFVersion) (validate : Option (α → Bool)) (h : entryName ≠ key) :
    validateEntry asK kind x (dict.without key) dictName entryName required sinceVersion
        validate =
      validateEntry asK kind x dict dictName entryName required sinceVersion validate := by
  unfold validateEntry
  rw [find_without dict key entryName h]

/-- An accepted field with a value resolves to a value of the kind. -/
theorem validateEntry_ok_some {α : Type} (asK : PDFObject → TypeCheck α) (kind : String)
    (x : XRefTable) (dict : Dict) (dictName entryName : String) (required : Bool)
    (sinceVersion : PDFVersion) (validate : Option (α → Bool)) (v : α)
    (h : validateEntry asK kind x dict dictName entryName required sinceVersion validate =
      .ok (some v)) :
    ∃ o, resolvesTo x dict entryName o ∧ asK o = .value v := by
  unfold validateEntry at h
  cases hf : dict.Find entryName with
  | none => rw [hf] at h; cases required <;> simp at h
  | some obj =>
    rw [hf] at h
    dsimp only at h
    cases hd : x.Dereference obj with
    | error e => rw [hd] at h; cases h
    | ok o =>
      rw [hd] at h
      refine ⟨o, ⟨obj, hf, hd⟩, ?_⟩
      cases hn : o.isNil with
      | true =>
        have := isNil_eq_true.mp hn
        subst this
        cases required <;> simp at h
      | false =>
        have hne : o ≠ .null := isNil_eq_false.mp hn
        cases hk : asK o with
        | fault e => cases o <;> first | exact absurd rfl hne | (simp [hk] at h)
        | mismatch => cases o <;> first | exact absurd rfl hne | (simp [hk] at h)
        | malformed => cases o <;> first | exact absurd rfl hne | (simp [hk] at h)
        | value w =>
          have hw : w = v := by
            cases o <;> first
              | exact absurd rfl hne
              | (simp only [hk] at h
                 split at h
                 · cases h
                 · split at h
                   · cases h; rfl
                   · split at h
                     · cases h; rfl
                     · cases h)
          rw [hw]

/-- The style that the S entry validates to is the name S resolves to. -/
theorem styleStep_value (E : Collaborators) (x : XRefTable) (dict : Dict) (s : String)
    (h : validateNameEntry x dict "transitionDict" "S" OPTIONAL V10
      (some (transitionStylePredicate E x)) = .ok (some s)) :
    resolvesTo x dict "S" (.PDFName s) := by
  unfold validateNameEntry at h
  obtain ⟨o, hres, hk⟩ := validateEntry_ok_some asName "name" x dict "transitionDict" "S"
    OPTIONAL V10 _ s h
  cases o <;> simp [asName] at hk
  subst hk
  exact hres

/-- C21, the claim as stated fails: a transition dictionary with an SS entry
and no S entry is accepted, and so is one of style Wipe whose SS entry is not
even a number. -/
theorem C21_SS_without_fly_accepted :
    (Dict.Find scaleWithoutStyle "SS").isSome = true ∧
    Dict.Find scaleWithoutStyle "S" = none ∧
    validateTransitionDict acceptingCollaborators (emptyTable V15 .ValidationStrict)
      scaleWithoutStyle = .ok () ∧
    (Dict.Find scaleUnderWipe "SS").isSome = true ∧
    Dict.Find scaleUnderWipe "S" = some (.PDFName "Wipe") ∧
    validateTransitionDict acceptingCollaborators (emptyTable V15 .ValidationStrict)
      scaleUnderWipe = .ok () :=
  ⟨rfl, rfl, rfl, rfl, rfl, rfl⟩

/-- C21, amended. The SS entry is examined only under the style Fly. For a
transition dictionary whose S entry does not resolve to the name Fly (absent S
included) the SS entry is not read: `validateTransitionDict` returns what it
returns for the dictionary without its SS entry. When S validates to Fly, SS is
checked as an optional number since version 1.5, and a failure of that check is
a failure of `validateTransitionDict`. -/
theorem C21_SS_examined_only_under_fly (E : Collaborators) (x : XRefTable) (dict : Dict) :
    (¬ resolvesTo x dict "S" (.PDFName "Fly") →
      validateTransitionDict E x dict = validateTransitionDict E x (dict.without "SS")) ∧
    (validateNameEntry x dict "transitionDict" "S" OPTIONAL V10
        (some (transitionStylePredicate E x)) = .ok (some "Fly") →
      Fails (validateNumberEntry x dict "transitionDict" "SS" OPTIONAL V15 none) →
      Fails (validateTransitionDict E x dict)) := by
  refine ⟨?_, ?_⟩
  · intro hS
    have hname : ∀ (k : String) (p : Option (String → Bool)), k ≠ "SS" →
        validateNameEntry x (dict.without "SS") "transitionDict" k OPTIONAL V10 p =
          validateNameEntry x dict "transitionDict" k OPTIONAL V10 p := by
      intro k p hk
      unfold validateNameEntry
      exact validateEntry_without asName "name" x dict "SS" "transitionDict" k OPTIONAL V10 p hk
    have hD : ∀ p, validateNumberEntry x (dict.without "SS") "transitionDict" "D" OPTIONAL V10 p =
        validateNumberEntry x dict "transitionDict" "D" OPTIONAL V10 p := by
      intro p
      unfold validateNumberEntry
      exact validateEntry_without asNumber "number" x dict "SS" "transitionDict" "D" OPTIONAL
        V10 p (by decide)
    have hB : ∀ p, validateBooleanEntry x (dict.without "SS") "transitionDict" "B" OPTIONAL V15
        p = validateBooleanEntry x dict "transitionDict" "B" OPTIONAL V15 p := by
      intro p
      unfold validateBooleanEntry
      exact validateEntry_without asBoolean "boolean" x dict "SS" "transitionDict" "B" OPTIONAL
        V15 p (by decide)
    have hM : ∀ st, validateTransitionDictEntryM E x (dict.without "SS") "transitionDict" st =
        validateTransitionDictEntryM E x dict "transitionDict" st := by
      intro st
      unfold validateTransitionDictEntryM
      rw [hname "M" _ (by decide)]
    have hDi : validateTransitionDictEntryDi E x (dict.without "SS") =
        validateTransitionDictEntryDi E x dict := by
      unfold validateTransitionDictEntryDi
      rw [find_without dict "SS" "Di" (by decide)]
    rw [transitionDict_unfold, transitionDict_unfold, hname "S" _ (by decide)]
    cases hst : validateNameEntry x dict "transitionDict" "S" OPTIONAL V10
        (some (transitionStylePredicate E x)) with
    | error e => rfl
    | ok st =>
      have hfly : (st.isSome && st == some "Fly") = false := by
        cases st with
        | none => rfl
        | some s =>
          have hne : s ≠ "Fly" := by
            rintro rfl
            exact hS (styleStep_value E x dict "Fly" hst)
          simpa using hne
      simp only [bind_ok_eq, hfly, hD, hname "Dm" _ (by decide), hM, hDi, hB]
      rfl
  · intro hst hss
    rw [transitionDict_unfold, hst]
    simp only [bind_ok_eq]
    apply fails_bind; intro _ _
    apply fails_bind; intro _ _
    apply fails_bind; intro _ _
    apply fails_bind; intro _ _
    apply fails_bind_left
    obtain ⟨e, he⟩ := hss
    simp [he, Fails]

/-- C21, amended, at a dictionary without S whose SS entry is an integer, and
at a dictionary of style Fly whose SS entry is a name. -/
theorem C21_SS_examined_only_under_fly_witness :
    validateTransitionDict acceptingCollaborators (emptyTable V15 .ValidationStrict)
      scaleWithoutStyle =
      validateTransitionDict acceptingCollaborators (emptyTable V15 .ValidationStrict) [] ∧
    Fails (validateTransitionDict acceptingCollaborators (emptyTable V15 .ValidationStrict)
      scaleUnderFly) :=
  ⟨(C21_SS_examined_only_under_fly acceptingCollaborators (emptyTable V15 .ValidationStrict)
      scaleWithoutStyle).1 (by
        rintro ⟨obj, hf, _⟩
        have hnone : Dict.Find scaleWithoutStyle "S" = none := rfl
        rw [hnone] at hf
        cases hf),
    (C21_SS_examined_only_under_fly acceptingCollaborators (emptyTable V15 .ValidationStrict)
      scaleUnderFly).2 rfl ⟨_, rfl⟩⟩

/-! ### The first failure ends the run -/

/-- The loop over the table of entry validators stops at the first failing
entry: what follows it in the table has no part in the result. -/
theorem pageDictLoop_first_failure (x : XRefTable) (pageDict : Dict)
    (f : (XRefTable → Dict → Bool → PDFVersion → Except Err Unit) × (Bool × PDFVersion))
    (post : List ((XRefTable → Dict → Bool → PDFVersion → Except Err Unit) ×
      (Bool × PDFVersion)))
    (e : Err) (hf : f.1 x pageDict f.2.1 f.2.2 = .error e) :
    ∀ pre : List ((XRefTable → Dict → Bool → PDFVersion → Except Err Unit) ×
        (Bool × PDFVersion)),
      validatePageDictLoop x pageDict pre = .ok () →
      validatePageDictLoop x pageDict (pre ++ f :: post) = .error e := by
  intro pre
  induction pre with
  | nil =>
    intro _
    simp only [List.nil_append, validatePageDictLoop, hf]
  | cons g rest ih =>
    intro h
    rw [List.cons_append]
    unfold validatePageDictLoop at h ⊢
    cases hg : g.1 x pageDict g.2.1 g.2.2 with
    | error e1 => rw [hg] at h; cases h
    | ok u =>
      rw [hg] at h
      exact ih h

/-- The loop over the kids stops at the first failing kid. -/
theorem kids_first_failure (recurse : XRefTable → Dict → Nat → Nat → Bool → Bool → Walk)
    (page : PageValidator) (hr hm : Bool) (x x1 x2 : XRefTable) (pre post : List PDFObject)
    (kid : PDFObject) (e : Err)
    (hpre : validatePagesDictKids recurse page hr hm x pre = some (x1, .ok ()))
    (hkid : validatePagesDictKids recurse page hr hm x1 [kid] = some (x2, .error e)) :
    validatePagesDictKids recurse page hr hm x (pre ++ kid :: post) = some (x2, .error e) := by
  rw [kids_append, hpre]
  dsimp only
  rw [show kid :: post = [kid] ++ post from rfl, kids_append, hkid]

/-- C24. Fail-fast propagation in the page tree. In the loop over the kids, if
the kids before a kid pass and the validation of that kid (its resolution, the
dispatch on its type, the recursive `validatePagesDict` or `validatePageDict`)
fails with `e`, the loop ends with `e`, and the kids after it have no part in
the result; `validatePagesDict` returns that `e`. A failure of the page check or
of the recursive call on a kid is the failure of the loop. In the same way
`validatePageDict` returns the failure of its first failing check: of the
contents, the resources, the MediaBox, the PieceInfo part, the AA entry, or of
the first failing member of its table of entry validators, and what follows in
the table has no part in the result. -/
theorem C24_fail_fast (P : Predicates) (E : Collaborators) :
    (∀ (recurse : XRefTable → Dict → Nat → Nat → Bool → Bool → Walk) (page : PageValidator)
        (hr hm : Bool) (x x1 x2 : XRefTable) (pre post : List PDFObject) (kid : PDFObject)
        (e : Err),
      validatePagesDictKids recurse page hr hm x pre = some (x1, .ok ()) →
      validatePagesDictKids recurse page hr hm x1 [kid] = some (x2, .error e) →
      validatePagesDictKids recurse page hr hm x (pre ++ kid :: post) =
        some (x2, .error e)) ∧
    (∀ (page : PageValidator) (fuel : Nat) (x x0 x1 x2 : XRefTable) (dict : Dict)
        (objNumber genNumber : Nat) (hr hm dr dm : Bool) (pre post : List PDFObject)
        (kid : PDFObject) (e : Err),
      validatePagesDictGeneralEntries E x dict = (x0, .ok (dr, dm)) →
      dict.PDFArrayEntry "Kids" = some (pre ++ kid :: post) →
      validatePagesDictKids (validatePagesDict E page fuel) page (hr || dr) (hm || dm) x0 pre =
        some (x1, .ok ()) →
      validatePagesDictKids (validatePagesDict E page fuel) page (hr || dr) (hm || dm) x1
        [kid] = some (x2, .error e) →
      validatePagesDict E page (fuel + 1) x dict objNumber genNumber hr hm =
        some (x2, .error e)) ∧
    (∀ (recurse : XRefTable → Dict → Nat → Nat → Bool → Bool → Walk) (page : PageValidator)
        (hr hm : Bool) (x x2 : XRefTable) (n g : Nat) (d : Dict) (rest : List PDFObject)
        (e : Err),
      x.DereferenceDict (.PDFIndirectRef n g) = .ok (some d) →
      (d.Type = some "Page" → page x d n g hr hm = .error e →
        validatePagesDictKids recurse page hr hm x (.PDFIndirectRef n g :: rest) =
          some (x, .error e)) ∧
      (d.Type = some "Pages" → recurse x d n g hr hm = some (x2, .error e) →
        validatePagesDictKids recurse page hr hm x (.PDFIndirectRef n g :: rest) =
          some (x2, .error e))) ∧
    (∀ (x : XRefTable) (pageDict : Dict) (objNumber genNumber : Nat)
        (hasResources hasMediaBox : Bool) (parent : Nat × Nat) (e : Err),
      pageDict.IndirectRefEntry "Parent" = some parent →
      (validatePageContents x pageDict = .error e →
        validatePageDict P E x pageDict objNumber genNumber hasResources hasMediaBox =
          .error e) ∧
      (∀ hasContents, validatePageContents x pageDict = .ok hasContents →
        (validatePageResources E x pageDict hasResources hasContents = .error e →
          validatePageDict P E x pageDict objNumber genNumber hasResources hasMediaBox =
            .error e) ∧
        (validatePageResources E x pageDict hasResources hasContents = .ok () →
          (validatePageEntryMediaBox x pageDict (!hasMediaBox) V10 = .error e →
            validatePageDict P E x pageDict objNumber genNumber hasResources hasMediaBox =
              .error e) ∧
          (∀ b, validatePageEntryMediaBox x pageDict (!hasMediaBox) V10 = .ok b →
            (validatePageDictPieceInfo P E x pageDict = .error e →
              validatePageDict P E x pageDict objNumber genNumber hasResources hasMediaBox =
                .error e) ∧
            (validatePageDictPieceInfo P E x pageDict = .ok () →
              (E.validateAdditionalActions x pageDict "pageDict" "AA" OPTIONAL V14 "page" =
                  .error e →
                validatePageDict P E x pageDict objNumber genNumber hasResources
                  hasMediaBox = .error e) ∧
              (E.validateAdditionalActions x pageDict "pageDict" "AA" OPTIONAL V14 "page" =
                  .ok () →
                ∀ pre f post, pageDictEntryValidators E = pre ++ f :: post →
                  validatePageDictLoop x pageDict pre = .ok () →
                  f.1 x pageDict f.2.1 f.2.2 = .error e →
                  validatePageDict P E x pageDict objNumber genNumber hasResources
                    hasMediaBox = .error e)))))) := by
  refine ⟨?_, ?_, ?_, ?_⟩
  · intro recurse page hr hm x x1 x2 pre post kid e hpre hkid
    exact kids_first_failure recurse page hr hm x x1 x2 pre post kid e hpre hkid
  · intro page fuel x x0 x1 x2 dict objNumber genNumber hr hm dr dm pre post kid e hge hkids
      hpre hkid
    rw [pagesDict_succ, hge]
    dsimp only
    rw [hkids]
    exact kids_first_failure _ page _ _ x0 x1 x2 pre post kid e hpre hkid
  · intro recurse page hr hm x x2 n g d rest e hd
    refine ⟨?_, ?_⟩
    · intro ht hp
      rw [kids_page_head recurse page hr hm x n g rest d hd ht, hp]
    · intro ht hrec
      rw [kids_pages_head recurse page hr hm x n g rest d hd ht, hrec]
  · intro x pageDict objNumber genNumber hasResources hasMediaBox parent e hparent
    refine ⟨?_, ?_⟩
    · intro hc
      simp only [validatePageDict, hparent, hc]
    · intro hasContents hc
      refine ⟨?_, ?_⟩
      · intro hres
        simp only [validatePageDict, hparent, hc, hres]
      · intro hres
        refine ⟨?_, ?_⟩
        · intro hmb
          simp only [validatePageDict, hparent, hc, hres, hmb]
        · intro b hmb
          refine ⟨?_, ?_⟩
          · intro hpi
            simp only [validatePageDict, hparent, hc, hres, hmb, hpi]
          · intro hpi
            refine ⟨?_, ?_⟩
            · intro haa
              simp only [validatePageDict, hparent, hc, hres, hmb, hpi, validatePageDictEntries,
                haa]
            · intro haa pre f post htable hpre hf
              simp only [validatePageDict, hparent, hc, hres, hmb, hpi, validatePageDictEntries,
                haa, htable]
              exact pageDictLoop_first_failure x pageDict f post e hf pre hpre

/-- C24 at a Kids array of a nil entry, a direct integer and a reference: the
loop ends with the failure of the integer. -/
theorem C24_fail_fast_witness :
    validatePagesDictKids (fun _ _ _ _ _ _ => none)
      (validatePageDict acceptAll acceptingCollaborators) false false
      (emptyTable V14 .ValidationStrict) kidsWithDirectInteger =
      some (emptyTable V14 .ValidationStrict,
        .error (.errorf "validatePagesDict: missing indirect reference for kid" [])) :=
  (C24_fail_fast acceptAll acceptingCollaborators).1 (fun _ _ _ _ _ _ => none)
    (validatePageDict acceptAll acceptingCollaborators) false false
    (emptyTable V14 .ValidationStrict) (emptyTable V14 .ValidationStrict)
    (emptyTable V14 .ValidationStrict) [.null] [.PDFIndirectRef 7 0] (.PDFInteger 5)
    (.errorf "validatePagesDict: missing indirect reference for kid" []) rfl rfl

/-! ### The page counter -/

/-- A relation between the table before and after a step that holds of every
recursive call holds of the loop over the kids, when it is reflexive and
transitive. -/
theorem kids_rel (R : XRefTable → XRefTable → Prop) (hrefl : ∀ x, R x x)
    (htrans : ∀ x y z, R x y → R y z → R x z)
    (recurse : XRefTable → Dict → Nat → Nat → Bool → Bool → Walk)
    (page : PageValidator) (hr hm : Bool)
    (hrec : ∀ x d n g x' r, recurse x d n g hr hm = some (x', r) → R x x')
    (kids : List PDFObject) :
    ∀ x x' r, validatePagesDictKids recurse page hr hm x kids = some (x', r) → R x x' := by
  induction kids with
  | nil =>
    intro x x' r h
    simp [validatePagesDictKids] at h
    rw [← h.1]
    exact hrefl x
  | cons obj rest ih =>
    intro x x' r h
    cases hnil : obj.isNil with
    | true =>
      have := isNil_eq_true.mp hnil
      subst this
      rw [kids_nil_head] at h
      exact ih x x' r h
    | false =>
      obtain ⟨e, he⟩ | hgood : (∃ e, validatePagesDictKids recurse page hr hm x (obj :: rest) =
          some (x, .error e)) ∨ ∃ n g d, obj = .PDFIndirectRef n g ∧
            x.DereferenceDict obj = .ok (some d) ∧ (d.Type = some "Pages" ∨
              d.Type = some "Page") := by
        by_cases hbad : badKid x obj
        · exact Or.inl (kids_bad_head recurse page hr hm x obj rest hbad)
        · right
          unfold badKid at hbad
          simp only [hnil, true_and, not_forall] at hbad
          obtain ⟨n, g, d, ho, hd, hnot⟩ := hbad
          refine ⟨n, g, d, ho, hd, ?_⟩
          by_contra hc
          exact hnot ⟨fun h1 => hc (Or.inl h1), fun h2 => hc (Or.inr h2)⟩
      · rw [he] at h
        simp at h
        rw [← h.1]
        exact hrefl x
      · obtain ⟨n, g, d, rfl, hd, ht | ht⟩ := hgood
        · rw [kids_pages_head _ _ _ _ _ _ _ _ d hd ht] at h
          cases hrc : recurse x d n g hr hm with
          | none => rw [hrc] at h; cases h
          | some rr =>
            obtain ⟨x1, v⟩ := rr
            have hs := hrec x d n g x1 v hrc
            rw [hrc] at h
            cases v with
            | error e =>
              simp at h; rw [← h.1]; exact hs
            | ok _ => exact htrans _ _ _ hs (ih x1 x' r h)
        · rw [kids_page_head _ _ _ _ _ _ _ _ d hd ht] at h
          cases hp : page x d n g hr hm with
          | error e =>
            rw [hp] at h
            simp at h; rw [← h.1]; exact hrefl x
          | ok _ =>
            rw [hp] at h
            exact ih x x' r h

/-- The table that `validateResources` leaves. -/
theorem validateResources_table (E : Collaborators) (x : XRefTable) (dict : Dict) :
    (validateResources E x dict).1 =
      match dict.IntEntry "Count" with
      | none => x
      | some c => if x.PageCount = 0 then x.setPageCount c else x := by
  unfold validateResources
  cases dict.IntEntry "Count" with
  | none => rfl
  | some c =>
    dsimp only
    cases dict.Find "Resources" <;>
      (dsimp only
       by_cases h0 : x.PageCount = 0
       · simp [h0]
       · simp [h0])

/-- The table that the general entries of an interior node leave is the table
`validateResources` leaves. -/
theorem generalEntries_table (E : Collaborators) (x : XRefTable) (dict : Dict) :
    (validatePagesDictGeneralEntries E x dict).1 = (validateResources E x dict).1 := by
  unfold validatePagesDictGeneralEntries
  rcases validateResources E x dict with ⟨x1, r⟩
  cases r with
  | error e => rfl
  | ok hr =>
    dsimp only
    cases validatePageEntryMediaBox x1 dict OPTIONAL V10 with
    | error e => rfl
    | ok hm =>
      dsimp only
      cases validatePageEntryCropBox x1 dict OPTIONAL V10 with
      | error e => rfl
      | ok _ =>
        dsimp only
        cases validatePageEntryRotate x1 dict OPTIONAL V10 with
        | error e => rfl
        | ok _ => rfl

/-- A walk that starts with a counter other than 0 leaves the table as it is. -/
theorem walk_counter_kept (E : Collaborators) (page : PageValidator) :
    ∀ fuel x dict n g hr hm x' r, x.PageCount ≠ 0 →
      validatePagesDict E page fuel x dict n g hr hm = some (x', r) → x' = x := by
  intro fuel
  induction fuel with
  | zero => intro x dict n g hr hm x' r _ h; simp [validatePagesDict] at h
  | succ fuel ih =>
    intro x dict n g hr hm x' r hx h
    rw [pagesDict_succ] at h
    have ht : (validatePagesDictGeneralEntries E x dict).1 = x := by
      rw [generalEntries_table, validateResources_table]
      cases dict.IntEntry "Count" with
      | none => rfl
      | some c => simp [hx]
    rcases hge : validatePagesDictGeneralEntries E x dict with ⟨x1, r1⟩
    rw [hge] at h ht
    dsimp only at ht
    subst ht
    cases r1 with
    | error e => simp at h; exact h.1.symm
    | ok flags =>
      obtain ⟨dr, dm⟩ := flags
      dsimp only at h
      cases hk : dict.PDFArrayEntry "Kids" with
      | none => rw [hk] at h; simp at h; exact h.1.symm
      | some kids =>
        rw [hk] at h
        exact kids_rel (fun y y' => y.PageCount ≠ 0 → y' = y) (fun _ _ => rfl)
          (fun a b c hab hbc ha => by
            have hb := hab ha
            subst hb
            exact hbc ha)
          _ page _ _ (fun y d n g y' r hrc hy => ih y d n g _ _ y' r hy hrc) kids x1 x' r h hx

/-- C23, the claim as stated fails: on the tree whose root declares Count 0,
walked from a counter of 0, the visit of the root leaves the counter at 0 and
the visit of the second interior node sets it to that node's Count, 1. -/
theorem C23_later_node_writes_counter :
    zeroCountTable.PageCount = 0 ∧
    (validatePagesDictGeneralEntries acceptingCollaborators zeroCountTable
      zeroCountRoot).1.PageCount = 0 ∧
    Dict.IntEntry zeroCountInteriorNode "Count" = some 1 ∧
    (validatePagesDict acceptingCollaborators
      (validatePageDict acceptAll acceptingCollaborators) 2 zeroCountTable zeroCountRoot 1 0
      false false).map (fun w => (w.1.PageCount, w.2)) = some (1, .ok ()) :=
  ⟨rfl, rfl, rfl, rfl⟩

/-- C23, amended. A visit of an interior node writes the page counter exactly
when the counter is 0 on entry to the visit, and then with the Count of the
node. So a walk by `validatePagesDict` that starts from a counter of 0 at a
root whose Count is not 0 ends with the counter at the Count of the root: the
root writes it and no later visit changes it, whatever the Count values of the
later nodes. A walk that starts from a counter other than 0, as every visit
after that of such a root does, leaves the table as it is. -/
theorem C23_counter_written_while_zero (E : Collaborators) (page : PageValidator)
    (x : XRefTable) (dict : Dict) :
    (∀ c, dict.IntEntry "Count" = some c →
      (validatePagesDictGeneralEntries E x dict).1 =
        if x.PageCount = 0 then x.setPageCount c else x) ∧
    (∀ fuel objNumber genNumber hr hm x' r,
      validatePagesDict E page fuel x dict objNumber genNumber hr hm = some (x', r) →
      (x.PageCount ≠ 0 → x' = x) ∧
      (∀ c, x.PageCount = 0 → dict.IntEntry "Count" = some c → c ≠ 0 →
        x' = x.setPageCount c)) := by
  have hentries : ∀ c, dict.IntEntry "Count" = some c →
      (validatePagesDictGeneralEntries E x dict).1 =
        if x.PageCount = 0 then x.setPageCount c else x := by
    intro c hc
    rw [generalEntries_table, validateResources_table, hc]
  refine ⟨hentries, ?_⟩
  intro fuel objNumber genNumber hr hm x' r h
  refine ⟨fun hx => walk_counter_kept E page fuel x dict objNumber genNumber hr hm x' r hx h,
    ?_⟩
  intro c hx hc hne
  cases fuel with
  | zero => simp [validatePagesDict] at h
  | succ fuel =>
    rw [pagesDict_succ] at h
    have ht := hentries c hc
    rw [if_pos hx] at ht
    rcases hge : validatePagesDictGeneralEntries E x dict with ⟨x1, r1⟩
    rw [hge] at h ht
    dsimp only at ht
    subst ht
    cases r1 with
    | error e => simp at h; exact h.1.symm
    | ok flags =>
      obtain ⟨dr, dm⟩ := flags
      dsimp only at h
      cases hk : dict.PDFArrayEntry "Kids" with
      | none => rw [hk] at h; simp at h; exact h.1.symm
      | some kids =>
        rw [hk] at h
        exact kids_rel (fun y y' => y.PageCount ≠ 0 → y' = y) (fun _ _ => rfl)
          (fun a b c hab hbc ha => by
            have hb := hab ha
            subst hb
            exact hbc ha)
          _ page _ _
          (fun y d n g y' r hrc hy => walk_counter_kept E page fuel y d n g _ _ y' r hy hrc)
          kids _ x' r h hne

/-- C23, amended, at the tree of root 1, interior node 2 and leaf 3 whose
nodes declare Count 1, walked from a counter of 0: the walk ends with the
counter at 1. -/
theorem C23_counter_written_while_zero_witness :
    orphanTable.PageCount = 0 ∧ Dict.IntEntry orphanRootNode "Count" = some 1 ∧
    ∃ x' r, validatePagesDict acceptingCollaborators
      (validatePageDict acceptAll acceptingCollaborators) 2 orphanTable orphanRootNode 1 0
      false false = some (x', r) ∧ x' = orphanTable.setPageCount 1 :=
  ⟨rfl, rfl, orphanTable.setPageCount 1, .ok (), rfl,
    ((C23_counter_written_while_zero acceptingCollaborators
      (validatePageDict acceptAll acceptingCollaborators) orphanTable orphanRootNode).2 2 1 0
      false false (orphanTable.setPageCount 1) (.ok ()) rfl).2 1 rfl rfl (by decide)⟩

/-! ### A two level page tree -/

theorem tree_leaf (P : Predicates) (E : Collaborators) (hE : AcceptsAbsent E)
    (version : PDFVersion) (mode : ValidationMode) (pageCount rootCount interiorCount : Int) :
    validatePageDict P E (treeTable version mode pageCount rootCount interiorCount) treeLeaf
      3 0 true true = .ok () := by
  unfold validatePageDict
  have h1 : Dict.IndirectRefEntry treeLeaf "Parent" = some (2, 0) := rfl
  have h2 : validatePageContents (treeTable version mode pageCount rootCount interiorCount)
      treeLeaf = .ok true := rfl
  have h3 : validatePageResources E (treeTable version mode pageCount rootCount interiorCount)
      treeLeaf true true = .ok () := rfl
  have h4 : validatePageEntryMediaBox (treeTable version mode pageCount rootCount interiorCount)
      treeLeaf (!true) V10 = .ok false := rfl
  have h5 : validatePageDictPieceInfo P E
      (treeTable version mode pageCount rootCount interiorCount) treeLeaf = .ok () := by
    unfold validatePageDictPieceInfo
    dsimp only
    rw [hE.1 _ treeLeaf _ rfl]
    rfl
  have h6 : validatePageDictEntries E
      (treeTable version mode pageCount rootCount interiorCount) treeLeaf = .ok () := by
    unfold validatePageDictEntries
    rw [hE.2.1 _ treeLeaf _ rfl]
    simp only [pageDictEntryValidators, validatePageDictLoop, hE.2.2 _ treeLeaf _ rfl]
    rfl
  simp only [h1, h2, h3, h4, h5, h6]

theorem tree_rotatedLeaf (P : Predicates) (E : Collaborators) (hE : AcceptsAbsent E)
    (version : PDFVersion) (mode : ValidationMode) (pageCount rootCount interiorCount : Int) :
    validatePageDict P E (treeTable version mode pageCount rootCount interiorCount) treeRotatedLeaf
      4 0 true true = .ok () := by
  unfold validatePageDict
  have h1 : Dict.IndirectRefEntry treeRotatedLeaf "Parent" = some (2, 0) := rfl
  have h2 : validatePageContents (treeTable version mode pageCount rootCount interiorCount)
      treeRotatedLeaf = .ok true := rfl
  have h3 : validatePageResources E (treeTable version mode pageCount rootCount interiorCount)
      treeRotatedLeaf true true = .ok () := rfl
  have h4 : validatePageEntryMediaBox (treeTable version mode pageCount rootCount interiorCount)
      treeRotatedLeaf (!true) V10 = .ok false := rfl
  have h5 : validatePageDictPieceInfo P E
      (treeTable version mode pageCount rootCount interiorCount) treeRotatedLeaf = .ok () := by
    unfold validatePageDictPieceInfo
    dsimp only
    rw [hE.1 _ treeRotatedLeaf _ rfl]
    rfl
  have h6 : validatePageDictEntries E
      (treeTable version mode pageCount rootCount interiorCount) treeRotatedLeaf = .ok () := by
    unfold validatePageDictEntries
    rw [hE.2.1 _ treeRotatedLeaf _ rfl]
    simp only [pageDictEntryValidators, validatePageDictLoop, hE.2.2 _ treeRotatedLeaf _ rfl]
    rfl
  simp only [h1, h2, h3, h4, h5, h6]

theorem tree_resources_loop (E : Collaborators) (x : XRefTable) :
    ∀ order : List String, validateResourceDictLoop E x [] order = .ok () := by
  intro order
  induction order with
  | nil => rfl
  | cons k rest ih =>
    unfold validateResourceDictLoop
    cases List.lookup k (resourceCategories E) with
    | none => exact ih
    | some v => exact ih

theorem tree_counter (version : PDFVersion) (mode : ValidationMode)
    (pageCount count rootCount interiorCount : Int) :
    (if (treeTable version mode pageCount rootCount interiorCount).PageCount == 0 then
        (treeTable version mode pageCount rootCount interiorCount).setPageCount count
      else treeTable version mode pageCount rootCount interiorCount) =
      treeTable version mode (counterAfter pageCount count) rootCount interiorCount := by
  by_cases h : pageCount = 0
  · simp [treeTable, XRefTable.setPageCount, counterAfter, h]
  · simp [treeTable, XRefTable.setPageCount, counterAfter, h]

theorem tree_interior_entries (E : Collaborators) (version : PDFVersion) (mode : ValidationMode)
    (pageCount rootCount interiorCount : Int) :
    validatePagesDictGeneralEntries E (treeTable version mode pageCount rootCount interiorCount)
        (treeInteriorNode interiorCount) =
      (treeTable version mode (counterAfter pageCount interiorCount) rootCount interiorCount,
        .ok (false, true)) := by
  have hres : validateResources E (treeTable version mode pageCount rootCount interiorCount)
      (treeInteriorNode interiorCount) =
      (treeTable version mode (counterAfter pageCount interiorCount) rootCount interiorCount,
        .ok false) := by
    unfold validateResources
    simp only [show Dict.IntEntry (treeInteriorNode interiorCount) "Count" = some interiorCount
      from rfl, tree_counter,
      show Dict.Find (treeInteriorNode interiorCount) "Resources" = none from rfl]
  unfold validatePagesDictGeneralEntries
  rw [hres]
  rfl

theorem tree_root_entries (E : Collaborators) (version : PDFVersion) (mode : ValidationMode)
    (pageCount rootCount interiorCount : Int) :
    validatePagesDictGeneralEntries E (treeTable version mode pageCount rootCount interiorCount)
        (treeRoot rootCount) =
      (treeTable version mode (counterAfter pageCount rootCount) rootCount interiorCount,
        .ok (true, false)) := by
  have hres : validateResources E (treeTable version mode pageCount rootCount interiorCount)
      (treeRoot rootCount) =
      (treeTable version mode (counterAfter pageCount rootCount) rootCount interiorCount,
        .ok true) := by
    unfold validateResources
    simp only [show Dict.IntEntry (treeRoot rootCount) "Count" = some rootCount from rfl,
      tree_counter,
      show Dict.Find (treeRoot rootCount) "Resources" = some (.PDFDict []) from rfl]
    unfold validateResourceDict
    simp only [show ∀ x : XRefTable, x.DereferenceDict (.PDFDict []) = .ok (some []) from
      fun _ => rfl, tree_resources_loop]
  unfold validatePagesDictGeneralEntries
  rw [hres]
  rfl

theorem tree_interior_walk (P : Predicates) (E : Collaborators) (hE : AcceptsAbsent E)
    (version : PDFVersion) (mode : ValidationMode) (pageCount rootCount interiorCount : Int)
    (fuel : Nat) :
    validatePagesDict E (validatePageDict P E) (fuel + 1)
        (treeTable version mode pageCount rootCount interiorCount)
        (treeInteriorNode interiorCount) 2 0 true false =
      some (treeTable version mode (counterAfter pageCount interiorCount) rootCount
        interiorCount, .ok ()) := by
  rw [pagesDict_succ, tree_interior_entries]
  dsimp only
  rw [show Dict.PDFArrayEntry (treeInteriorNode interiorCount) "Kids" =
    some [.PDFIndirectRef 3 0, .PDFIndirectRef 4 0] from rfl]
  dsimp only
  have hd3 : ∀ k, (treeTable version mode k rootCount interiorCount).DereferenceDict
      (.PDFIndirectRef 3 0) = .ok (some treeLeaf) := fun _ => rfl
  have hd4 : ∀ k, (treeTable version mode k rootCount interiorCount).DereferenceDict
      (.PDFIndirectRef 4 0) = .ok (some treeRotatedLeaf) := fun _ => rfl
  rw [kids_page_head _ _ _ _ _ 3 0 _ treeLeaf (hd3 _) rfl]
  simp only [Bool.or_false, Bool.or_true, tree_leaf P E hE]
  rw [kids_page_head _ _ _ _ _ 4 0 _ treeRotatedLeaf (hd4 _) rfl]
  simp only [tree_rotatedLeaf P E hE]
  rfl

theorem tree_root_walk (P : Predicates) (E : Collaborators) (hE : AcceptsAbsent E)
    (version : PDFVersion) (mode : ValidationMode) (pageCount rootCount interiorCount : Int)
    (fuel : Nat) :
    validatePagesDict E (validatePageDict P E) (fuel + 2)
        (treeTable version mode pageCount rootCount interiorCount) (treeRoot rootCount) 1 0
        false false =
      some (treeTable version mode
        (counterAfter (counterAfter pageCount rootCount) interiorCount) rootCount
        interiorCount, .ok ()) := by
  rw [pagesDict_succ, tree_root_entries]
  dsimp only
  rw [show Dict.PDFArrayEntry (treeRoot rootCount) "Kids" = some [.PDFIndirectRef 2 0] from
    rfl]
  dsimp only
  have hd2 : ∀ k, (treeTable version mode k rootCount interiorCount).DereferenceDict
      (.PDFIndirectRef 2 0) = .ok (some (treeInteriorNode interiorCount)) := fun _ => rfl
  rw [kids_pages_head _ _ _ _ _ 2 0 _ (treeInteriorNode interiorCount) (hd2 _) rfl]
  simp only [Bool.or_false, Bool.or_true, Bool.false_or,
    tree_interior_walk P E hE]
  rfl

/-- C25. The two level page tree: a catalog whose Pages reference leads to the
root Pages node, which declares Resources and Count; its one kid is an interior
Pages node that declares MediaBox and Count; the kids of that node are two leaf
pages with a Parent reference and a content stream, without Resources and
without MediaBox, one of them with Rotate 90. With collaborators that accept a
dictionary lacking their entry, `validatePages` returns the root page node
dictionary, for every document version, both modes, every value of the page
counter and of the two Count entries, and every recursion depth from 2 on. -/
theorem C25_two_level_tree_validates (P : Predicates) (E : Collaborators)
    (hE : AcceptsAbsent E) (version : PDFVersion) (mode : ValidationMode)
    (pageCount rootCount interiorCount : Int) (fuel : Nat) :
    validatePages P E (fuel + 2) (treeTable version mode pageCount rootCount interiorCount)
        treeCatalog =
      some (treeTable version mode
        (counterAfter (counterAfter pageCount rootCount) interiorCount) rootCount
        interiorCount, .ok (treeRoot rootCount)) := by
  unfold validatePages
  rw [show Dict.IndirectRefEntry treeCatalog "Pages" = some (1, 0) from rfl]
  dsimp only
  rw [show (treeTable version mode pageCount rootCount interiorCount).DereferenceDict
    (.PDFIndirectRef 1 0) = .ok (some (treeRoot rootCount)) from rfl]
  dsimp only
  rw [tree_root_walk P E hE]

/-- C25 at version 1.4 in Strict mode, with the page counter at 0 and Count 2 in
both nodes. -/
theorem C25_two_level_tree_validates_witness :
    validatePages acceptAll acceptingCollaborators 2 (treeTable V14 .ValidationStrict 0 2 2)
        treeCatalog =
      some (treeTable V14 .ValidationStrict 2 2 2, .ok (treeRoot 2)) :=
  C25_two_level_tree_validates acceptAll acceptingCollaborators
    ⟨fun _ _ _ _ => rfl, fun _ _ _ _ => rfl, fun _ _ _ _ => rfl⟩ V14 .ValidationStrict 0 2 2 0

/-! ### The Di entry of a transition dictionary -/

/-- C32. `validateTransitionDictEntryDi` does not reject a Di entry that is
neither an integer nor a name: a string, a boolean, an array and a real number
are accepted, as no case of the type switch meets them. The name None is
accepted and another name is rejected. -/
theorem C32_other_kinds_of_Di_accepted :
    validateTransitionDictEntryDi acceptingCollaborators (emptyTable V14 .ValidationStrict)
      [("Di", .PDFStringLiteral "x")] = .ok () ∧
    validateTransitionDictEntryDi acceptingCollaborators (emptyTable V14 .ValidationStrict)
      [("Di", .PDFBoolean true)] = .ok () ∧
    validateTransitionDictEntryDi acceptingCollaborators (emptyTable V14 .ValidationStrict)
      [("Di", .PDFArray [.PDFInteger 90])] = .ok () ∧
    validateTransitionDictEntryDi acceptingCollaborators (emptyTable V14 .ValidationStrict)
      [("Di", .PDFFloat 45)] = .ok () ∧
    validateTransitionDict acceptingCollaborators (emptyTable V14 .ValidationStrict)
      [("Di", .PDFStringLiteral "x")] = .ok () ∧
    validateTransitionDictEntryDi acceptingCollaborators (emptyTable V14 .ValidationStrict)
      [("Di", .PDFName "None")] = .ok () ∧
    validateTransitionDictEntryDi acceptingCollaborators (emptyTable V14 .ValidationStrict)
      [("Di", .PDFName "Up")] =
      .error (.errorf "validateTransitionDict: entry Di name value undefined" []) :=
  ⟨rfl, rfl, rfl, rfl, rfl, rfl, rfl⟩

/-! ### Strict and Relaxed mode -/

/-- The resolver reads the object table only. -/
theorem dereference_table {x x' : XRefTable} (ht : x'.Table = x.Table) (o : PDFObject) :
    x'.Dereference o = x.Dereference o := by
  cases o <;> simp [XRefTable.Dereference, ht]

/-- An entry validation reads the version and the object table of the cross
reference table, and not its mode. -/
theorem validateEntry_table {α : Type} (asK : PDFObject → TypeCheck α) (kind : String)
    {x x' : XRefTable} (hv : x'.Version = x.Version) (ht : x'.Table = x.Table) (dict : Dict)
    (dictName entryName : String) (required : Bool) (sinceVersion : PDFVersion)
    (validate : Option (α → Bool)) :
    validateEntry asK kind x' dict dictName entryName required sinceVersion validate =
      validateEntry asK kind x dict dictName entryName required sinceVersion validate := by
  unfold validateEntry
  simp only [dereference_table ht, hv]

theorem stringElements_table {x x' : XRefTable} (ht : x'.Table = x.Table)
    (l : List PDFObject) : stringElements x' l = stringElements x l := by
  induction l with
  | nil => rfl
  | cons e rest ih =>
    unfold stringElements
    rw [dereference_table ht, ih]

theorem asStringArray_table {x x' : XRefTable} (ht : x'.Table = x.Table) :
    asStringArray x' = asStringArray x := by
  funext o
  cases o <;> simp [asStringArray, stringElements_table ht]

/-- An accepted entry is accepted under a lower minimum version and a weaker
predicate. -/
theorem validateEntry_relax {α : Type} (asK : PDFObject → TypeCheck α) (kind : String)
    (x : XRefTable) (dict : Dict) (dictName entryName : String) (required : Bool)
    (sinceVersion sinceVersion2 : PDFVersion) (p p2 : α → Bool) (r : Option α)
    (hsv : sinceVersion2 ≤ sinceVersion) (hp : ∀ v, p v = true → p2 v = true)
    (h : validateEntry asK kind x dict dictName entryName required sinceVersion (some p) =
      .ok r) :
    validateEntry asK kind x dict dictName entryName required sinceVersion2 (some p2) =
      .ok r := by
  unfold validateEntry at h ⊢
  cases hf : dict.Find entryName with
  | none => rw [hf] at h; exact h
  | some obj =>
    rw [hf] at h
    dsimp only at h ⊢
    cases hd : x.Dereference obj with
    | error e => rw [hd] at h; cases h
    | ok o =>
      rw [hd] at h
      cases hn : o.isNil with
      | true =>
        have := isNil_eq_true.mp hn
        subst this
        exact h
      | false =>
        have hne : o ≠ .null := isNil_eq_false.mp hn
        cases hk : asK o with
        | fault e => cases o <;> first | exact absurd rfl hne | (simp [hk] at h)
        | mismatch => cases o <;> first | exact absurd rfl hne | (simp [hk] at h)
        | malformed => cases o <;> first | exact absurd rfl hne | (simp [hk] at h)
        | value v =>
          cases o <;> first
            | exact absurd rfl hne
            | (simp only [hk] at h ⊢
               by_cases hlt : x.Version < sinceVersion
               · simp [hlt] at h
               · have hlt2 : ¬ x.Version < sinceVersion2 :=
                   fun h2 => hlt (Nat.lt_of_lt_of_le h2 hsv)
                 simp only [hlt, hlt2, if_false] at h ⊢
                 cases hpv : p v with
                 | true => simp only [hpv, if_true] at h; simp only [hp v hpv, if_true]; exact h
                 | false => simp [hpv] at h)

/-- An accepted entry without a predicate is accepted under a lower minimum
version. -/
theorem validateEntry_lower {α : Type} (asK : PDFObject → TypeCheck α) (kind : String)
    (x : XRefTable) (dict : Dict) (dictName entryName : String) (required : Bool)
    (sinceVersion sinceVersion2 : PDFVersion) (r : Option α)
    (hsv : sinceVersion2 ≤ sinceVersion)
    (h : validateEntry asK kind x dict dictName entryName required sinceVersion none =
      .ok r) :
    validateEntry asK kind x dict dictName entryName required sinceVersion2 none = .ok r := by
  unfold validateEntry at h ⊢
  cases hf : dict.Find entryName with
  | none => rw [hf] at h; exact h
  | some obj =>
    rw [hf] at h
    dsimp only at h ⊢
    cases hd : x.Dereference obj with
    | error e => rw [hd] at h; cases h
    | ok o =>
      rw [hd] at h
      cases hn : o.isNil with
      | true =>
        have := isNil_eq_true.mp hn
        subst this
        exact h
      | false =>
        have hne : o ≠ .null := isNil_eq_false.mp hn
        cases hk : asK o with
        | fault e => cases o <;> first | exact absurd rfl hne | (simp [hk] at h)
        | mismatch => cases o <;> first | exact absurd rfl hne | (simp [hk] at h)
        | malformed => cases o <;> first | exact absurd rfl hne | (simp [hk] at h)
        | value v =>
          cases o <;> first
            | exact absurd rfl hne
            | (simp only [hk] at h ⊢
               by_cases hlt : x.Version < sinceVersion
               · simp [hlt] at h
               · have hlt2 : ¬ x.Version < sinceVersion2 :=
                   fun h2 => hlt (Nat.lt_of_lt_of_le h2 hsv)
                 simp only [hlt, hlt2, if_false] at h ⊢
                 exact h)

theorem macParameterDict_table {x x' : XRefTable} (hv : x'.Version = x.Version)
    (ht : x'.Table = x.Table) (dict : Dict) :
    validateEmbeddedFileStreamMacParameterDict x' dict =
      validateEmbeddedFileStreamMacParameterDict x dict := by
  unfold validateEmbeddedFileStreamMacParameterDict validateIntegerEntry
    validateStreamDictEntry
  simp only [validateEntry_table _ _ hv ht]

theorem dereferenceDict_table {x x' : XRefTable} (ht : x'.Table = x.Table) (o : PDFObject) :
    x'.DereferenceDict o = x.DereferenceDict o := by
  unfold XRefTable.DereferenceDict
  rw [dereference_table ht]

theorem dereferenceArray_table {x x' : XRefTable} (ht : x'.Table = x.Table) (o : PDFObject) :
    x'.DereferenceArray o = x.DereferenceArray o := by
  unfold XRefTable.DereferenceArray
  rw [dereference_table ht]

theorem validateStreamDict_table {x x' : XRefTable} (ht : x'.Table = x.Table)
    (o : PDFObject) : validateStreamDict x' o = validateStreamDict x o := by
  unfold validateStreamDict XRefTable.DereferenceStreamDict
  rw [dereference_table ht]

theorem parameterDict_table (P : Predicates) {x x' : XRefTable} (hv : x'.Version = x.Version)
    (ht : x'.Table = x.Table) (obj : PDFObject) :
    validateEmbeddedFileStreamParameterDict P x' obj =
      validateEmbeddedFileStreamParameterDict P x obj := by
  unfold validateEmbeddedFileStreamParameterDict validateIntegerEntry validateDateEntry
    validateDictEntry validateStringEntry
  simp only [validateEntry_table _ _ hv ht, dereferenceDict_table ht,
    macParameterDict_table hv ht]

theorem embeddedFileStreamDict_table (P : Predicates) {x x' : XRefTable}
    (hv : x'.Version = x.Version) (ht : x'.Table = x.Table) (sd : Option Dict) :
    validateEmbeddedFileStreamDict P x' sd = validateEmbeddedFileStreamDict P x sd := by
  unfold validateEmbeddedFileStreamDict validateNameEntry
  simp only [validateEntry_table _ _ hv ht, parameterDict_table P hv ht]

theorem efDict_table (P : Predicates) {x x' : XRefTable} (hv : x'.Version = x.Version)
    (ht : x'.Table = x.Table) (d : Dict) :
    validateFileSpecDictEntryEFDict P x' d = validateFileSpecDictEntryEFDict P x d := by
  induction d with
  | nil => rfl
  | cons entry rest ih =>
    obtain ⟨k, obj⟩ := entry
    simp only [validateFileSpecDictEntryEFDict, validateStreamDict_table ht,
      embeddedFileStreamDict_table P hv ht, ih]

theorem filesArrayLoop_table (P : Predicates) {x x' : XRefTable} (hv : x'.Version = x.Version)
    (ht : x'.Table = x.Table) (l : List PDFObject) :
    ∀ k, validateEFDictFilesArrayLoop P x' k l = validateEFDictFilesArrayLoop P x k l := by
  induction l with
  | nil => intro k; rfl
  | cons v rest ih =>
    intro k
    simp only [validateEFDictFilesArrayLoop, dereference_table ht, validateStreamDict_table ht,
      embeddedFileStreamDict_table P hv ht, ih]

theorem rfLoop_table (P : Predicates) {x x' : XRefTable} (hv : x'.Version = x.Version)
    (ht : x'.Table = x.Table) (efDict rfDict : Dict) :
    validateFileSpecDictEntriesEFAndRFLoop P x' efDict rfDict =
      validateFileSpecDictEntriesEFAndRFLoop P x efDict rfDict := by
  induction rfDict with
  | nil => rfl
  | cons entry rest ih =>
    obtain ⟨k, val⟩ := entry
    simp only [validateFileSpecDictEntriesEFAndRFLoop, dereferenceArray_table ht,
      validateEFDictFilesArray, filesArrayLoop_table P hv ht, ih]

theorem entriesEFAndRF_table (P : Predicates) {x x' : XRefTable} (hv : x'.Version = x.Version)
    (ht : x'.Table = x.Table) (efDict rfDict : Option Dict) :
    validateFileSpecDictEntriesEFAndRF P x' efDict rfDict =
      validateFileSpecDictEntriesEFAndRF P x efDict rfDict := by
  unfold validateFileSpecDictEntriesEFAndRF
  simp only [efDict_table P hv ht, rfLoop_table P hv ht]

/-- The steps of `validateFileSpecDict` in their order. -/
theorem fileSpecDict_steps (P : Predicates) (x : XRefTable) (dict : Dict) :
    validateFileSpecDict P x dict =
      (validateNameEntry x dict "fileSpecDict" "FS" OPTIONAL V10 none >>= fun fsName =>
        validateStringEntry x dict "fileSpecDict" "F"
            (requiredF (dict.Find "DOS").isSome (dict.Find "Mac").isSome
              (dict.Find "Unix").isSome) V10
            (some (if fsName == some "URL" then P.validateURLString
              else P.validateFileSpecString)) >>= fun _ =>
          validateStringEntry x dict "fileSpecDict" "UF" OPTIONAL
              (if x.ValidationMode == ValidationMode.ValidationRelaxed then V14 else V17)
              (some P.validateFileSpecString) >>= fun _ =>
            validateStringArrayEntry x dict "fileSpecDict" "ID" OPTIONAL V11
                (some (fun arr => arr.length == 2)) >>= fun _ =>
              validateBooleanEntry x dict "fileSpecDict" "V" OPTIONAL V12 none >>= fun _ =>
                validateFileSpecDictEFAndEF P x dict "fileSpecDict" >>= fun _ =>
                  validateStringEntry x dict "fileSpecDict" "Desc" OPTIONAL
                      (if x.ValidationMode == ValidationMode.ValidationRelaxed then V10
                        else V16) none >>= fun _ =>
                    validateDictEntry x dict "fileSpecDict" "CI" OPTIONAL V17 none >>=
                      fun _ => pure ()) :=
  rfl

theorem type_find (dict : Dict) (t : String) (h : dict.Type = some t) :
    dict.Find "Type" = some (.PDFName t) := by
  unfold Dict.Type at h
  cases hf : dict.Find "Type" with
  | none => rw [hf] at h; cases h
  | some o =>
    rw [hf] at h
    cases o <;> simp at h
    rw [h]

/-- The EF, RF and Type part of a file specification dictionary: what Strict
mode accepts, Relaxed mode accepts. -/
theorem efAndEF_relaxed (P : Predicates) (xs xr : XRefTable) (hv : xr.Version = xs.Version)
    (ht : xr.Table = xs.Table) (hs : xs.ValidationMode = .ValidationStrict)
    (dict : Dict) (dictName : String)
    (h : validateFileSpecDictEFAndEF P xs dict dictName = .ok ()) :
    validateFileSpecDictEFAndEF P xr dict dictName = .ok () := by
  rw [efAndEF_unfold] at h ⊢
  obtain ⟨rf, hrf, h⟩ := (bind_eq_ok_iff _ _ _).mp h
  obtain ⟨ef, hef, h⟩ := (bind_eq_ok_iff _ _ _).mp h
  obtain ⟨ty, hty, h⟩ := (bind_eq_ok_iff _ _ _).mp h
  obtain ⟨u, hif, _⟩ := (bind_eq_ok_iff _ _ _).mp h
  have hrf2 : validateDictEntry xr dict dictName "RF" OPTIONAL V13 none = .ok rf := by
    unfold validateDictEntry at hrf ⊢
    rw [validateEntry_table _ _ hv ht]
    exact hrf
  have hef2 : validateDictEntry xr dict dictName "EF" rf.isSome V13 none = .ok ef := by
    unfold validateDictEntry at hef ⊢
    rw [validateEntry_table _ _ hv ht]
    exact hef
  have hpred : ∀ s, fileSpecTypePredicate xs s = true → fileSpecTypePredicate xr s = true := by
    intro s hp
    simp only [fileSpecTypePredicate, hs] at hp
    have : s = "Filespec" := by simpa using hp
    simp [fileSpecTypePredicate, this]
  have hty2 : validateNameEntry xr dict dictName "Type" ef.isSome V10
      (some (fileSpecTypePredicate xr)) = .ok ty := by
    unfold validateNameEntry at hty ⊢
    rw [validateEntry_table _ _ hv ht]
    exact validateEntry_relax asName "name" xs dict dictName "Type" ef.isSome V10 V10 _ _ ty
      (Nat.le_refl _) hpred hty
  rw [hrf2]
  simp only [bind_ok_eq]
  rw [hef2]
  simp only [bind_ok_eq]
  rw [hty2]
  simp only [bind_ok_eq]
  cases ef with
  | none => rfl
  | some efd =>
    simp only [Option.isSome_some, if_true] at hif ⊢
    obtain ⟨_, htype, hentries⟩ := (bind_eq_ok_iff _ _ _).mp hif
    have hT : ∃ t, dict.Type = some t := by
      unfold validateFileSpecDictType at htype
      cases hT : dict.Type with
      | none => rw [hT] at htype; cases htype
      | some t => exact ⟨t, rfl⟩
    obtain ⟨t, hT⟩ := hT
    have hfind := type_find dict t hT
    have ht1 : t = "Filespec" := by
      unfold validateNameEntry at hty
      rw [validateEntry_value asName "name" xs dict dictName "Type" _ V10 _ (.PDFName t)
        (.PDFName t) t hfind rfl rfl rfl] at hty
      have hp : fileSpecTypePredicate xs t = true := by
        by_contra hn
        simp [V10, hn] at hty
      simp only [fileSpecTypePredicate, hs] at hp
      simpa using hp
    have htype2 := (typeEntry_ok xr dict dictName true t hfind (Or.inl ht1)).2
    rw [htype2]
    simp only [bind_ok_eq]
    rw [entriesEFAndRF_table P hv ht, hentries]
    rfl

/-- C31. Relaxed mode only relaxes `validateFileSpecDict`: a dictionary that
is accepted in Strict mode is accepted in Relaxed mode, for the same document
version and the same objects. The minimum versions of UF and Desc in Relaxed
mode, 1.4 and 1.0, are not above those of Strict mode, 1.7 and 1.6, and a Type
name that the predicate of Strict mode accepts is accepted by the predicate of
Relaxed mode. The predicates and the entry validators have no access to the
mode. -/
theorem C31_relaxed_only_relaxes (P : Predicates) (version : PDFVersion) (pageCount : Int)
    (table : Nat → Nat → Except String PDFObject) (dict : Dict) :
    (validateFileSpecDict P ⟨version, .ValidationStrict, pageCount, table⟩ dict = .ok () →
      validateFileSpecDict P ⟨version, .ValidationRelaxed, pageCount, table⟩ dict = .ok ()) ∧
    (V14 ≤ V17 ∧ V10 ≤ V16) ∧
    (∀ s, fileSpecTypePredicate ⟨version, .ValidationStrict, pageCount, table⟩ s = true →
      fileSpecTypePredicate ⟨version, .ValidationRelaxed, pageCount, table⟩ s = true) := by
  refine ⟨?_, ⟨by decide, by decide⟩, ?_⟩
  · intro h
    rw [fileSpecDict_steps] at h ⊢
    obtain ⟨fsName, hfs, h⟩ := (bind_eq_ok_iff _ _ _).mp h
    obtain ⟨rF, hF, h⟩ := (bind_eq_ok_iff _ _ _).mp h
    obtain ⟨rUF, hUF, h⟩ := (bind_eq_ok_iff _ _ _).mp h
    obtain ⟨rID, hID, h⟩ := (bind_eq_ok_iff _ _ _).mp h
    obtain ⟨rV, hV, h⟩ := (bind_eq_ok_iff _ _ _).mp h
    obtain ⟨_, hEF, h⟩ := (bind_eq_ok_iff _ _ _).mp h
    obtain ⟨rDesc, hDesc, h⟩ := (bind_eq_ok_iff _ _ _).mp h
    obtain ⟨rCI, hCI, _⟩ := (bind_eq_ok_iff _ _ _).mp h
    have hv : (XRefTable.mk version .ValidationRelaxed pageCount table).Version =
        (XRefTable.mk version .ValidationStrict pageCount table).Version := rfl
    have ht : (XRefTable.mk version .ValidationRelaxed pageCount table).Table =
        (XRefTable.mk version .ValidationStrict pageCount table).Table := rfl
    have hfs2 : validateNameEntry ⟨version, .ValidationRelaxed, pageCount, table⟩ dict
        "fileSpecDict" "FS" OPTIONAL V10 none = .ok fsName := by
      unfold validateNameEntry at hfs ⊢
      rw [validateEntry_table _ _ hv ht]
      exact hfs
    have hF2 : validateStringEntry ⟨version, .ValidationRelaxed, pageCount, table⟩ dict
        "fileSpecDict" "F"
        (requiredF (dict.Find "DOS").isSome (dict.Find "Mac").isSome
          (dict.Find "Unix").isSome) V10
        (some (if fsName == some "URL" then P.validateURLString
          else P.validateFileSpecString)) = .ok rF := by
      unfold validateStringEntry at hF ⊢
      rw [validateEntry_table _ _ hv ht]
      exact hF
    have hUF2 : validateStringEntry ⟨version, .ValidationRelaxed, pageCount, table⟩ dict
        "fileSpecDict" "UF" OPTIONAL V14 (some P.validateFileSpecString) = .ok rUF := by
      unfold validateStringEntry at hUF ⊢
      rw [validateEntry_table _ _ hv ht]
      exact validateEntry_relax asString "string" _ dict "fileSpecDict" "UF" OPTIONAL V17 V14
        _ _ rUF (by decide) (fun _ hp => hp) hUF
    have hID2 : validateStringArrayEntry ⟨version, .ValidationRelaxed, pageCount, table⟩ dict
        "fileSpecDict" "ID" OPTIONAL V11 (some (fun arr => arr.length == 2)) = .ok rID := by
      unfold validateStringArrayEntry at hID ⊢
      rw [validateEntry_table _ _ hv ht, asStringArray_table ht]
      exact hID
    have hV2 : validateBooleanEntry ⟨version, .ValidationRelaxed, pageCount, table⟩ dict
        "fileSpecDict" "V" OPTIONAL V12 none = .ok rV := by
      unfold validateBooleanEntry at hV ⊢
      rw [validateEntry_table _ _ hv ht]
      exact hV
    have hEF2 := efAndEF_relaxed P ⟨version, .ValidationStrict, pageCount, table⟩
      ⟨version, .ValidationRelaxed, pageCount, table⟩ hv ht rfl dict "fileSpecDict" hEF
    have hDesc2 : validateStringEntry ⟨version, .ValidationRelaxed, pageCount, table⟩ dict
        "fileSpecDict" "Desc" OPTIONAL V10 none = .ok rDesc := by
      unfold validateStringEntry at hDesc ⊢
      rw [validateEntry_table _ _ hv ht]
      exact validateEntry_lower asString "string" _ dict "fileSpecDict" "Desc" OPTIONAL V16 V10
        rDesc (by decide) hDesc
    have hCI2 : validateDictEntry ⟨version, .ValidationRelaxed, pageCount, table⟩ dict
        "fileSpecDict" "CI" OPTIONAL V17 none = .ok rCI := by
      unfold validateDictEntry at hCI ⊢
      rw [validateEntry_table _ _ hv ht]
      exact hCI
    rw [hfs2]
    simp only [bind_ok_eq]
    rw [hF2]
    simp only [bind_ok_eq]
    rw [show (if (XRefTable.mk version .ValidationRelaxed pageCount table).ValidationMode ==
      ValidationMode.ValidationRelaxed then V14 else V17) = V14 from rfl, hUF2]
    simp only [bind_ok_eq]
    rw [hID2]
    simp only [bind_ok_eq]
    rw [hV2]
    simp only [bind_ok_eq]
    rw [hEF2]
    simp only [bind_ok_eq]
    rw [show (if (XRefTable.mk version .ValidationRelaxed pageCount table).ValidationMode ==
      ValidationMode.ValidationRelaxed then V10 else V16) = V10 from rfl, hDesc2]
    simp only [bind_ok_eq]
    rw [hCI2]
    rfl
  · intro s hp
    simp only [fileSpecTypePredicate] at hp
    have : s = "Filespec" := by simpa using hp
    simp [fileSpecTypePredicate, this]

/-- C31 at a dictionary with F and UF in a document of version 1.7. -/
theorem C31_relaxed_only_relaxes_witness :
    validateFileSpecDict acceptAll (emptyTable V17 .ValidationStrict) unicodeFileSpec = .ok () ∧
    validateFileSpecDict acceptAll (emptyTable V17 .ValidationRelaxed) unicodeFileSpec =
      .ok () :=
  ⟨rfl, (C31_relaxed_only_relaxes acceptAll V17 0 (fun _ _ => .ok .null) unicodeFileSpec).1
    rfl⟩

/-! ### The order in which a dictionary is visited -/

/-- A loop that runs its body on each member in turn and stops at the first
failure succeeds exactly when the body succeeds on every member. -/
theorem loop_ok_iff {α : Type} (f : List α → Except Err Unit) (hnil : f [] = .ok ())
    (hcons : ∀ a l, f (a :: l) = f [a] >>= fun _ => f l) (l : List α) :
    f l = .ok () ↔ ∀ a ∈ l, f [a] = .ok () := by
  induction l with
  | nil => simp [hnil]
  | cons a rest ih =>
    rw [hcons a rest]
    constructor
    · intro h
      obtain ⟨_, h1, h2⟩ := (bind_eq_ok_iff _ _ _).mp h
      intro b hb
      rcases List.mem_cons.mp hb with rfl | hb
      · exact h1
      · exact ih.mp h2 b hb
    · intro h
      rw [h a (List.mem_cons_self _ _)]
      exact ih.mpr (fun b hb => h b (List.mem_cons_of_mem _ hb))

theorem fails_iff_not_ok (r : Except Err Unit) : Fails r ↔ r ≠ .ok () := by
  cases r with
  | error e => simp [Fails]
  | ok u => simp [Fails]

/-- Whether such a loop fails does not depend on the order of the members. -/
theorem loop_fails_perm {α : Type} (f : List α → Except Err Unit) (hnil : f [] = .ok ())
    (hcons : ∀ a l, f (a :: l) = f [a] >>= fun _ => f l) {l l2 : List α}
    (hp : l.Perm l2) : Fails (f l) ↔ Fails (f l2) := by
  rw [fails_iff_not_ok, fails_iff_not_ok, ne_eq, ne_eq, loop_ok_iff f hnil hcons l,
    loop_ok_iff f hnil hcons l2]
  constructor
  · intro h h2
    exact h (fun a ha => h2 a (hp.mem_iff.mp ha))
  · intro h h2
    exact h (fun a ha => h2 a (hp.mem_iff.mpr ha))

theorem efDict_cons (P : Predicates) (x : XRefTable) (entry : String × PDFObject)
    (rest : Dict) :
    validateFileSpecDictEntryEFDict P x (entry :: rest) =
      validateFileSpecDictEntryEFDict P x [entry] >>= fun _ =>
        validateFileSpecDictEntryEFDict P x rest := by
  obtain ⟨k, obj⟩ := entry
  simp only [validateFileSpecDictEntryEFDict]
  cases validateFileSpecDictEntriesEFAndRFKeys k with
  | false => rfl
  | true =>
    simp only [Bool.not_true, Bool.false_eq_true, if_false, pure_eq_ok, bind_ok_eq]
    cases validateStreamDict x obj with
    | error e => rfl
    | ok sd =>
      simp only [bind_ok_eq]
      cases validateEmbeddedFileStreamDict P x sd with
      | error e => rfl
      | ok u => rfl

theorem rfLoop_cons (P : Predicates) (x : XRefTable) (efDict : Dict)
    (entry : String × PDFObject) (rest : Dict) :
    validateFileSpecDictEntriesEFAndRFLoop P x efDict (entry :: rest) =
      validateFileSpecDictEntriesEFAndRFLoop P x efDict [entry] >>= fun _ =>
        validateFileSpecDictEntriesEFAndRFLoop P x efDict rest := by
  obtain ⟨k, val⟩ := entry
  simp only [validateFileSpecDictEntriesEFAndRFLoop]
  cases (efDict.Find k).isNone with
  | true => rfl
  | false =>
    simp only [Bool.false_eq_true, if_false, pure_eq_ok, bind_ok_eq]
    cases x.DereferenceArray val with
    | error e => rfl
    | ok arr =>
      simp only [bind_ok_eq]
      cases arr with
      | none => rfl
      | some arr =>
        dsimp only
        cases validateEFDictFilesArray P x arr with
        | error e => rfl
        | ok u => rfl

theorem resourceDictLoop_cons (E : Collaborators) (x : XRefTable) (dict : Dict) (k : String)
    (rest : List String) :
    validateResourceDictLoop E x dict (k :: rest) =
      validateResourceDictLoop E x dict [k] >>= fun _ =>
        validateResourceDictLoop E x dict rest := by
  simp only [validateResourceDictLoop]
  cases List.lookup k (resourceCategories E) with
  | none => rfl
  | some v =>
    dsimp only
    cases dict.Find k with
    | none => rfl
    | some obj =>
      dsimp only
      cases v.1 x obj v.2 with
      | error e => rfl
      | ok u => rfl

theorem fails_seq_iff (a b : Except Err Unit) :
    Fails (a >>= fun _ => b) ↔ Fails a ∨ Fails b := by
  cases a with
  | error e => simp [Fails]
  | ok u => simp [Fails]

/-- Whether a key is found does not depend on the order of the entries. -/
theorem find_isNone_perm {ef ef2 : Dict} (hp : ef.Perm ef2) (k : String) :
    (ef.Find k).isNone = (ef2.Find k).isNone := by
  rw [Bool.eq_iff_iff]
  simp only [Option.isNone_iff_eq_none, Dict.Find, List.lookup_eq_none_iff]
  constructor
  · intro h p hp2
    exact h p (hp.mem_iff.mpr hp2)
  · intro h p hp1
    exact h p (hp.mem_iff.mp hp1)

theorem rfLoop_efPerm (P : Predicates) (x : XRefTable) {ef ef2 : Dict} (hp : ef.Perm ef2)
    (rf : Dict) :
    validateFileSpecDictEntriesEFAndRFLoop P x ef rf =
      validateFileSpecDictEntriesEFAndRFLoop P x ef2 rf := by
  induction rf with
  | nil => rfl
  | cons entry rest ih =>
    obtain ⟨k, val⟩ := entry
    simp only [validateFileSpecDictEntriesEFAndRFLoop, find_isNone_perm hp k, ih]

theorem resourceDictLoop_categories (E E2 : Collaborators) (x : XRefTable) (dict : Dict)
    (hc : resourceCategories E2 = resourceCategories E) (order : List String) :
    validateResourceDictLoop E2 x dict order = validateResourceDictLoop E x dict order := by
  induction order with
  | nil => rfl
  | cons k rest ih =>
    simp only [validateResourceDictLoop, hc, ih]

/-- C33. Whether the validation of an EF and an RF dictionary succeeds does not
depend on the order in which their entries are visited: for every
rearrangement of the entries `validateFileSpecDictEntryEFDict` and
`validateFileSpecDictEntriesEFAndRF` fail on the one order exactly when they
fail on the other. The same holds for `validateResourceDict` and the order in
which the resource categories are visited, where the result on success is the
same as well. -/
theorem C33_order_independent (P : Predicates) (x : XRefTable) :
    (∀ d d2 : Dict, d.Perm d2 →
      (Fails (validateFileSpecDictEntryEFDict P x d) ↔
        Fails (validateFileSpecDictEntryEFDict P x d2))) ∧
    (∀ ef ef2 rf rf2 : Dict, ef.Perm ef2 → rf.Perm rf2 →
      (Fails (validateFileSpecDictEntriesEFAndRF P x (some ef) (some rf)) ↔
        Fails (validateFileSpecDictEntriesEFAndRF P x (some ef2) (some rf2))) ∧
      (Fails (validateFileSpecDictEntriesEFAndRF P x (some ef) none) ↔
        Fails (validateFileSpecDictEntriesEFAndRF P x (some ef2) none))) ∧
    (∀ (E E2 : Collaborators) (obj : PDFObject),
      resourceCategories E2 = resourceCategories E →
      E2.resourceOrder.Perm E.resourceOrder →
      (Fails (validateResourceDict E x obj) ↔ Fails (validateResourceDict E2 x obj)) ∧
      ∀ b, validateResourceDict E x obj = .ok b ↔ validateResourceDict E2 x obj = .ok b) := by
  have hEF : ∀ d d2 : Dict, d.Perm d2 →
      (Fails (validateFileSpecDictEntryEFDict P x d) ↔
        Fails (validateFileSpecDictEntryEFDict P x d2)) :=
    fun d d2 hp => loop_fails_perm (validateFileSpecDictEntryEFDict P x) rfl
      (efDict_cons P x) hp
  refine ⟨hEF, ?_, ?_⟩
  · intro ef ef2 rf rf2 hef hrf
    have h1 : ∀ (a : Dict) (b : Dict),
        validateFileSpecDictEntriesEFAndRF P x (some a) (some b) =
          validateFileSpecDictEntryEFDict P x a >>= fun _ =>
            validateFileSpecDictEntriesEFAndRFLoop P x a b := fun _ _ => rfl
    have h2 : ∀ a : Dict,
        validateFileSpecDictEntriesEFAndRF P x (some a) none =
          validateFileSpecDictEntryEFDict P x a >>= fun _ => pure () := fun _ => rfl
    refine ⟨?_, ?_⟩
    · rw [h1, h1, fails_seq_iff, fails_seq_iff, hEF ef ef2 hef, rfLoop_efPerm P x hef rf,
        loop_fails_perm (validateFileSpecDictEntriesEFAndRFLoop P x ef2) rfl
          (rfLoop_cons P x ef2) hrf]
    · rw [h2, h2, bind_pure_unit, bind_pure_unit]
      exact hEF ef ef2 hef
  · intro E E2 obj hc hp
    have hok : ∀ dict, validateResourceDictLoop E x dict E.resourceOrder = .ok () ↔
        validateResourceDictLoop E2 x dict E2.resourceOrder = .ok () := by
      intro dict
      rw [resourceDictLoop_categories E E2 x dict hc,
        loop_ok_iff (validateResourceDictLoop E x dict) rfl (resourceDictLoop_cons E x dict),
        loop_ok_iff (validateResourceDictLoop E x dict) rfl (resourceDictLoop_cons E x dict)]
      constructor
      · intro h k hk
        exact h k (hp.mem_iff.mp hk)
      · intro h k hk
        exact h k (hp.mem_iff.mpr hk)
    have hres : ∀ b, validateResourceDict E x obj = .ok b ↔
        validateResourceDict E2 x obj = .ok b := by
      intro b
      unfold validateResourceDict
      cases x.DereferenceDict obj with
      | error e => simp
      | ok od =>
        cases od with
        | none => simp
        | some dict =>
          dsimp only
          have := hok dict
          cases h1 : validateResourceDictLoop E x dict E.resourceOrder with
          | error e =>
            cases h2 : validateResourceDictLoop E2 x dict E2.resourceOrder with
            | error e2 => simp
            | ok u => rw [h1, h2] at this; simp at this
          | ok u =>
            cases h2 : validateResourceDictLoop E2 x dict E2.resourceOrder with
            | error e2 => rw [h1, h2] at this; simp at this
            | ok u2 => rfl
    refine ⟨?_, hres⟩
    cases h1 : validateResourceDict E x obj with
    | error e =>
      cases h2 : validateResourceDict E2 x obj with
      | error e2 => simp [Fails]
      | ok b => exact absurd ((hres b).mpr h2) (by rw [h1]; simp)
    | ok b =>
      rw [(hres b).mp h1]

/-- C33 at an EF dictionary with two keys outside the set: it fails in both
orders, and the failure reported is that of the key visited first. And at an
empty resource dictionary with the categories visited in the reverse order. -/
theorem C33_order_independent_witness :
    twoBadKeys.Perm twoBadKeysSwapped ∧
    Fails (validateFileSpecDictEntryEFDict acceptAll (emptyTable V17 .ValidationStrict)
      twoBadKeysSwapped) ∧
    validateFileSpecDictEntryEFDict acceptAll (emptyTable V17 .ValidationStrict) twoBadKeys =
      .error (.errorf "validateFileSpecEntriesEFAndRF: invalid key: %s" ["A"]) ∧
    validateFileSpecDictEntryEFDict acceptAll (emptyTable V17 .ValidationStrict)
      twoBadKeysSwapped =
      .error (.errorf "validateFileSpecEntriesEFAndRF: invalid key: %s" ["B"]) ∧
    validateResourceDict
      (acceptingCollaborators.withOrder acceptingCollaborators.resourceOrder.reverse)
      (emptyTable V17 .ValidationStrict) (.PDFDict []) = .ok true :=
  ⟨List.Perm.swap _ _ _,
    ((C33_order_independent acceptAll (emptyTable V17 .ValidationStrict)).1 twoBadKeys
      twoBadKeysSwapped (List.Perm.swap _ _ _)).mp ⟨_, rfl⟩,
    rfl, rfl,
    (((C33_order_independent acceptAll (emptyTable V17 .ValidationStrict)).2.2
      acceptingCollaborators
      (acceptingCollaborators.withOrder acceptingCollaborators.resourceOrder.reverse)
      (.PDFDict []) rfl (List.reverse_perm _)).2 true).mp rfl⟩

/-! ### Termination of the walk -/

theorem depth_same {x x' : XRefTable} (h : sameDocument x x') :
    ∀ depth dict, depthAtMost x' depth dict = depthAtMost x depth dict := by
  intro depth
  induction depth with
  | zero => intro dict; rfl
  | succ depth ih =>
    intro dict
    simp only [depthAtMost, dereferenceDict_same h, ih]

/-- The loop over the kids ends when the recursive call ends on every kid of
Type Pages. -/
theorem kids_isSome (recurse : XRefTable → Dict → Nat → Nat → Bool → Bool → Walk)
    (page : PageValidator) (hr hm : Bool) (x0 : XRefTable)
    (hsame : ∀ x d n g x' r, recurse x d n g hr hm = some (x', r) → sameDocument x x')
    (kids : List PDFObject) :
    (∀ obj ∈ kids, ∀ n g d x, obj = .PDFIndirectRef n g → sameDocument x0 x →
      x.DereferenceDict obj = .ok (some d) → d.Type = some "Pages" →
      (recurse x d n g hr hm).isSome = true) →
    ∀ x, sameDocument x0 x →
      (validatePagesDictKids recurse page hr hm x kids).isSome = true := by
  induction kids with
  | nil => intro _ x _; rfl
  | cons obj rest ih =>
    intro hrec x hx
    have ih2 := ih (fun o ho => hrec o (List.mem_cons_of_mem _ ho))
    cases hnil : obj.isNil with
    | true =>
      have := isNil_eq_true.mp hnil
      subst this
      rw [kids_nil_head]
      exact ih2 x hx
    | false =>
      obtain ⟨e, he⟩ | hgood : (∃ e, validatePagesDictKids recurse page hr hm x (obj :: rest) =
          some (x, .error e)) ∨ ∃ n g d, obj = .PDFIndirectRef n g ∧
            x.DereferenceDict obj = .ok (some d) ∧ (d.Type = some "Pages" ∨
              d.Type = some "Page") := by
        by_cases hbad : badKid x obj
        · exact Or.inl (kids_bad_head recurse page hr hm x obj rest hbad)
        · right
          unfold badKid at hbad
          simp only [hnil, true_and, not_forall] at hbad
          obtain ⟨n, g, d, ho, hd, hnot⟩ := hbad
          refine ⟨n, g, d, ho, hd, ?_⟩
          by_contra hc
          exact hnot ⟨fun h1 => hc (Or.inl h1), fun h2 => hc (Or.inr h2)⟩
      · rw [he]; rfl
      · obtain ⟨n, g, d, rfl, hd, ht | ht⟩ := hgood
        · rw [kids_pages_head _ _ _ _ _ _ _ _ d hd ht]
          have hsome := hrec _ (List.mem_cons_self _ _) n g d x rfl hx hd ht
          cases hrc : recurse x d n g hr hm with
          | none => rw [hrc] at hsome; cases hsome
          | some rr =>
            obtain ⟨x1, v⟩ := rr
            cases v with
            | error e => rfl
            | ok _ => exact ih2 x1 (sameDocument_trans hx (hsame x d n g x1 _ hrc))
        · rw [kids_page_head _ _ _ _ _ _ _ _ d hd ht]
          cases page x d n g hr hm with
          | error e => rfl
          | ok _ => exact ih2 x hx

/-- A walk of a tree of at most `depth` levels ends within recursion depth
`depth`, and so within every greater one. -/
theorem walk_isSome (E : Collaborators) (page : PageValidator) :
    ∀ depth x dict, depthAtMost x depth dict = true → ∀ fuel, depth ≤ fuel →
      ∀ n g hr hm, (validatePagesDict E page fuel x dict n g hr hm).isSome = true := by
  intro depth
  induction depth with
  | zero => intro x dict h; cases h
  | succ depth ih =>
    intro x dict hdepth fuel hfuel n g hr hm
    obtain ⟨f, rfl⟩ : ∃ f, fuel = f + 1 := ⟨fuel - 1, by omega⟩
    have hf : depth ≤ f := by omega
    rw [pagesDict_succ]
    have hs := generalEntries_same E x dict
    rcases hge : validatePagesDictGeneralEntries E x dict with ⟨x1, r1⟩
    rw [hge] at hs
    cases r1 with
    | error e => rfl
    | ok flags =>
      obtain ⟨dr, dm⟩ := flags
      dsimp only
      cases hk : dict.PDFArrayEntry "Kids" with
      | none => rfl
      | some kids =>
        dsimp only
        simp only [depthAtMost, hk, List.all_eq_true] at hdepth
        refine kids_isSome _ page _ _ x1
          (fun y d n g y' r => walk_same E page f y d n g _ _ y' r) kids ?_ x1
          (sameDocument_refl x1)
        intro obj hobj n2 g2 d y ho hy hd ht
        subst ho
        have hkid := hdepth _ hobj
        have hyx : sameDocument x y := sameDocument_trans hs hy
        rw [dereferenceDict_same hyx] at hd
        simp only [hd, ht, beq_self_eq_true, if_true] at hkid
        exact ih y d (by rw [depth_same hyx]; exact hkid) f hf n2 g2 _ _

/-- At a bad kid the loop does not reach the recursive call. -/
theorem kids_bad_indep (recurse recurse2 : XRefTable → Dict → Nat → Nat → Bool → Bool → Walk)
    (page : PageValidator) (hr hm : Bool) (x : XRefTable) (obj : PDFObject)
    (rest : List PDFObject) (hbad : badKid x obj) :
    validatePagesDictKids recurse page hr hm x (obj :: rest) =
      validatePagesDictKids recurse2 page hr hm x (obj :: rest) := by
  obtain ⟨hnil, hkid⟩ := hbad
  by_cases href : ∃ n g, obj = .PDFIndirectRef n g
  · obtain ⟨n, g, rfl⟩ := href
    cases hd : x.DereferenceDict (.PDFIndirectRef n g) with
    | error e =>
      rw [kids_unresolved_head recurse page hr hm x n g rest e hd,
        kids_unresolved_head recurse2 page hr hm x n g rest e hd]
    | ok od =>
      cases od with
      | none =>
        rw [kids_null_head recurse page hr hm x n g rest hd,
          kids_null_head recurse2 page hr hm x n g rest hd]
      | some d =>
        obtain ⟨h1, h2⟩ := hkid n g d rfl hd
        cases ht : d.Type with
        | none =>
          rw [kids_untyped_head recurse page hr hm x n g rest d hd ht,
            kids_untyped_head recurse2 page hr hm x n g rest d hd ht]
        | some t =>
          have ht1 : t ≠ "Pages" := by rintro rfl; exact h1 ht
          have ht2 : t ≠ "Page" := by rintro rfl; exact h2 ht
          rw [kids_other_head recurse page hr hm x n g rest d t hd ht ht1 ht2,
            kids_other_head recurse2 page hr hm x n g rest d t hd ht ht1 ht2]
  · have hdirect : ∀ n g, obj ≠ .PDFIndirectRef n g := fun n g h => href ⟨n, g, h⟩
    rw [kids_direct_head recurse page hr hm x obj rest hnil hdirect,
      kids_direct_head recurse2 page hr hm x obj rest hnil hdirect]

/-- The loop over the kids gives the same result with a recursive call that
gives the same results where the first one ends. -/
theorem kids_mono (recurse recurse2 : XRefTable → Dict → Nat → Nat → Bool → Bool → Walk)
    (page : PageValidator) (hr hm : Bool)
    (hrec : ∀ x d n g r, recurse x d n g hr hm = some r → recurse2 x d n g hr hm = some r)
    (kids : List PDFObject) :
    ∀ x r, validatePagesDictKids recurse page hr hm x kids = some r →
      validatePagesDictKids recurse2 page hr hm x kids = some r := by
  induction kids with
  | nil => intro x r h; exact h
  | cons obj rest ih =>
    intro x r h
    cases hnil : obj.isNil with
    | true =>
      have := isNil_eq_true.mp hnil
      subst this
      rw [kids_nil_head] at h ⊢
      exact ih x r h
    | false =>
      by_cases hbad : badKid x obj
      · rw [← kids_bad_indep recurse recurse2 page hr hm x obj rest hbad]
        exact h
      · unfold badKid at hbad
        simp only [hnil, true_and, not_forall] at hbad
        obtain ⟨n, g, d, rfl, hd, hnot⟩ := hbad
        have ht : d.Type = some "Pages" ∨ d.Type = some "Page" := by
          by_contra hc
          exact hnot ⟨fun h1 => hc (Or.inl h1), fun h2 => hc (Or.inr h2)⟩
        rcases ht with ht | ht
        · rw [kids_pages_head _ _ _ _ _ _ _ _ d hd ht] at h ⊢
          cases hrc : recurse x d n g hr hm with
          | none => rw [hrc] at h; cases h
          | some rr =>
            rw [hrec x d n g rr hrc]
            rw [hrc] at h
            obtain ⟨x1, v⟩ := rr
            cases v with
            | error e => exact h
            | ok _ => exact ih x1 r h
        · rw [kids_page_head _ _ _ _ _ _ _ _ d hd ht] at h ⊢
          cases hp : page x d n g hr hm with
          | error e => rw [hp] at h; exact h
          | ok _ => rw [hp] at h; exact ih x r h

/-- A walk that ends within a recursion depth gives the same result within
every greater one. -/
theorem walk_mono (E : Collaborators) (page : PageValidator) :
    ∀ fuel x dict n g hr hm r, validatePagesDict E page fuel x dict n g hr hm = some r →
      validatePagesDict E page (fuel + 1) x dict n g hr hm = some r := by
  intro fuel
  induction fuel with
  | zero => intro x dict n g hr hm r h; simp [validatePagesDict] at h
  | succ fuel ih =>
    intro x dict n g hr hm r h
    rw [pagesDict_succ] at h ⊢
    rcases hge : validatePagesDictGeneralEntries E x dict with ⟨x1, r1⟩
    rw [hge] at h
    cases r1 with
    | error e => exact h
    | ok flags =>
      obtain ⟨dr, dm⟩ := flags
      dsimp only at h ⊢
      cases hk : dict.PDFArrayEntry "Kids" with
      | none => rw [hk] at h; exact h
      | some kids =>
        rw [hk] at h
        dsimp only at h ⊢
        exact kids_mono _ _ page _ _ (fun y d n g r hr => ih y d n g _ _ r hr) kids x1 r h

theorem walk_mono_le (E : Collaborators) (page : PageValidator) (fuel : Nat) :
    ∀ fuel2, fuel ≤ fuel2 → ∀ x dict n g hr hm r,
      validatePagesDict E page fuel x dict n g hr hm = some r →
      validatePagesDict E page fuel2 x dict n g hr hm = some r := by
  intro fuel2 hle
  induction hle with
  | refl => intro x dict n g hr hm r h; exact h
  | step _ ih =>
    intro x dict n g hr hm r h
    exact walk_mono E page _ x dict n g hr hm r (ih x dict n g hr hm r h)

theorem cyclic_entries (E : Collaborators) (pageCount : Int) :
    validatePagesDictGeneralEntries E (cyclicTable pageCount) cyclicNode =
      (cyclicTable (counterAfter pageCount 1), .ok (false, false)) := by
  have htable : (if (cyclicTable pageCount).PageCount == 0 then
      (cyclicTable pageCount).setPageCount 1 else cyclicTable pageCount) =
      cyclicTable (counterAfter pageCount 1) := by
    by_cases h : pageCount = 0
    · simp [cyclicTable, XRefTable.setPageCount, counterAfter, h]
    · simp [cyclicTable, XRefTable.setPageCount, counterAfter, h]
  have hres : validateResources E (cyclicTable pageCount) cyclicNode =
      (cyclicTable (counterAfter pageCount 1), .ok false) := by
    unfold validateResources
    simp only [show Dict.IntEntry cyclicNode "Count" = some 1 from rfl, htable,
      show Dict.Find cyclicNode "Resources" = none from rfl]
  unfold validatePagesDictGeneralEntries
  rw [hres]
  rfl

/-- The walk of the node that refers to itself ends within no recursion depth. -/
theorem cyclic_walk (E : Collaborators) (page : PageValidator) :
    ∀ fuel pageCount n g hr hm,
      validatePagesDict E page fuel (cyclicTable pageCount) cyclicNode n g hr hm = none := by
  intro fuel
  induction fuel with
  | zero => intro pageCount n g hr hm; rfl
  | succ fuel ih =>
    intro pageCount n g hr hm
    rw [pagesDict_succ, cyclic_entries]
    dsimp only
    rw [show Dict.PDFArrayEntry cyclicNode "Kids" = some [.PDFIndirectRef 1 0] from rfl]
    dsimp only
    have hd : (cyclicTable (counterAfter pageCount 1)).DereferenceDict (.PDFIndirectRef 1 0) =
        .ok (some cyclicNode) := rfl
    rw [kids_pages_head _ _ _ _ _ 1 0 _ cyclicNode hd rfl, ih]

theorem cyclic_depth : ∀ depth pageCount, depthAtMost (cyclicTable pageCount) depth
    cyclicNode = false := by
  intro depth
  induction depth with
  | zero => intro pageCount; rfl
  | succ depth ih =>
    intro pageCount
    have hd : (cyclicTable pageCount).DereferenceDict (.PDFIndirectRef 1 0) =
        .ok (some cyclicNode) := rfl
    simp only [depthAtMost, show Dict.PDFArrayEntry cyclicNode "Kids" =
      some [.PDFIndirectRef 1 0] from rfl, List.all_cons, List.all_nil, hd,
      show Dict.Type cyclicNode = some "Pages" from rfl, beq_self_eq_true, if_true, ih,
      Bool.and_true]

/-- C34. Termination of the page tree walk. `validatePagesDict` recurses through
the kids of Type Pages only. On a tree of Pages nodes of at most `depth` levels
the walk ends within recursion depth `depth`, and it gives the same result
within every greater recursion depth. On the node whose Kids array refers to
the node itself, which has at most `depth` levels for no `depth`, the walk ends
within no recursion depth. -/
theorem C34_walk_terminates (E : Collaborators) (page : PageValidator) :
    (∀ x depth dict, depthAtMost x depth dict = true → ∀ fuel, depth ≤ fuel →
      ∀ objNumber genNumber hr hm,
        ∃ r, validatePagesDict E page depth x dict objNumber genNumber hr hm = some r ∧
          validatePagesDict E page fuel x dict objNumber genNumber hr hm = some r) ∧
    (∀ fuel pageCount objNumber genNumber hr hm,
      validatePagesDict E page fuel (cyclicTable pageCount) cyclicNode objNumber genNumber
        hr hm = none) ∧
    (∀ depth pageCount, depthAtMost (cyclicTable pageCount) depth cyclicNode = false) := by
  refine ⟨?_, cyclic_walk E page, cyclic_depth⟩
  intro x depth dict hdepth fuel hfuel objNumber genNumber hr hm
  have hsome := walk_isSome E page depth x dict hdepth depth (Nat.le_refl _) objNumber
    genNumber hr hm
  cases hw : validatePagesDict E page depth x dict objNumber genNumber hr hm with
  | none => rw [hw] at hsome; cases hsome
  | some r =>
    exact ⟨r, rfl, walk_mono_le E page depth fuel hfuel x dict objNumber genNumber hr hm r hw⟩

/-- C34 at the tree of root 1, interior node 2 and leaf 3, which has two levels
of Pages nodes: the walk ends within recursion depth 2 and gives the same
result within recursion depth 5. -/
theorem C34_walk_terminates_witness :
    depthAtMost orphanTable 2 orphanRootNode = true ∧
    ∃ r, validatePagesDict acceptingCollaborators
        (validatePageDict acceptAll acceptingCollaborators) 2 orphanTable orphanRootNode 1 0
        false false = some r ∧
      validatePagesDict acceptingCollaborators
        (validatePageDict acceptAll acceptingCollaborators) 5 orphanTable orphanRootNode 1 0
        false false = some r :=
  ⟨rfl, (C34_walk_terminates acceptingCollaborators
    (validatePageDict acceptAll acceptingCollaborators)).1 orphanTable 2 orphanRootNode rfl 5
    (by decide) 1 0 false false⟩

/-! ### Runs that end in the nil dictionary of a Params entry -/

/-- C4. An RF dictionary with the key X beside an EF dictionary without it,
whose F entry is an embedded file stream with a Params entry that resolves to
Null: `validateFileSpecDictEntriesEFAndRF` returns no error, the run ends in
the read through the nil dictionary during the pass over EF, before the key
test of the RF loop; so does `validateFileSpecDict` on a file specification
dictionary with these entries. With the F stream without Params the error of
the key test is returned. -/
theorem C4_nil_dictionary_before_key_test :
    Dict.Find nullParamsEF "X" = none ∧
    (Dict.Find unpairedRF "X").isSome = true ∧
    validateFileSpecDictEntriesEFAndRF acceptAll (paramsTable V17 .ValidationStrict)
      (some nullParamsEF) (some unpairedRF) = .error .nilDereference ∧
    validateFileSpecDict acceptAll (paramsTable V17 .ValidationStrict)
      (unpairedFileSpec nullParamsEF) = .error .nilDereference ∧
    validateFileSpecDictEntriesEFAndRF acceptAll (paramsTable V17 .ValidationStrict)
      (some plainEF) (some unpairedRF) =
      .error (.errorf
        "validateFileSpecEntriesEFAndRF: rfDict entry=%s missing corresponding efDict entry\n"
        ["X"]) :=
  ⟨rfl, rfl, rfl, rfl, rfl⟩

/-- C7. The allowed EF keys are exactly F, UF, DOS, Mac and Unix. On the EF
dictionary with the key F, visited first, whose stream has a Params entry that
resolves to Null, and the key Thumb, `validateFileSpecDictEntryEFDict` returns
no error: the run ends in the read through the nil dictionary at F, before the
key Thumb is tested. With Thumb visited first, and with an F stream without
Params, the error of the key test is returned. -/
theorem C7_nil_dictionary_before_invalid_key :
    (∀ k : String, validateFileSpecDictEntriesEFAndRFKeys k = true ↔
      (k = "F" ∨ k = "UF" ∨ k = "DOS" ∨ k = "Mac" ∨ k = "Unix")) ∧
    validateFileSpecDictEntriesEFAndRFKeys "Thumb" = false ∧
    validateFileSpecDictEntryEFDict acceptAll (paramsTable V17 .ValidationStrict)
      thumbAfterNullParams = .error .nilDereference ∧
    validateFileSpecDictEntryEFDict acceptAll (paramsTable V17 .ValidationStrict)
      thumbBeforeNullParams =
      .error (.errorf "validateFileSpecEntriesEFAndRF: invalid key: %s" ["Thumb"]) ∧
    validateFileSpecDictEntryEFDict acceptAll (paramsTable V17 .ValidationStrict)
      thumbAfterPlain =
      .error (.errorf "validateFileSpecEntriesEFAndRF: invalid key: %s" ["Thumb"]) :=
  ⟨fun k => by simp [validateFileSpecDictEntriesEFAndRFKeys, or_assoc], rfl, rfl, rfl, rfl⟩

/-- C30. On the related files array of an embedded file stream whose Params
entry resolves to Null and a Null description, `validateEFDictFilesArray`
returns no error: the run ends in the read through the nil dictionary at the
stream, before the Null entry is read. With a stream without Params the error
for the Null entry is returned. An RF value that resolves to Null, under a key
that EF has, is passed over without error. -/
theorem C30_nil_dictionary_before_null_entry :
    nullAfterNullParams.length % 2 = 0 ∧
    validateEFDictFilesArray acceptAll (paramsTable V17 .ValidationStrict)
      nullAfterNullParams = .error .nilDereference ∧
    validateEFDictFilesArray acceptAll (paramsTable V17 .ValidationStrict) nullAfterPlain =
      .error (.errorf "validateEFDictFilesArray: rfDict, array entry nil" []) ∧
    validateFileSpecDictEntriesEFAndRF acceptAll (paramsTable V17 .ValidationStrict)
      (some plainEF) (some [("F", .PDFIndirectRef 9 0)]) = .ok () :=
  ⟨rfl, rfl, rfl, rfl⟩

/-! ### A Type entry that is a reference -/

end Pdfcpu
